import Mathlib

/-!
Shallow embedding of the `cryxtal-view` interactive-viewport core
(crates/cryxtal-view/src/viewer/{math,ui,pick,mesh,viewcube,axis_gizmo,
pivot,input,state}.rs) and proofs about the frozen claims.

Modelling conventions:
* Rust `f64`/`f32` values are modelled as exact real numbers `ℝ`; the
  `as f64`/`as f32` casts of the source are the identity.  Numeric literals
  (`1.0e-9`, `0.35`, ...) are carried over verbatim as real literals.
* `f64::INFINITY` (the initial best-hit distance of the ray casts) is
  modelled as `⊤ : WithTop ℝ`.
* Rust structs become structures, `Option` stays `Option`, mutation of
  `&mut self` becomes a function returning the updated state.
* Rust slice indexing `xs[i]` (always in range in the source) is modelled
  with `List.getD` with a default; every consumer of an index uses the same
  lookup, so the model is self-consistent.
* The flat BVH arena (`Vec<BvhNode>` with child indices, built by
  `build_bvh_node` pushing the node before recursing into its children) is
  modelled as the tree it encodes (`BvhTree`); the explicit `Vec<usize>`
  traversal stack of `ray_pick` becomes a `List BvhTree` of the subtree
  roots those indices denote, and the per-leaf slices of `bvh_indices`
  become the index list stored at each leaf.
-/

noncomputable section

/-- `viewer/math.rs` `Vec3`: double precision 3-vector. -/
structure Vec3 where
  x : ℝ
  y : ℝ
  z : ℝ
deriving DecidableEq

namespace Vec3

/-- `Vec3::ZERO`. -/
def ZERO : Vec3 := ⟨0, 0, 0⟩

/-- `Vec3::dot`. -/
def dot (a b : Vec3) : ℝ := a.x * b.x + a.y * b.y + a.z * b.z

/-- `Vec3::cross`. -/
def cross (a b : Vec3) : Vec3 :=
  ⟨a.y * b.z - a.z * b.y, a.z * b.x - a.x * b.z, a.x * b.y - a.y * b.x⟩

/-- `Vec3::length`. -/
def length (a : Vec3) : ℝ := Real.sqrt (a.dot a)

/-- `impl Add for Vec3`. -/
def add (a b : Vec3) : Vec3 := ⟨a.x + b.x, a.y + b.y, a.z + b.z⟩

/-- `impl Sub for Vec3`. -/
def sub (a b : Vec3) : Vec3 := ⟨a.x - b.x, a.y - b.y, a.z - b.z⟩

/-- `impl Neg for Vec3`. -/
def neg (a : Vec3) : Vec3 := ⟨-a.x, -a.y, -a.z⟩

/-- `impl Mul<f64> for Vec3`. -/
def scale (a : Vec3) (r : ℝ) : Vec3 := ⟨a.x * r, a.y * r, a.z * r⟩

/-- `impl Div<f64> for Vec3`. -/
def divScalar (a : Vec3) (r : ℝ) : Vec3 := ⟨a.x / r, a.y / r, a.z / r⟩

/-- `f64::EPSILON` = 2⁻⁵². -/
def f64Epsilon : ℝ := 1 / 2 ^ 52

/-- `Vec3::normalized`: zero vector for near-zero length. -/
def normalized (a : Vec3) : Vec3 :=
  if a.length ≤ f64Epsilon then ZERO else a.divScalar a.length

/-- `Vec3::max_component`. -/
def max_component (a : Vec3) : ℝ := max (max |a.x| |a.y|) |a.z|

/-- `Vec3::min` (componentwise). -/
def cmin (a b : Vec3) : Vec3 := ⟨min a.x b.x, min a.y b.y, min a.z b.z⟩

/-- `Vec3::max` (componentwise). -/
def cmax (a b : Vec3) : Vec3 := ⟨max a.x b.x, max a.y b.y, max a.z b.z⟩

end Vec3

/-- `viewer/math.rs` `rotate_around_axis`: axis-angle rotation of `point`
about the line through `origin` with direction `axis`. -/
def rotate_around_axis (point origin axis : Vec3) (angle : ℝ) : Vec3 :=
  let ax := axis.normalized
  let v := point.sub origin
  let c := Real.cos angle
  let s := Real.sin angle
  let rotated := ((v.scale c).add ((ax.cross v).scale s)).add
    ((ax.scale (ax.dot v)).scale (1 - c))
  origin.add rotated

/-- `viewer/ui.rs` `Point2` (f32 point, modelled over ℝ). -/
structure Point2 where
  x : ℝ
  y : ℝ

/-- `viewer/ui.rs` `Vec2`. -/
structure Vec2 where
  x : ℝ
  y : ℝ

/-- `viewer/ui.rs` `Rect`. -/
structure Rect where
  rmin : Point2
  rmax : Point2

namespace Vec2

/-- `Vec2::length`. -/
def length (v : Vec2) : ℝ := Real.sqrt (v.x * v.x + v.y * v.y)

/-- `Vec2::dot`. -/
def dot (a b : Vec2) : ℝ := a.x * b.x + a.y * b.y

/-- `impl Add<Vec2> for Vec2`. -/
def add (a b : Vec2) : Vec2 := ⟨a.x + b.x, a.y + b.y⟩

/-- `impl Mul<f32> for Vec2`. -/
def scale (a : Vec2) (r : ℝ) : Vec2 := ⟨a.x * r, a.y * r⟩

end Vec2

namespace Point2

/-- `impl Sub<Point2> for Point2` (gives a `Vec2`). -/
def sub (a b : Point2) : Vec2 := ⟨a.x - b.x, a.y - b.y⟩

/-- `impl Add<Vec2> for Point2`. -/
def addVec (a : Point2) (v : Vec2) : Point2 := ⟨a.x + v.x, a.y + v.y⟩

/-- `Point2::distance`. -/
def distance (a b : Point2) : ℝ := (a.sub b).length

end Point2

namespace Rect

/-- `Rect::from_min_size`. -/
def from_min_size (m : Point2) (size : Vec2) : Rect :=
  ⟨m, ⟨m.x + size.x, m.y + size.y⟩⟩

/-- `Rect::width`. -/
def width (r : Rect) : ℝ := r.rmax.x - r.rmin.x

/-- `Rect::height`. -/
def height (r : Rect) : ℝ := r.rmax.y - r.rmin.y

/-- `Rect::center`. -/
def center (r : Rect) : Point2 :=
  ⟨(r.rmin.x + r.rmax.x) * 0.5, (r.rmin.y + r.rmax.y) * 0.5⟩

/-- `Rect::right`. -/
def right (r : Rect) : ℝ := r.rmax.x

/-- `Rect::top`. -/
def top (r : Rect) : ℝ := r.rmin.y

/-- `Rect::contains` (as a decidable proposition). -/
def contains (r : Rect) (p : Point2) : Prop :=
  p.x ≥ r.rmin.x ∧ p.x ≤ r.rmax.x ∧ p.y ≥ r.rmin.y ∧ p.y ≤ r.rmax.y

instance (r : Rect) (p : Point2) : Decidable (r.contains p) := by
  unfold contains; infer_instance

/-- `Rect::intersects`. -/
def intersects (r other : Rect) : Prop :=
  r.rmin.x ≤ other.rmax.x ∧ r.rmax.x ≥ other.rmin.x ∧
  r.rmin.y ≤ other.rmax.y ∧ r.rmax.y ≥ other.rmin.y

instance (r other : Rect) : Decidable (r.intersects other) := by
  unfold intersects; infer_instance

end Rect

/-- `viewer/pick.rs` `point_in_triangle` (sign test on the three edge
cross-products). -/
def point_in_triangle (p a b c : Point2) : Prop :=
  let ab := b.sub a
  let ap := p.sub a
  let bc := c.sub b
  let bp := p.sub b
  let ca := a.sub c
  let cp := p.sub c
  let d1 := ab.x * ap.y - ab.y * ap.x
  let d2 := bc.x * bp.y - bc.y * bp.x
  let d3 := ca.x * cp.y - ca.y * cp.x
  ¬ ((d1 < 0 ∨ d2 < 0 ∨ d3 < 0) ∧ (d1 > 0 ∨ d2 > 0 ∨ d3 > 0))

instance (p a b c : Point2) : Decidable (point_in_triangle p a b c) := by
  unfold point_in_triangle; infer_instance

/-- The `1.0e-9` epsilon of `ray_intersect_triangle`. -/
def rayTriangleEps : ℝ := 1.0e-9

/-- `viewer/pick.rs` `ray_intersect_triangle` (Möller–Trumbore, rejecting
near-parallel configurations and hits at parameter `t ≤ 1e-9`). -/
def ray_intersect_triangle (origin dir a b c : Vec3) : Option ℝ :=
  let eps := rayTriangleEps
  let edge1 := b.sub a
  let edge2 := c.sub a
  let pvec := dir.cross edge2
  let det := edge1.dot pvec
  if |det| < eps then none
  else
    let inv_det := 1 / det
    let tvec := origin.sub a
    let u := tvec.dot pvec * inv_det
    if ¬ (0 ≤ u ∧ u ≤ 1) then none
    else
      let qvec := tvec.cross edge1
      let v := dir.dot qvec * inv_det
      if v < 0 ∨ u + v > 1 then none
      else
        let t := edge2.dot qvec * inv_det
        if t > eps then some t else none

/-- `viewer/mesh.rs` `BVH_LEAF_SIZE`. -/
def BVH_LEAF_SIZE : ℕ := 8

/-- The per-triangle AABB computed at the top of `build_bvh`. -/
def tri_bound (positions : List Vec3) (tri : ℕ × ℕ × ℕ) : Vec3 × Vec3 :=
  let p0 := positions.getD tri.1 Vec3.ZERO
  let p1 := positions.getD tri.2.1 Vec3.ZERO
  let p2 := positions.getD tri.2.2 Vec3.ZERO
  ((p0.cmin p1).cmin p2, (p0.cmax p1).cmax p2)

/-- The per-triangle centroid computed at the top of `build_bvh`. -/
def tri_centroid (positions : List Vec3) (tri : ℕ × ℕ × ℕ) : Vec3 :=
  let p0 := positions.getD tri.1 Vec3.ZERO
  let p1 := positions.getD tri.2.1 Vec3.ZERO
  let p2 := positions.getD tri.2.2 Vec3.ZERO
  ((p0.add p1).add p2).scale (1 / 3)

/-- `viewer/mesh.rs` `axis_value`. -/
def axis_value (v : Vec3) (axis : ℕ) : ℝ :=
  match axis with
  | 0 => v.x
  | 1 => v.y
  | _ => v.z

/-- `viewer/mesh.rs` `bounds_for_indices` (the slice is never empty in the
source; the `[]` case is unreachable). -/
def bounds_for_indices (indices : List ℕ) (tb : List (Vec3 × Vec3)) : Vec3 × Vec3 :=
  match indices with
  | [] => (Vec3.ZERO, Vec3.ZERO)
  | i :: rest =>
    rest.foldl (fun acc j =>
      let b := tb.getD j (Vec3.ZERO, Vec3.ZERO)
      (acc.1.cmin b.1, acc.2.cmax b.2)) (tb.getD i (Vec3.ZERO, Vec3.ZERO))

/-- `viewer/mesh.rs` `centroid_bounds` (same unreachable `[]` case). -/
def centroid_bounds (indices : List ℕ) (cen : List Vec3) : Vec3 × Vec3 :=
  match indices with
  | [] => (Vec3.ZERO, Vec3.ZERO)
  | i :: rest =>
    rest.foldl (fun acc j =>
      let c := cen.getD j Vec3.ZERO
      (acc.1.cmin c, acc.2.cmax c)) (cen.getD i Vec3.ZERO, cen.getD i Vec3.ZERO)

/-- The tree encoded by the flat `Vec<BvhNode>` arena: a `BvhNode` with
`count > 0` is a leaf holding its slice of `bvh_indices`, one with children
is a branch. -/
inductive BvhTree where
  | leaf (bounds : Vec3 × Vec3) (tris : List ℕ)
  | branch (bounds : Vec3 × Vec3) (left right : BvhTree)

/-- The `bounds` field of a node. -/
def BvhTree.bounds : BvhTree → Vec3 × Vec3
  | .leaf b _ => b
  | .branch b _ _ => b

/-- Number of nodes of a subtree (used as the traversal measure). -/
def BvhTree.size : BvhTree → ℕ
  | .leaf _ _ => 1
  | .branch _ l r => 1 + l.size + r.size

/-- `viewer/mesh.rs` `build_bvh_node`: median split on the axis of largest
centroid extent, leaves capped at `BVH_LEAF_SIZE` triangles. -/
def build_bvh_node (tb : List (Vec3 × Vec3)) (cen : List Vec3)
    (indices : List ℕ) : BvhTree :=
  let bounds := bounds_for_indices indices tb
  if indices.length ≤ BVH_LEAF_SIZE then
    .leaf bounds indices
  else
    let cb := centroid_bounds indices cen
    let extent := cb.2.sub cb.1
    let axis : ℕ :=
      if extent.x ≥ extent.y ∧ extent.x ≥ extent.z then 0
      else if extent.y ≥ extent.z then 1 else 2
    let sorted := indices.mergeSort (fun a b =>
      decide (axis_value (cen.getD a Vec3.ZERO) axis
        ≤ axis_value (cen.getD b Vec3.ZERO) axis))
    let mid := sorted.length / 2
    .branch bounds (build_bvh_node tb cen (sorted.take mid))
      (build_bvh_node tb cen (sorted.drop mid))
termination_by indices.length
decreasing_by
  all_goals
    simp_all [List.length_take, List.length_drop, List.length_mergeSort,
      BVH_LEAF_SIZE]
  all_goals omega

/-- `viewer/mesh.rs` `build_bvh`. -/
def build_bvh (positions : List Vec3) (tri_faces : List (ℕ × ℕ × ℕ)) :
    Option BvhTree :=
  if tri_faces.isEmpty ∨ positions.isEmpty then none
  else some (build_bvh_node (tri_faces.map (tri_bound positions))
    (tri_faces.map (tri_centroid positions)) (List.range tri_faces.length))

/-- The `check_axis` closure of `ray_aabb_interval`: the state is the
running `(tmin, tmax)` interval, `none` means the closure returned `false`
(the caller aborts, discarding the state). -/
def check_axis (o d mn mx : ℝ) (st : ℝ × WithTop ℝ) : Option (ℝ × WithTop ℝ) :=
  if |d| ≤ 1.0e-9 then
    if o ≥ mn ∧ o ≤ mx then some st else none
  else
    let inv := 1 / d
    let t1 := (mn - o) * inv
    let t2 := (mx - o) * inv
    let axis_min := min t1 t2
    let axis_max := max t1 t2
    let tmin := max st.1 axis_min
    let tmax := min st.2 (axis_max : WithTop ℝ)
    if (tmin : WithTop ℝ) ≤ tmax then some (tmin, tmax) else none

/-- `viewer/mesh.rs` `ray_aabb_interval`: slab test against `bounds`, with
the interval clipped to `[0, max_t]` (`max_t = ⊤` models `f64::INFINITY`). -/
def ray_aabb_interval (origin dir : Vec3) (bounds : Vec3 × Vec3)
    (max_t : WithTop ℝ) : Option (ℝ × WithTop ℝ) :=
  (check_axis origin.x dir.x bounds.1.x bounds.2.x (0, max_t)).bind fun st1 =>
  (check_axis origin.y dir.y bounds.1.y bounds.2.y st1).bind fun st2 =>
  (check_axis origin.z dir.z bounds.1.z bounds.2.z st2).bind fun st3 =>
  if st3.2 < (0 : WithTop ℝ) then none else some st3

/-- The running best hit distance (`f64::INFINITY` when no hit yet). -/
def best_t (best : Option (ℝ × Vec3)) : WithTop ℝ :=
  match best with
  | none => ⊤
  | some p => (p.1 : WithTop ℝ)

/-- One triangle test of the leaf loop of `ray_pick` (also the body of the
`ray_pick_linear` loop): improve `best` if triangle `i` hits closer. -/
def consider_tri (origin dir : Vec3) (positions : List Vec3)
    (tri_faces : List (ℕ × ℕ × ℕ)) (best : Option (ℝ × Vec3)) (i : ℕ) :
    Option (ℝ × Vec3) :=
  let tri := tri_faces.getD i (0, 0, 0)
  let p0 := positions.getD tri.1 Vec3.ZERO
  let p1 := positions.getD tri.2.1 Vec3.ZERO
  let p2 := positions.getD tri.2.2 Vec3.ZERO
  match ray_intersect_triangle origin dir p0 p1 p2 with
  | some t =>
    if (t : WithTop ℝ) < best_t best then some (t, origin.add (dir.scale t))
    else best
  | none => best

/-- The `while let Some(node_idx) = stack.pop()` loop of
`ViewerMesh::ray_pick`: the stack holds the subtrees the pending node
indices denote; children are pushed so that the nearer-entry child is
popped first. -/
def ray_pick_stack (origin dir : Vec3) (positions : List Vec3)
    (tri_faces : List (ℕ × ℕ × ℕ)) :
    List BvhTree → Option (ℝ × Vec3) → Option (ℝ × Vec3)
  | [], best => best
  | BvhTree.leaf b tris :: rest, best =>
    match ray_aabb_interval origin dir b (best_t best) with
    | none => ray_pick_stack origin dir positions tri_faces rest best
    | some _ =>
      ray_pick_stack origin dir positions tri_faces rest
        (tris.foldl (consider_tri origin dir positions tri_faces) best)
  | BvhTree.branch b l r :: rest, best =>
    match ray_aabb_interval origin dir b (best_t best) with
    | none => ray_pick_stack origin dir positions tri_faces rest best
    | some _ =>
      let left_hit := (ray_aabb_interval origin dir l.bounds (best_t best)).map
        fun st => st.1
      let right_hit := (ray_aabb_interval origin dir r.bounds (best_t best)).map
        fun st => st.1
      match left_hit, right_hit with
      | some lt0, some rt0 =>
        if lt0 ≤ rt0 then
          ray_pick_stack origin dir positions tri_faces (l :: r :: rest) best
        else
          ray_pick_stack origin dir positions tri_faces (r :: l :: rest) best
      | some _, none =>
        ray_pick_stack origin dir positions tri_faces (l :: rest) best
      | none, some _ =>
        ray_pick_stack origin dir positions tri_faces (r :: rest) best
      | none, none => ray_pick_stack origin dir positions tri_faces rest best
termination_by stack _ => (stack.map BvhTree.size).sum
decreasing_by
  all_goals simp [BvhTree.size, List.map_cons, List.sum_cons]
  all_goals omega

/-- `viewer/mesh.rs` `ViewerMesh` (the `edge_info` metadata, used only by
the wireframe extractor, is not needed by any claim and is omitted; the
`bvh_nodes`/`bvh_indices` arena is the optional tree `bvh`, `none` = empty
node list). -/
structure ViewerMesh where
  positions : List Vec3
  tri_faces : List (ℕ × ℕ × ℕ)
  edges : List (ℕ × ℕ)
  bounds : Option (Vec3 × Vec3)
  bvh : Option BvhTree

/-- `ViewerMesh::ray_pick_linear`: scan every triangle in order. -/
def ViewerMesh.ray_pick_linear (m : ViewerMesh) (origin dir : Vec3) :
    Option (ℝ × Vec3) :=
  (List.range m.tri_faces.length).foldl
    (consider_tri origin dir m.positions m.tri_faces) none

/-- `ViewerMesh::ray_pick`: BVH traversal, falling back to the linear scan
when the BVH node list is empty. -/
def ViewerMesh.ray_pick (m : ViewerMesh) (origin dir : Vec3) :
    Option (ℝ × Vec3) :=
  if m.tri_faces.isEmpty then none
  else
    match m.bvh with
    | none => m.ray_pick_linear origin dir
    | some root => ray_pick_stack origin dir m.positions m.tri_faces [root] none

/-- A mesh as `ViewerMesh::from_mesh` leaves it: whatever triangles the
fan-split and outward orientation produced, with the BVH built from them by
`build_bvh`. -/
def ViewerMesh.with_bvh (positions : List Vec3) (tri_faces : List (ℕ × ℕ × ℕ))
    (edges : List (ℕ × ℕ)) (bounds : Option (Vec3 × Vec3)) : ViewerMesh :=
  ⟨positions, tri_faces, edges, bounds, build_bvh positions tri_faces⟩

/-- `f64::clamp(lo, hi)`. -/
def clampR (x lo hi : ℝ) : ℝ := min (max x lo) hi

/-- `viewer/viewcube.rs` `ViewFace`. -/
inductive ViewFace where
  | top
  | bottom
  | left
  | right
  | front
  | back
deriving DecidableEq

/-- `viewer/viewcube.rs` `ViewTarget`. -/
inductive ViewTarget where
  | face (f : ViewFace)
  | edge (i : ℕ)
  | corner (i : ℕ)
deriving DecidableEq

/-- `viewer/viewcube.rs` `ViewPick`. -/
structure ViewPick where
  target : ViewTarget
  normal : Vec3

/-- `viewer/viewcube.rs` `ViewBasis`. -/
structure ViewBasis where
  right : Vec3
  up : Vec3
  forward : Vec3

/-- `viewer/viewcube.rs` `GIZMO_PICK_INSET`. -/
def GIZMO_PICK_INSET : ℝ := 0.85

/-- `viewer/viewcube.rs` `GIZMO_PICK_RADIUS`. -/
def GIZMO_PICK_RADIUS : ℝ := 0.6706

/-- `viewer/viewcube.rs` `FACE_SCALE`. -/
def FACE_SCALE : ℝ := 0.7945

/-- `viewer/viewcube.rs` `EDGE_SCALE`. -/
def EDGE_SCALE : ℝ := 0.8757

/-- `viewer/viewcube.rs` `CORNER_SCALE`. -/
def CORNER_SCALE : ℝ := 0.7011

/-- `viewer/viewcube.rs` `rect`: the gizmo square anchored to the top-right
viewport corner. -/
def ViewCube.rect (viewport : Rect) : Rect :=
  let size := clampR (min viewport.width viewport.height * 0.22) 70 120
  let padding : ℝ := 12
  Rect.from_min_size ⟨viewport.right - padding - size, viewport.top + padding⟩
    ⟨size, size⟩

/-- `viewer/viewcube.rs` `cube_vertices`. -/
def cube_vertices : List Vec3 :=
  [⟨-0.5, -0.5, -0.5⟩, ⟨0.5, -0.5, -0.5⟩, ⟨0.5, 0.5, -0.5⟩, ⟨-0.5, 0.5, -0.5⟩,
   ⟨-0.5, -0.5, 0.5⟩, ⟨0.5, -0.5, 0.5⟩, ⟨0.5, 0.5, 0.5⟩, ⟨-0.5, 0.5, 0.5⟩]

/-- `viewer/viewcube.rs` `cube_vertices_scaled`. -/
def cube_vertices_scaled (scale : ℝ) : List Vec3 :=
  let h := 0.5 * scale
  [⟨-h, -h, -h⟩, ⟨h, -h, -h⟩, ⟨h, h, -h⟩, ⟨-h, h, -h⟩,
   ⟨-h, -h, h⟩, ⟨h, -h, h⟩, ⟨h, h, h⟩, ⟨-h, h, h⟩]

/-- `viewer/viewcube.rs` `gizmo_pick_scale`. -/
def gizmo_pick_scale (rect : Rect) : ℝ :=
  let size := min rect.width rect.height
  size * 0.5 * GIZMO_PICK_INSET / GIZMO_PICK_RADIUS

/-- `viewer/viewcube.rs` `ProjectedCube`: per-vertex view-space coordinates
and projected screen points. -/
structure ProjectedCube where
  view : List Vec3
  points : List Point2

/-- `viewer/viewcube.rs` `project_vertices`. -/
def project_vertices (rect : Rect) (basis : ViewBasis) (vertices : List Vec3) :
    ProjectedCube :=
  let center := rect.center
  let scale := gizmo_pick_scale rect
  let view := vertices.map fun v =>
    (⟨v.dot basis.right, v.dot basis.up, v.dot basis.forward⟩ : Vec3)
  let points := view.map fun w =>
    (⟨center.x + w.x * scale, center.y - w.y * scale⟩ : Point2)
  ⟨view, points⟩

/-- `viewer/viewcube.rs` `project_scaled_cube`. -/
def project_scaled_cube (rect : Rect) (basis : ViewBasis) (scale : ℝ) :
    ProjectedCube :=
  project_vertices rect basis (cube_vertices_scaled scale)

/-- `viewer/viewcube.rs` `project_cube`. -/
def project_cube (rect : Rect) (basis : ViewBasis) : ProjectedCube :=
  project_scaled_cube rect basis FACE_SCALE

/-- `viewer/viewcube.rs` `EDGE_DEFS`. -/
def EDGE_DEFS : List (ℕ × ℕ) :=
  [(0, 1), (1, 2), (2, 3), (3, 0), (4, 5), (5, 6), (6, 7), (7, 4),
   (0, 4), (1, 5), (2, 6), (3, 7)]

/-- A face of `face_defs` (the drawing-only `label` and `base_color` fields
are omitted). -/
structure FaceDef where
  face : ViewFace
  normal : Vec3
  indices : List ℕ

/-- `viewer/viewcube.rs` `face_defs`. -/
def face_defs : List FaceDef :=
  [⟨.front, ⟨0, -1, 0⟩, [0, 1, 5, 4]⟩,
   ⟨.back, ⟨0, 1, 0⟩, [3, 2, 6, 7]⟩,
   ⟨.right, ⟨1, 0, 0⟩, [1, 2, 6, 5]⟩,
   ⟨.left, ⟨-1, 0, 0⟩, [0, 3, 7, 4]⟩,
   ⟨.top, ⟨0, 0, 1⟩, [4, 5, 6, 7]⟩,
   ⟨.bottom, ⟨0, 0, -1⟩, [0, 1, 2, 3]⟩]

/-- `viewer/viewcube.rs` `face_normal`. -/
def face_normal (face : ViewFace) : Vec3 :=
  match face with
  | .front => ⟨0, -1, 0⟩
  | .back => ⟨0, 1, 0⟩
  | .right => ⟨1, 0, 0⟩
  | .left => ⟨-1, 0, 0⟩
  | .top => ⟨0, 0, 1⟩
  | .bottom => ⟨0, 0, -1⟩

/-- A projected face of `compute_faces` (drawing-only `color`, `label`,
`center` fields omitted). -/
structure ProjectedFace where
  face : ViewFace
  points : List Point2
  depth : ℝ

/-- `viewer/viewcube.rs` `compute_faces`: keep the camera-facing faces,
project their quads, sort back-to-front by depth. -/
def compute_faces (projected : ProjectedCube) (basis : ViewBasis) :
    List ProjectedFace :=
  let pfs := face_defs.filterMap fun fd =>
    let facing := -(fd.normal.dot basis.forward)
    if facing ≤ 0 then none
    else
      let pts := fd.indices.map fun i => projected.points.getD i ⟨0, 0⟩
      let zsum := (fd.indices.map fun i =>
        (projected.view.getD i Vec3.ZERO).z).sum
      some (⟨fd.face, pts, -(zsum / 4)⟩ : ProjectedFace)
  pfs.mergeSort fun a b => decide (a.depth ≤ b.depth)

/-- `viewer/viewcube.rs` `point_in_quad`: two-triangle decomposition. -/
def point_in_quad (p : Point2) (quad : List Point2) : Prop :=
  point_in_triangle p (quad.getD 0 ⟨0, 0⟩) (quad.getD 1 ⟨0, 0⟩)
    (quad.getD 2 ⟨0, 0⟩) ∨
  point_in_triangle p (quad.getD 0 ⟨0, 0⟩) (quad.getD 2 ⟨0, 0⟩)
    (quad.getD 3 ⟨0, 0⟩)

instance (p : Point2) (quad : List Point2) : Decidable (point_in_quad p quad) := by
  unfold point_in_quad; infer_instance

/-- `viewer/viewcube.rs` `pick_face_from_faces`: among the faces whose quad
contains the cursor, the one with the largest depth value wins. -/
def pick_face_from_faces (pos : Point2) (faces : List ProjectedFace) :
    Option ViewFace :=
  let best := faces.foldl (fun best f =>
    if point_in_quad pos f.points then
      match best with
      | some (depth, face) =>
        if f.depth ≤ depth then some (depth, face) else some (f.depth, f.face)
      | none => some (f.depth, f.face)
    else best) (none : Option (ℝ × ViewFace))
  best.map fun p => p.2

/-- `viewer/viewcube.rs` `point_to_segment_distance`. -/
def point_to_segment_distance (p a b : Point2) : ℝ :=
  let ab := b.sub a
  let ap := p.sub a
  let denom := max (ab.dot ab) 1.0e-6
  let t := clampR (ap.dot ab / denom) 0 1
  let proj := a.addVec (ab.scale t)
  p.distance proj

/-- The accumulator update shared (verbatim) by the `match best` arms of
`pick_corner` and `pick_edge`: a candidate more than `0.1 px` closer, or
within `0.1 px` and deeper, replaces the best. -/
def pick_best_update (idx : ℕ) (dist depth : ℝ)
    (best : Option (ℕ × ℝ × ℝ)) : Option (ℕ × ℝ × ℝ) :=
  match best with
  | some (bidx, bdist, bdepth) =>
    if dist < bdist - 0.1 ∨ (|dist - bdist| ≤ 0.1 ∧ depth > bdepth) then
      some (idx, dist, depth)
    else some (bidx, bdist, bdepth)
  | none => some (idx, dist, depth)

/-- `viewer/viewcube.rs` `pick_corner`: nearest front-facing corner within
the pick radius; 0.1 px ties go to the greater depth. -/
def pick_corner (pos : Point2) (rect : Rect) (basis : ViewBasis) : Option ℕ :=
  let projected := project_scaled_cube rect basis CORNER_SCALE
  let size := min rect.width rect.height
  let radius := clampR (size * 0.1) 7 12
  let best := (List.range 8).foldl (fun best idx =>
    let point := projected.points.getD idx ⟨0, 0⟩
    let dist := pos.distance point
    if dist ≤ radius then
      let depth := -(projected.view.getD idx Vec3.ZERO).z
      if depth ≤ 0 then best
      else pick_best_update idx dist depth best
    else best) (none : Option (ℕ × ℝ × ℝ))
  best.map fun b => b.1

/-- `viewer/viewcube.rs` `pick_edge`: nearest front-facing edge within the
perpendicular-distance threshold; 0.1 px ties go to the greater depth. -/
def pick_edge (pos : Point2) (rect : Rect) (basis : ViewBasis) : Option ℕ :=
  let projected := project_scaled_cube rect basis EDGE_SCALE
  let size := min rect.width rect.height
  let threshold := clampR (size * 0.06) 6 9
  let best := EDGE_DEFS.enum.foldl (fun best entry =>
    let a := projected.points.getD entry.2.1 ⟨0, 0⟩
    let b := projected.points.getD entry.2.2 ⟨0, 0⟩
    let dist := point_to_segment_distance pos a b
    if dist ≤ threshold then
      let depth := -((projected.view.getD entry.2.1 Vec3.ZERO).z +
        (projected.view.getD entry.2.2 Vec3.ZERO).z) * 0.5
      if depth ≤ 0 then best
      else pick_best_update entry.1 dist depth best
    else best) (none : Option (ℕ × ℝ × ℝ))
  best.map fun b => b.1

/-- `viewer/viewcube.rs` `pick_target`: corner first, then edge, then
face. -/
def ViewCube.pick_target (pos : Point2) (viewport : Rect) (basis : ViewBasis) :
    Option ViewPick :=
  let rect := ViewCube.rect viewport
  if ¬ rect.contains pos then none
  else
    let projected := project_cube rect basis
    match pick_corner pos rect basis with
    | some corner_idx =>
      some ⟨.corner corner_idx, (cube_vertices.getD corner_idx Vec3.ZERO).normalized⟩
    | none =>
      match pick_edge pos rect basis with
      | some edge_idx =>
        let ed := EDGE_DEFS.getD edge_idx (0, 0)
        let normal := ((cube_vertices.getD ed.1 Vec3.ZERO).add
          (cube_vertices.getD ed.2 Vec3.ZERO)).scale 0.5
        some ⟨.edge edge_idx, normal.normalized⟩
      | none =>
        match pick_face_from_faces pos (compute_faces projected basis) with
        | some face => some ⟨.face face, face_normal face⟩
        | none => none

/-- `viewer/viewcube.rs` `view_direction_from_normal`. -/
def view_direction_from_normal (normal : Vec3) : Vec3 :=
  ⟨-normal.x, -normal.y, -normal.z⟩

/-- `viewer/axis_gizmo.rs` `AxisTarget`. -/
inductive AxisTarget where
  | posX
  | negX
  | posY
  | negY
  | posZ
  | negZ
deriving DecidableEq

/-- `viewer/axis_gizmo.rs` `AxisPick`. -/
structure AxisPick where
  target : AxisTarget
  forward : Vec3

/-- `viewer/axis_gizmo.rs` `AXIS_LENGTH`. -/
def AXIS_LENGTH : ℝ := 0.9

/-- `viewer/axis_gizmo.rs` `AXIS_TARGETS`. -/
def AXIS_TARGETS : List AxisTarget :=
  [.posX, .negX, .posY, .negY, .posZ, .negZ]

/-- `viewer/axis_gizmo.rs` `rect` (same square as the view-cube). -/
def AxisGizmo.rect (viewport : Rect) : Rect :=
  let size := clampR (min viewport.width viewport.height * 0.22) 70 120
  let padding : ℝ := 12
  Rect.from_min_size ⟨viewport.right - padding - size, viewport.top + padding⟩
    ⟨size, size⟩

/-- `viewer/axis_gizmo.rs` `axis_direction`. -/
def axis_direction (target : AxisTarget) : Vec3 :=
  match target with
  | .posX => ⟨1, 0, 0⟩
  | .negX => ⟨-1, 0, 0⟩
  | .posY => ⟨0, 1, 0⟩
  | .negY => ⟨0, -1, 0⟩
  | .posZ => ⟨0, 0, 1⟩
  | .negZ => ⟨0, 0, -1⟩

/-- `viewer/axis_gizmo.rs` `axis_view_direction`. -/
def axis_view_direction (target : AxisTarget) : Vec3 :=
  let dir := axis_direction target
  ⟨-dir.x, -dir.y, -dir.z⟩

/-- `viewer/axis_gizmo.rs` `project_axis`. -/
def project_axis (dir : Vec3) (basis : ViewBasis) (center : Point2)
    (scale : ℝ) : Point2 × ℝ :=
  let view := (⟨dir.dot basis.right, dir.dot basis.up, dir.dot basis.forward⟩ :
    Vec3).scale AXIS_LENGTH
  (⟨center.x + view.x * scale, center.y - view.y * scale⟩, -view.z)

/-- `viewer/axis_gizmo.rs` `pick_target`: deepest bulb within the pick
radius, 1e-6 depth ties going to the closer bulb. -/
def AxisGizmo.pick_target (pos : Point2) (viewport : Rect)
    (basis : ViewBasis) : Option AxisPick :=
  let rect := AxisGizmo.rect viewport
  if ¬ rect.contains pos then none
  else
    let size := min rect.width rect.height
    let center := rect.center
    if center.distance pos > size * 0.5 then none
    else
      let axis_scale := size * 0.35
      let head_radius := clampR (size * 0.07) 4.5 8.5
      let pick_radius := head_radius * 1.35
      let best := AXIS_TARGETS.foldl (fun best target =>
        let dir := axis_direction target
        let ad := project_axis dir basis center axis_scale
        let dist := pos.distance ad.1
        if dist > pick_radius then best
        else
          match best with
          | some (btarget, bdepth, bdist) =>
            if ad.2 > bdepth + 1.0e-6 ∨ (|ad.2 - bdepth| ≤ 1.0e-6 ∧ dist < bdist)
            then some (target, ad.2, dist)
            else some (btarget, bdepth, bdist)
          | none => some (target, ad.2, dist)) (none : Option (AxisTarget × ℝ × ℝ))
      best.map fun b => ⟨b.1, axis_view_direction b.1⟩

/-- `viewer/input.rs` `Modifiers`. -/
structure Modifiers where
  shift : Bool
  ctrl : Bool

/-- `viewer/input.rs` `ViewerInput`: one immutable input snapshot per
frame. -/
structure ViewerInput where
  rect : Rect
  pointer_pos : Option Point2
  pointer_delta : Vec2
  primary_down : Bool
  secondary_down : Bool
  middle_down : Bool
  primary_clicked : Bool
  double_clicked : Bool
  scroll_delta : ℝ
  modifiers : Modifiers
  hovered : Bool
  key_v_pressed : Bool
  key_v_down : Bool

/-- `viewer/pivot.rs` `PivotState`. -/
structure PivotState where
  position : Vec3
  pick_mode : Bool

/-- `PivotState::set_position`. -/
def PivotState.set_position (p : PivotState) (position : Vec3) : PivotState :=
  { p with position := position }

/-- `PivotState::arm_pick`. -/
def PivotState.arm_pick (p : PivotState) : PivotState :=
  { p with pick_mode := true }

/-- `PivotState::is_pick_active`. -/
def PivotState.is_pick_active (p : PivotState) (key_down : Bool) : Bool :=
  p.pick_mode || key_down

/-- `PivotState::disarm_pick`. -/
def PivotState.disarm_pick (p : PivotState) : PivotState :=
  { p with pick_mode := false }

/-- `viewer/state.rs` `CameraBasis` (derived per query). -/
structure CameraBasis where
  pos : Vec3
  right : Vec3
  up : Vec3
  forward : Vec3

/-- `viewer/state.rs` `ViewTransition`. -/
structure ViewTransition where
  from_forward : Vec3
  from_up : Vec3
  to_forward : Vec3
  to_up : Vec3
  elapsed : ℝ
  duration : ℝ

/-- `viewer/state.rs` `GizmoMode`. -/
inductive GizmoMode where
  | cube
  | axis
deriving DecidableEq

/-- `viewer/state.rs` `SnapKind`. -/
inductive SnapKind where
  | vertex
  | edgeMidpoint
  | faceCenter
deriving DecidableEq

/-- `viewer/state.rs` `SnapHit`. -/
structure SnapHit where
  kind : SnapKind
  world : Vec3
  screen : Point2
  distance : ℝ
  depth : ℝ

/-- `viewer/state.rs` `SnapCache`. -/
structure SnapCache where
  pos : Point2
  rect : Rect
  camera_pos : Vec3
  camera_target : Vec3
  camera_up : Vec3
  hit : Option SnapHit

/-- `viewer/state.rs` `GIZMO_DRAG_THRESHOLD`. -/
def GIZMO_DRAG_THRESHOLD : ℝ := 2.0

/-- `viewer/state.rs` `GIZMO_DRAG_SPEED`. -/
def GIZMO_DRAG_SPEED : ℝ := 0.015

/-- `viewer/state.rs` `ViewerState`. -/
structure ViewerState where
  target : Vec3
  camera_pos : Vec3
  camera_up : Vec3
  pivot : PivotState
  fov_deg : ℝ
  view_transition : Option ViewTransition
  snap_cache : Option SnapCache
  gizmo_mode : GizmoMode
  gizmo_drag_active : Bool
  gizmo_drag_pos : Option Point2
  gizmo_dragged : Bool

/-- `viewer/state.rs` `snap_radius`. -/
def snap_radius (kind : SnapKind) : ℝ :=
  match kind with
  | .vertex => 7
  | .edgeMidpoint => 7
  | .faceCenter => 9

/-- `viewer/state.rs` `snap_priority`. -/
def snap_priority (kind : SnapKind) : ℕ :=
  match kind with
  | .vertex => 0
  | .edgeMidpoint => 1
  | .faceCenter => 2

/-- `viewer/state.rs` `same_vec3` (exact componentwise equality). -/
def same_vec3 (a b : Vec3) : Prop := a.x = b.x ∧ a.y = b.y ∧ a.z = b.z

instance (a b : Vec3) : Decidable (same_vec3 a b) := by
  unfold same_vec3; infer_instance

/-- `Point2`'s derived `PartialEq` (used by the snap-cache key check). -/
def same_point2 (a b : Point2) : Prop := a.x = b.x ∧ a.y = b.y

instance (a b : Point2) : Decidable (same_point2 a b) := by
  unfold same_point2; infer_instance

/-- `Rect`'s derived `PartialEq` (used by the snap-cache key check). -/
def same_rect (a b : Rect) : Prop :=
  same_point2 a.rmin b.rmin ∧ same_point2 a.rmax b.rmax

instance (a b : Rect) : Decidable (same_rect a b) := by
  unfold same_rect; infer_instance

/-- `f64::to_radians`. -/
def to_radians (x : ℝ) : ℝ := x * Real.pi / 180

/-- `ViewerState::default_up`: an up vector orthogonal to `forward`,
preferring world Z. -/
def ViewerState.default_up (forward : Vec3) : Vec3 :=
  let up0 : Vec3 := ⟨0, 0, 1⟩
  let right0 := forward.cross up0
  let right1 := if right0.length ≤ 1.0e-6 then forward.cross ⟨0, 1, 0⟩ else right0
  (right1.normalized.cross forward).normalized

/-- `ViewerState::forward`. -/
def ViewerState.forward (s : ViewerState) : Vec3 :=
  let dir := s.target.sub s.camera_pos
  if dir.length ≤ Vec3.f64Epsilon then ⟨0, 0, 1⟩ else dir.normalized

/-- `ViewerState::distance_internal`. -/
def ViewerState.distance_internal (s : ViewerState) : ℝ :=
  (s.target.sub s.camera_pos).length

/-- `ViewerState::camera_basis`. -/
def ViewerState.camera_basis (s : ViewerState) : CameraBasis :=
  let forward := s.forward
  let right0 := forward.cross s.camera_up
  let right1 :=
    if right0.length ≤ 1.0e-6 then forward.cross (ViewerState.default_up forward)
    else right0
  let right := right1.normalized
  let up := (right.cross forward).normalized
  ⟨s.camera_pos, right, up, forward⟩

/-- `ViewerState::view_scale`. -/
def ViewerState.view_scale (s : ViewerState) (rect : Rect) : ℝ :=
  let view_size := min rect.width rect.height
  let fov := to_radians s.fov_deg
  let persp := view_size / (2 * Real.tan (fov * 0.5))
  max (persp / max s.distance_internal 1) 1.0e-6

/-- `viewer/state.rs` `project_camera`. -/
def project_camera (camera : Vec3) (center : Point2) (scale near : ℝ) :
    Option (Point2 × ℝ) :=
  if camera.z ≤ near then none
  else some (⟨center.x + camera.x * scale, center.y - camera.y * scale⟩, camera.z)

/-- `ViewerState::project`. -/
def ViewerState.project (_s : ViewerState) (point : Vec3) (rect : Rect)
    (basis : CameraBasis) (scale : ℝ) : Option (Point2 × ℝ) :=
  let rel := point.sub basis.pos
  let camera : Vec3 := ⟨rel.dot basis.right, rel.dot basis.up, rel.dot basis.forward⟩
  project_camera camera rect.center scale 1.0e-4

/-- `viewer/state.rs` `screen_point_on_plane`. -/
def screen_point_on_plane (pos : Point2) (rect : Rect) (basis : CameraBasis)
    (scale : ℝ) (camera_pos plane_point plane_normal : Vec3) : Option Vec3 :=
  if ¬ rect.contains pos then none
  else
    let center := rect.center
    let dx := (pos.x - center.x) / scale
    let dy := (center.y - pos.y) / scale
    let origin := (camera_pos.add (basis.right.scale dx)).add (basis.up.scale dy)
    let dir := basis.forward
    let denom := dir.dot plane_normal
    if |denom| ≤ 1.0e-9 then none
    else
      let t := (plane_point.sub origin).dot plane_normal / denom
      if t ≤ 0 then none
      else some (origin.add (dir.scale t))

/-- The 8 corners of an AABB (as enumerated in `bounds_screen_rect` and
`draw_selection_handles`). -/
def box_corners (bounds : Vec3 × Vec3) : List Vec3 :=
  let mn := bounds.1
  let mx := bounds.2
  [⟨mn.x, mn.y, mn.z⟩, ⟨mx.x, mn.y, mn.z⟩, ⟨mx.x, mx.y, mn.z⟩, ⟨mn.x, mx.y, mn.z⟩,
   ⟨mn.x, mn.y, mx.z⟩, ⟨mx.x, mn.y, mx.z⟩, ⟨mx.x, mx.y, mx.z⟩, ⟨mn.x, mx.y, mx.z⟩]

/-- `ViewerState::bounds_screen_rect`: screen-space bounding rectangle of the
projected box corners with the smallest depth among them.  The source folds
with `±f32::INFINITY` / `f64::INFINITY` initial values plus an `any` flag;
here the accumulator is `none` until the first projected corner, which is
the same function. -/
def ViewerState.bounds_screen_rect (s : ViewerState) (rect : Rect)
    (basis : CameraBasis) (scale : ℝ) (bounds : Vec3 × Vec3) :
    Option (Rect × ℝ) :=
  let acc := (box_corners bounds).foldl (fun acc corner =>
    match s.project corner rect basis scale with
    | some (pos, depth) =>
      match acc with
      | none => some (pos, pos, depth)
      | some (mn, mx, md) =>
        some ((⟨min mn.x pos.x, min mn.y pos.y⟩ : Point2),
          (⟨max mx.x pos.x, max mx.y pos.y⟩ : Point2), min md depth)
    | none => acc) (none : Option (Point2 × Point2 × ℝ))
  acc.map fun a => (⟨a.1, a.2.1⟩, a.2.2)

/-- `ViewerState::screen_ray`. -/
def ViewerState.screen_ray (_s : ViewerState) (pos : Point2) (rect : Rect)
    (basis : CameraBasis) (scale : ℝ) : Option (Vec3 × Vec3) :=
  if ¬ rect.contains pos then none
  else
    let center := rect.center
    let dx := (pos.x - center.x) / scale
    let dy := (center.y - pos.y) / scale
    let origin := (basis.pos.add (basis.right.scale dx)).add (basis.up.scale dy)
    some (origin, basis.forward.normalized)

/-- `ViewerState::pick_on_plane`. -/
def ViewerState.pick_on_plane (_s : ViewerState) (pos : Point2) (rect : Rect)
    (basis : CameraBasis) (scale : ℝ) (plane_z : ℝ) : Option Vec3 :=
  let center := rect.center
  let dx := (pos.x - center.x) / scale
  let dy := (center.y - pos.y) / scale
  let origin := (basis.pos.add (basis.right.scale dx)).add (basis.up.scale dy)
  let dir := basis.forward
  if |dir.z| ≤ 1.0e-6 then none
  else
    let t := (plane_z - origin.z) / dir.z
    if t ≤ 0 then none
    else some (origin.add (dir.scale t))

/-- `ViewerState::pick_mesh_point`: nearest ray hit over all meshes. -/
def ViewerState.pick_mesh_point (s : ViewerState) (pos : Point2) (rect : Rect)
    (meshes : List ViewerMesh) : Option (ℕ × ℝ × Vec3) :=
  let basis := s.camera_basis
  let scale := s.view_scale rect
  match s.screen_ray pos rect basis scale with
  | none => none
  | some (origin, dir) =>
    meshes.enum.foldl (fun best entry =>
      match entry.2.ray_pick origin dir with
      | some (t, point) =>
        match best with
        | some (bidx, bt, bp) =>
          if t ≥ bt then some (bidx, bt, bp) else some (entry.1, t, point)
        | none => some (entry.1, t, point)
      | none => best) none

/-- The `consider` closure of `ViewerState::pick_snap`: accept a candidate
within its kind's pixel radius, preferring (in order) a screen distance
better by more than 0.1 px, then the higher-priority kind, then the smaller
depth. -/
def consider_snap (pos : Point2) (best : Option SnapHit) (kind : SnapKind)
    (world : Vec3) (screen : Point2) (depth : ℝ) : Option SnapHit :=
  let radius := snap_radius kind
  let distance := pos.distance screen
  if distance > radius then best
  else
    let candidate : SnapHit := ⟨kind, world, screen, distance, depth⟩
    match best with
    | none => some candidate
    | some current =>
      if candidate.distance < current.distance - 0.1 then some candidate
      else if |candidate.distance - current.distance| ≤ 0.1 then
        if snap_priority candidate.kind < snap_priority current.kind ∨
            (snap_priority candidate.kind = snap_priority current.kind ∧
              candidate.depth < current.depth) then some candidate
        else some current
      else some current

/-- `ViewerState::pick_snap`: scan every mesh's vertices, edge midpoints and
triangle centroids (with a padded screen-rect pre-check per mesh), folding
`consider_snap` over the candidates. -/
def ViewerState.pick_snap (s : ViewerState) (pos : Point2) (rect : Rect)
    (basis : CameraBasis) (scale : ℝ) (meshes : List ViewerMesh) :
    Option SnapHit :=
  if ¬ rect.contains pos then none
  else
    let pad : ℝ := 10
    meshes.foldl (fun best mesh =>
      let skip : Bool :=
        match mesh.bounds with
        | some bounds =>
          match s.bounds_screen_rect rect basis scale bounds with
          | some (screen_rect, _) =>
            let expanded : Rect :=
              ⟨⟨screen_rect.rmin.x - pad, screen_rect.rmin.y - pad⟩,
               ⟨screen_rect.rmax.x + pad, screen_rect.rmax.y + pad⟩⟩
            ! decide (expanded.contains pos)
          | none => false
        | none => false
      if skip then best
      else
        let b1 := mesh.positions.foldl (fun b point =>
          match s.project point rect basis scale with
          | some (screen, depth) => consider_snap pos b .vertex point screen depth
          | none => b) best
        let b2 := mesh.edges.foldl (fun b edge =>
          let ea := mesh.positions.getD edge.1 Vec3.ZERO
          let eb := mesh.positions.getD edge.2 Vec3.ZERO
          let mid := (ea.add eb).scale 0.5
          match s.project mid rect basis scale with
          | some (screen, depth) => consider_snap pos b .edgeMidpoint mid screen depth
          | none => b) b1
        mesh.tri_faces.foldl (fun b tri =>
          let p0 := mesh.positions.getD tri.1 Vec3.ZERO
          let p1 := mesh.positions.getD tri.2.1 Vec3.ZERO
          let p2 := mesh.positions.getD tri.2.2 Vec3.ZERO
          let fcenter := ((p0.add p1).add p2).scale (1 / 3)
          match s.project fcenter rect basis scale with
          | some (screen, depth) => consider_snap pos b .faceCenter fcenter screen depth
          | none => b) b2) none

/-- `ViewerState::cached_snap`: return the cached hit when the exact
`(cursor, rect, camera pose)` key matches, else recompute `pick_snap` and
store it.  `&mut self` becomes an explicitly returned state. -/
def ViewerState.cached_snap (s : ViewerState) (pos : Point2) (rect : Rect)
    (basis : CameraBasis) (scale : ℝ) (meshes : List ViewerMesh) :
    ViewerState × Option SnapHit :=
  let recompute := fun (_ : Unit) =>
    let hit := s.pick_snap pos rect basis scale meshes
    let entry : SnapCache := ⟨pos, rect, s.camera_pos, s.target, s.camera_up, hit⟩
    ({ s with snap_cache := some entry }, hit)
  match s.snap_cache with
  | some cache =>
    if same_point2 cache.pos pos ∧ same_rect cache.rect rect ∧
        same_vec3 cache.camera_pos s.camera_pos ∧
        same_vec3 cache.camera_target s.target ∧
        same_vec3 cache.camera_up s.camera_up then
      (s, cache.hit)
    else recompute ()
  | none => recompute ()

/-- `ViewerState::invalidate_snap_cache`. -/
def ViewerState.invalidate_snap_cache (s : ViewerState) : ViewerState :=
  { s with snap_cache := none }

/-- `ViewerState::pick_point`: snap hit if active, else nearest mesh hit,
else the plane at the pivot's Z. -/
def ViewerState.pick_point (s : ViewerState) (pos : Point2) (rect : Rect)
    (meshes : List ViewerMesh) (snap_active : Bool) : Option Vec3 :=
  let basis := s.camera_basis
  let scale := s.view_scale rect
  let snapped :=
    if snap_active then
      match s.pick_snap pos rect basis scale meshes with
      | some snap => some snap.world
      | none => none
    else none
  match snapped with
  | some w => some w
  | none =>
    match s.pick_mesh_point pos rect meshes with
    | some (_, _, point) => some point
    | none => s.pick_on_plane pos rect basis scale s.pivot.position.z

/-- `ViewerState::orbit_pivot`: yaw about world Z through the pivot, pitch
about the camera right axis through the pivot, then re-orthogonalize `up`
against the new forward. -/
def ViewerState.orbit_pivot (s : ViewerState) (yaw_delta pitch_delta : ℝ) :
    ViewerState :=
  let pivot := s.pivot.position
  let world_up : Vec3 := ⟨0, 0, 1⟩
  let s1 :=
    if yaw_delta ≠ 0 then
      { s with
        camera_pos := rotate_around_axis s.camera_pos pivot world_up yaw_delta,
        target := rotate_around_axis s.target pivot world_up yaw_delta,
        camera_up :=
          (rotate_around_axis s.camera_up Vec3.ZERO world_up yaw_delta).normalized }
    else s
  let s2 :=
    if pitch_delta ≠ 0 then
      let basis := s1.camera_basis
      { s1 with
        camera_pos := rotate_around_axis s1.camera_pos pivot basis.right pitch_delta,
        target := rotate_around_axis s1.target pivot basis.right pitch_delta,
        camera_up :=
          (rotate_around_axis s1.camera_up Vec3.ZERO basis.right pitch_delta).normalized }
    else s1
  let forward := s2.forward
  let up0 := s2.camera_up.sub (forward.scale (s2.camera_up.dot forward))
  let up1 := if up0.length ≤ 1.0e-6 then ViewerState.default_up forward else up0
  { s2 with camera_up := up1.normalized }

/-- `ViewerState::set_view`. -/
def ViewerState.set_view (s : ViewerState) (forward : Vec3) : ViewerState :=
  let direction := forward.normalized
  let distance := max s.distance_internal 1
  { s with
    camera_pos := s.target.sub (direction.scale distance),
    camera_up := ViewerState.default_up direction }

/-- `ViewerState::begin_view_transition`: snap immediately when the start
and end views are near-identical, else start a 0.35 s eased transition. -/
def ViewerState.begin_view_transition (s : ViewerState) (forward : Vec3) :
    ViewerState :=
  let to_forward := forward.normalized
  if to_forward.length ≤ 1.0e-6 then s
  else
    let from_forward := s.forward
    if (from_forward.sub to_forward).length ≤ 1.0e-3 then
      { s.set_view to_forward with view_transition := none }
    else
      let tr : ViewTransition :=
        ⟨from_forward, s.camera_up.normalized, to_forward,
          ViewerState.default_up to_forward, 0, 0.35⟩
      { s with view_transition := some tr }

/-- `ViewerState::update_view_transition`: smoothstep-interpolate forward
and up, clear the transition once `t ≥ 1`. -/
def ViewerState.update_view_transition (s : ViewerState) (dt : ℝ) :
    ViewerState :=
  match s.view_transition with
  | none => s
  | some transition =>
    let elapsed := transition.elapsed + max dt 0
    let t := clampR (elapsed / transition.duration) 0 1
    let smooth := t * t * (3 - 2 * t)
    let forward := ((transition.from_forward.scale (1 - smooth)).add
      (transition.to_forward.scale smooth)).normalized
    let up0 := ((transition.from_up.scale (1 - smooth)).add
      (transition.to_up.scale smooth)).normalized
    let up := (up0.sub (forward.scale (up0.dot forward))).normalized
    let distance := max s.distance_internal 1.0e-6
    let s1 := { s with
      camera_pos := s.target.sub (forward.scale distance), camera_up := up }
    if t ≥ 1 then { s1.set_view transition.to_forward with view_transition := none }
    else { s1 with view_transition := some { transition with elapsed := elapsed } }

/-- `ViewerState::cancel_view_transition`. -/
def ViewerState.cancel_view_transition (s : ViewerState) : ViewerState :=
  { s with view_transition := none }

/-- `ViewerState::update`. -/
def ViewerState.update (s : ViewerState) (dt : ℝ) : ViewerState × Bool :=
  let s1 := s.update_view_transition dt
  (s1, s1.view_transition.isSome)

/-- `ViewerState::gizmo_rect`. -/
def ViewerState.gizmo_rect (s : ViewerState) (rect : Rect) : Rect :=
  match s.gizmo_mode with
  | .cube => ViewCube.rect rect
  | .axis => AxisGizmo.rect rect

/-- `ViewerState::gizmo_basis`. -/
def ViewerState.gizmo_basis (basis : CameraBasis) : ViewBasis :=
  ⟨basis.right, basis.up, basis.forward⟩

/-- The part of `ViewerState::handle_input` after the two gizmo-drag
branches (the source reaches it by falling through both `if`s; it is split
out here because both the "no pointer" and the "pointer off the gizmo"
paths continue into it). -/
def ViewerState.handle_input_rest (s : ViewerState) (input : ViewerInput)
    (meshes : List ViewerMesh) (basis : CameraBasis) (ctrl : Bool) :
    ViewerState × Bool :=
  let delta := input.pointer_delta
  let dragging := |delta.x| > 0 ∨ |delta.y| > 0
  let s1 :=
    if input.middle_down ∧ ctrl ∧ dragging then
      (s.cancel_view_transition).orbit_pivot (-delta.x * 0.01) (-delta.y * 0.01)
    else if (input.middle_down ∧ dragging) ∨ input.secondary_down then
      if dragging then
        let s' := s.cancel_view_transition
        let scale := s'.distance_internal * 0.002
        let delta_world := ((basis.right.neg).scale (delta.x * scale)).add
          (basis.up.scale (delta.y * scale))
        { s' with target := s'.target.add delta_world,
                  camera_pos := s'.camera_pos.add delta_world }
      else s
    else s
  let s2 :=
    if input.hovered ∧ input.scroll_delta ≠ 0 then
      let s' := s1.cancel_view_transition
      let zoom := Real.exp (-input.scroll_delta * 0.01)
      let distance := clampR s'.distance_internal 1 1.0e7
      let forward := s'.forward
      let basis2 := s'.camera_basis
      let scale := s'.view_scale input.rect
      let cursor := input.pointer_pos
      let before := cursor.bind fun pos =>
        screen_point_on_plane pos input.rect basis2 scale s'.camera_pos
          s'.target forward
      let new_distance := clampR (distance * zoom) 1 1.0e7
      let sA := { s' with camera_pos := s'.target.sub (forward.scale new_distance) }
      match cursor, before with
      | some pos, some b =>
        match screen_point_on_plane pos input.rect basis2 scale sA.camera_pos
            sA.target forward with
        | some a =>
          let d := b.sub a
          { sA with target := sA.target.add d, camera_pos := sA.camera_pos.add d }
        | none => sA
      | _, _ => sA
    else s1
  let s3 := if input.key_v_pressed then { s2 with pivot := s2.pivot.arm_pick } else s2
  let v_active := s3.pivot.is_pick_active input.key_v_down
  if v_active ∧ input.primary_clicked then
    let s4 :=
      match input.pointer_pos with
      | some pos =>
        if input.rect.contains pos then
          match s3.pick_point pos input.rect meshes v_active with
          | some pivot =>
            { s3 with pivot := (s3.pivot.set_position pivot).disarm_pick }
          | none => s3
        else s3
      | none => s3
    (s4, true)
  else (s3, false)

/-- `ViewerState::handle_input`: gizmo drag handling first, then orbit /
pan / zoom / pivot pick. -/
def ViewerState.handle_input (s : ViewerState) (input : ViewerInput)
    (meshes : List ViewerMesh) : ViewerState × Bool :=
  let basis := s.camera_basis
  let ctrl := input.modifiers.ctrl
  let gizmo_rect := s.gizmo_rect input.rect
  let pointer_pos := input.pointer_pos
  if s.gizmo_drag_active then
    if ! input.primary_down then
      let s1 :=
        if ! s.gizmo_dragged then
          match pointer_pos with
          | some pos =>
            if gizmo_rect.contains pos then
              let gb := ViewerState.gizmo_basis basis
              match s.gizmo_mode with
              | .cube =>
                match ViewCube.pick_target pos input.rect gb with
                | some pick =>
                  s.begin_view_transition (view_direction_from_normal pick.normal)
                | none => s
              | .axis =>
                match AxisGizmo.pick_target pos input.rect gb with
                | some pick => s.begin_view_transition pick.forward
                | none => s
            else s
          | none => s
        else s
      let s2 := { s1 with gizmo_drag_active := false,
                          gizmo_drag_pos := none,
                          gizmo_dragged := false }
      (s2, true)
    else
      let s1 :=
        match pointer_pos with
        | some pos =>
          let s2 :=
            match s.gizmo_drag_pos with
            | some last =>
              let delta := pos.sub last
              if delta.length > 0 then
                let s3 :=
                  if delta.length > GIZMO_DRAG_THRESHOLD then
                    { s with gizmo_dragged := true }
                  else s
                s3.orbit_pivot (-delta.x * GIZMO_DRAG_SPEED)
                  (-delta.y * GIZMO_DRAG_SPEED)
              else s
            | none => s
          { s2 with gizmo_drag_pos := some pos }
        | none => s
      (s1, true)
  else
    match pointer_pos with
    | some pos =>
      if input.primary_down ∧ gizmo_rect.contains pos then
        ({ s with gizmo_drag_active := true,
                  gizmo_drag_pos := some pos,
                  gizmo_dragged := false }, true)
      else s.handle_input_rest input meshes basis ctrl
    | none => s.handle_input_rest input meshes basis ctrl

/-- The `det` intermediate of `ray_intersect_triangle`. -/
def mt_det (dir a b c : Vec3) : ℝ := (b.sub a).dot (dir.cross (c.sub a))

/-- The `u` barycentric intermediate of `ray_intersect_triangle`. -/
def mt_u (origin dir a b c : Vec3) : ℝ :=
  (origin.sub a).dot (dir.cross (c.sub a)) * (1 / mt_det dir a b c)

/-- The `v` barycentric intermediate of `ray_intersect_triangle`. -/
def mt_v (origin dir a b c : Vec3) : ℝ :=
  dir.dot ((origin.sub a).cross (b.sub a)) * (1 / mt_det dir a b c)

/-- The `t` intermediate of `ray_intersect_triangle`. -/
def mt_t (origin dir a b c : Vec3) : ℝ :=
  (c.sub a).dot ((origin.sub a).cross (b.sub a)) * (1 / mt_det dir a b c)


/-- Ray directions on which the slab test's degenerate-axis shortcut is
exact: each component is exactly zero or larger than the 1e-9 threshold in
magnitude. -/
def dir_ok (dir : Vec3) : Prop :=
  (dir.x = 0 ∨ 1.0e-9 < |dir.x|) ∧ (dir.y = 0 ∨ 1.0e-9 < |dir.y|) ∧
  (dir.z = 0 ∨ 1.0e-9 < |dir.z|)

/-- Triangle indices stored in a subtree's leaves. -/
def BvhTree.tris_of : BvhTree → List ℕ
  | .leaf _ tris => tris
  | .branch _ l r => l.tris_of ++ r.tris_of

/-- The hit parameter of triangle `i` (the quantity both `ray_pick` loops
compare). -/
def tri_hit (origin dir : Vec3) (positions : List Vec3)
    (tri_faces : List (ℕ × ℕ × ℕ)) (i : ℕ) : Option ℝ :=
  let tri := tri_faces.getD i (0, 0, 0)
  ray_intersect_triangle origin dir (positions.getD tri.1 Vec3.ZERO)
    (positions.getD tri.2.1 Vec3.ZERO) (positions.getD tri.2.2 Vec3.ZERO)

/-- `tri_hit` as a `WithTop ℝ` (no hit = `⊤`). -/
def hit_w (origin dir : Vec3) (positions : List Vec3)
    (tri_faces : List (ℕ × ℕ × ℕ)) (i : ℕ) : WithTop ℝ :=
  match tri_hit origin dir positions tri_faces i with
  | none => ⊤
  | some t => (t : WithTop ℝ)

/-- Minimum hit parameter over a list of triangle indices. -/
def hits_min (origin dir : Vec3) (positions : List Vec3)
    (tri_faces : List (ℕ × ℕ × ℕ)) (l : List ℕ) : WithTop ℝ :=
  l.foldr (fun i acc => min (hit_w origin dir positions tri_faces i) acc) ⊤

/-- Triangle indices of all subtrees on the traversal stack. -/
def stack_tris (stack : List BvhTree) : List ℕ :=
  stack.foldr (fun t acc => t.tris_of ++ acc) []

/-- `outer` contains `inner` (componentwise interval inclusion). -/
def bounds_sub (inner outer : Vec3 × Vec3) : Prop :=
  outer.1.x ≤ inner.1.x ∧ inner.2.x ≤ outer.2.x ∧
  outer.1.y ≤ inner.1.y ∧ inner.2.y ≤ outer.2.y ∧
  outer.1.z ≤ inner.1.z ∧ inner.2.z ≤ outer.2.z

/-- A point lies in an AABB. -/
def in_bounds (bounds : Vec3 × Vec3) (p : Vec3) : Prop :=
  bounds.1.x ≤ p.x ∧ p.x ≤ bounds.2.x ∧
  bounds.1.y ≤ p.y ∧ p.y ≤ bounds.2.y ∧
  bounds.1.z ≤ p.z ∧ p.z ≤ bounds.2.z

/-- BVH invariant: every node's bounds contain the triangle AABBs of its
whole subtree. -/
def tree_ok (tb : List (Vec3 × Vec3)) : BvhTree → Prop
  | .leaf b tris =>
    ∀ i ∈ tris, bounds_sub (tb.getD i (Vec3.ZERO, Vec3.ZERO)) b
  | .branch b l r =>
    (∀ i ∈ l.tris_of ++ r.tris_of,
      bounds_sub (tb.getD i (Vec3.ZERO, Vec3.ZERO)) b) ∧
    tree_ok tb l ∧ tree_ok tb r

/-- The best-hit accumulator always stores `origin + dir * t` with its
`t`. -/
def valid_best (origin dir : Vec3) (best : Option (ℝ × Vec3)) : Prop :=
  ∀ t p, best = some (t, p) → p = origin.add (dir.scale t)


/-- Counterexample geometry for the BVH/linear comparison: one triangle in
the plane `x = 2^38`, about `z = 16`. -/
def bvhCexPositions : List Vec3 :=
  [⟨2 ^ 38, -1, 15⟩, ⟨2 ^ 38, 1, 15⟩, ⟨2 ^ 38, 0, 17⟩]

/-- The single triangle of the counterexample mesh. -/
def bvhCexTris : List (ℕ × ℕ × ℕ) := [(0, 1, 2)]

/-- The counterexample mesh with its BVH, as `from_mesh` builds it. -/
def bvhCexMesh : ViewerMesh := ViewerMesh.with_bvh bvhCexPositions bvhCexTris [] none

/-- The counterexample ray origin. -/
def bvhCexOrigin : Vec3 := ⟨0, 0, 0⟩

/-- The counterexample ray direction: the `z` component `2⁻³⁴` is nonzero
but below the `1e-9` slab threshold. -/
def bvhCexDir : Vec3 := ⟨1, 0, 1 / 2 ^ 34⟩

/-- A finite sequence of `orbit_pivot` calls, one per `(yaw, pitch)` pair. -/
def orbit_sequence (s : ViewerState) (l : List (ℝ × ℝ)) : ViewerState :=
  l.foldl (fun st p => st.orbit_pivot p.1 p.2) s

/-- A finite sequence of `update` calls, one per frame time `dt`. -/
def update_sequence (s : ViewerState) (dts : List ℝ) : ViewerState :=
  dts.foldl (fun st dt => (st.update dt).1) s

/-- The gizmo "moved past the threshold" flag after a sequence of drag
frames: starting from flag value `flag` with the last pointer position
`last`, each frame ORs in whether that frame's pointer delta exceeds
`GIZMO_DRAG_THRESHOLD`, exactly as the held-drag branch of `handle_input`
updates `gizmo_dragged`. -/
def drag_flag (last : Point2) (flag : Bool) (ps : List Point2) : Bool :=
  (ps.foldl (fun acc p =>
    (acc.1 || decide ((p.sub acc.2).length > GIZMO_DRAG_THRESHOLD), p))
    (flag, last)).1

/-- The view-cube scenario viewport (`1000 × 1000`, so the gizmo square is
`120 × 120` at `(868,12)-(988,132)` with pick radius `12` and edge
threshold `7.2`). -/
def c4Viewport : Rect := ⟨⟨0, 0⟩, ⟨1000, 1000⟩⟩

/-- The view-cube scenario camera basis: right `(0,-1,0)`, up
`(-3/5,0,4/5)`, forward `(4/5,0,3/5)` — an orthonormal basis under which
the cube corners with positive model `x` face away from the camera. -/
def c4Basis : ViewBasis := ⟨⟨0, -1, 0⟩, ⟨-3 / 5, 0, 4 / 5⟩, ⟨4 / 5, 0, 3 / 5⟩⟩

/-- The gizmo pick scale of the scenario's gizmo square. -/
def c4S : ℝ := 120 * 0.5 * GIZMO_PICK_INSET / GIZMO_PICK_RADIUS

/-- Corner-scale half-extent times pick scale (≈ 26.66 px). -/
def c4A : ℝ := 0.5 * CORNER_SCALE * c4S

/-- Edge-scale half-extent times pick scale (≈ 33.3 px). -/
def c4B : ℝ := 0.5 * EDGE_SCALE * c4S

/-- The scenario cursor: exactly the projected pick point of cube corner 1
(a back-facing corner under `c4Basis`). -/
def c4Cursor : Point2 := ⟨928 + c4A, 72 + 1.4 * c4A⟩

/-- Concrete camera state for the snap scenario: camera at `(0,-500,0)`
looking at the origin with up `(0,0,1)` and a `90°` field of view (so the
view scale over the `1000 × 1000` viewport is exactly `1`). -/
def c3State : ViewerState :=
  ⟨⟨0, 0, 0⟩, ⟨0, -500, 0⟩, ⟨0, 0, 1⟩, ⟨Vec3.ZERO, false⟩, 90, none, none,
    .cube, false, none, false⟩

/-- The snap-scenario viewport. -/
def c3Rect : Rect := ⟨⟨0, 0⟩, ⟨1000, 1000⟩⟩

/-- The snap-scenario cursor: the common screen position of all three
snap candidates. -/
def c3Cursor : Point2 := ⟨503, 500⟩

/-- The camera basis of `c3State`: right `(1,0,0)`, up `(0,0,1)`, forward
`(0,1,0)`. -/
def c3Basis : CameraBasis := ⟨⟨0, -500, 0⟩, ⟨1, 0, 0⟩, ⟨0, 0, 1⟩, ⟨0, 1, 0⟩⟩

/-- Snap-scenario mesh contributing only the vertex candidate at
`(3,0,0)`. -/
def c3VertexMesh : ViewerMesh := ViewerMesh.with_bvh [⟨3, 0, 0⟩] [] [] none

/-- Snap-scenario mesh contributing the edge-midpoint candidate at
`(3,0,0)` (its own vertices project 40 px away from the cursor). -/
def c3EdgeMesh : ViewerMesh :=
  ViewerMesh.with_bvh [⟨3, 0, 40⟩, ⟨3, 0, -40⟩] [] [(0, 1)] none

/-- Snap-scenario mesh contributing the face-center candidate at
`(3,0,0)` (its own vertices project ≥ 25 px away from the cursor). -/
def c3FaceMesh : ViewerMesh :=
  ViewerMesh.with_bvh [⟨33, 0, 0⟩, ⟨-12, 0, 21⟩, ⟨-12, 0, -21⟩]
    [(0, 1, 2)] [] none

/-- The winning vertex snap hit of the snap scenario. -/
def c3VertexHit : SnapHit := ⟨.vertex, ⟨3, 0, 0⟩, ⟨503, 500⟩, 0, 500⟩

/-- The intermediate edge-midpoint snap hit of the reversed scenario. -/
def c3EdgeHit : SnapHit := ⟨.edgeMidpoint, ⟨3, 0, 0⟩, ⟨503, 500⟩, 0, 500⟩

/-- The intermediate face-center snap hit of the reversed scenario. -/
def c3FaceHit : SnapHit := ⟨.faceCenter, ⟨3, 0, 0⟩, ⟨503, 500⟩, 0, 500⟩

/-- Concrete camera state for the scroll-zoom scenario: camera at
`(0,-500,0)` looking at the origin, distance `500`. -/
def c2CexState : ViewerState :=
  ⟨⟨0, 0, 0⟩, ⟨0, -500, 0⟩, ⟨0, 0, 1⟩, ⟨Vec3.ZERO, false⟩, 45, none, none,
    .cube, false, none, false⟩

/-- Concrete input for the scroll-zoom scenario: hovered, scroll delta `-5`,
cursor at the center of the `1000 × 1000` viewport, no buttons. -/
def c2CexInput : ViewerInput :=
  ⟨⟨⟨0, 0⟩, ⟨1000, 1000⟩⟩, some ⟨500, 500⟩, ⟨0, 0⟩, false, false, false,
    false, false, -5, ⟨false, false⟩, true, false, false⟩

/-- C7: `ray_intersect_triangle(origin, dir, a, b, c)` returns `none` (not
an error) exactly when `|det| < 1e-9`, or the barycentric conditions
`u ∈ [0,1]`, `v ≥ 0`, `u + v ≤ 1` fail, or `t ≤ 1e-9`; otherwise it
returns `some t` with `t > 1e-9`. -/
theorem ray_intersect_triangle_error_handling :
    ∀ origin dir a b c : Vec3,
      (|mt_det dir a b c| < rayTriangleEps →
        ray_intersect_triangle origin dir a b c = none)
      ∧ (ray_intersect_triangle origin dir a b c = none ↔
          |mt_det dir a b c| < rayTriangleEps ∨
          ¬ (0 ≤ mt_u origin dir a b c ∧ mt_u origin dir a b c ≤ 1) ∨
          mt_v origin dir a b c < 0 ∨
          mt_u origin dir a b c + mt_v origin dir a b c > 1 ∨
          mt_t origin dir a b c ≤ rayTriangleEps)
      ∧ (∀ t0, ray_intersect_triangle origin dir a b c = some t0 →
          t0 = mt_t origin dir a b c ∧ t0 > rayTriangleEps) := by
  intro origin dir a b c
  simp only [ray_intersect_triangle, mt_det, mt_u, mt_v, mt_t, one_div]
  split_ifs with h1 h2 h3 h4 <;> simp_all
  tauto

/-- C8: `normalized()` of the zero vector, and of any vector of length at
most `f64::EPSILON`, is exactly the zero vector; above that threshold the
divisor `length` is nonzero, so the division in `normalized()` never
divides by zero. -/
theorem normalized_zero_is_zero :
    Vec3.normalized ⟨0, 0, 0⟩ = Vec3.ZERO
    ∧ (∀ v : Vec3, v.length ≤ Vec3.f64Epsilon → v.normalized = Vec3.ZERO)
    ∧ (∀ v : Vec3, ¬ v.length ≤ Vec3.f64Epsilon →
        v.length ≠ 0 ∧ v.normalized = v.divScalar v.length) := by
  refine ⟨?_, ?_, ?_⟩
  · simp [Vec3.normalized, Vec3.length, Vec3.dot, Vec3.f64Epsilon]
  · intro v h
    simp [Vec3.normalized, h]
  · intro v h
    refine ⟨?_, by simp [Vec3.normalized, h]⟩
    have hlen : Vec3.f64Epsilon < v.length := lt_of_not_le h
    have : (0 : ℝ) < Vec3.f64Epsilon := by
      rw [Vec3.f64Epsilon]; positivity
    linarith


section C1Lemmas

variable (origin dir : Vec3) (positions : List Vec3)
variable (tri_faces : List (ℕ × ℕ × ℕ))

theorem hits_min_nil : hits_min origin dir positions tri_faces [] = ⊤ := rfl

theorem hits_min_cons (i : ℕ) (l : List ℕ) :
    hits_min origin dir positions tri_faces (i :: l)
      = min (hit_w origin dir positions tri_faces i)
          (hits_min origin dir positions tri_faces l) := rfl

theorem hits_min_append (l1 l2 : List ℕ) :
    hits_min origin dir positions tri_faces (l1 ++ l2)
      = min (hits_min origin dir positions tri_faces l1)
          (hits_min origin dir positions tri_faces l2) := by
  induction l1 with
  | nil => simp [hits_min_nil]
  | cons i l ih =>
    simp only [List.cons_append, hits_min_cons, ih, min_assoc]

theorem hits_min_perm {l1 l2 : List ℕ} (h : l1.Perm l2) :
    hits_min origin dir positions tri_faces l1
      = hits_min origin dir positions tri_faces l2 := by
  haveI : LeftCommutative (fun i acc =>
      min (hit_w origin dir positions tri_faces i) acc) :=
    ⟨fun a b c => by simp [min_left_comm]⟩
  exact h.foldr_eq ⊤

theorem hits_min_ge {l : List ℕ} {m : WithTop ℝ}
    (h : ∀ i ∈ l, m ≤ hit_w origin dir positions tri_faces i) :
    m ≤ hits_min origin dir positions tri_faces l := by
  induction l with
  | nil => simp [hits_min_nil]
  | cons i l ih =>
    rw [hits_min_cons]
    exact le_min (h i (by simp)) (ih (fun j hj => h j (by simp [hj])))

theorem consider_tri_eq (best : Option (ℝ × Vec3)) (i : ℕ) :
    consider_tri origin dir positions tri_faces best i
      = match tri_hit origin dir positions tri_faces i with
        | some t =>
          if (t : WithTop ℝ) < best_t best then
            some (t, origin.add (dir.scale t))
          else best
        | none => best := rfl

theorem consider_tri_best_t (best : Option (ℝ × Vec3)) (i : ℕ) :
    best_t (consider_tri origin dir positions tri_faces best i)
      = min (hit_w origin dir positions tri_faces i) (best_t best) := by
  rw [consider_tri_eq]
  unfold hit_w
  cases h : tri_hit origin dir positions tri_faces i with
  | none => simp
  | some t =>
    dsimp only
    split_ifs with hlt
    · rw [show best_t (some (t, origin.add (dir.scale t))) = (t : WithTop ℝ)
        from rfl, min_eq_left hlt.le]
    · rw [min_eq_right (not_lt.mp hlt)]

theorem consider_tri_valid (best : Option (ℝ × Vec3)) (i : ℕ)
    (h : valid_best origin dir best) :
    valid_best origin dir (consider_tri origin dir positions tri_faces best i) := by
  rw [consider_tri_eq]
  cases hr : tri_hit origin dir positions tri_faces i with
  | none => exact h
  | some t =>
    dsimp only
    split_ifs with hlt
    · intro t' p' hp'
      simp only [Option.some.injEq, Prod.mk.injEq] at hp'
      rw [← hp'.1, ← hp'.2]
    · exact h

theorem foldl_consider_best_t (l : List ℕ) (best : Option (ℝ × Vec3)) :
    best_t (l.foldl (consider_tri origin dir positions tri_faces) best)
      = min (best_t best) (hits_min origin dir positions tri_faces l) := by
  induction l generalizing best with
  | nil => simp [hits_min_nil]
  | cons i l ih =>
    simp only [List.foldl_cons, ih, consider_tri_best_t, hits_min_cons]
    rw [min_comm (hit_w origin dir positions tri_faces i) (best_t best),
      min_assoc]

theorem foldl_consider_valid (l : List ℕ) (best : Option (ℝ × Vec3))
    (h : valid_best origin dir best) :
    valid_best origin dir
      (l.foldl (consider_tri origin dir positions tri_faces) best) := by
  induction l generalizing best with
  | nil => exact h
  | cons i l ih =>
    exact ih _ (consider_tri_valid origin dir positions tri_faces best i h)

theorem valid_best_inj {b1 b2 : Option (ℝ × Vec3)}
    (h1 : valid_best origin dir b1) (h2 : valid_best origin dir b2)
    (ht : best_t b1 = best_t b2) : b1 = b2 := by
  cases b1 with
  | none =>
    cases b2 with
    | none => rfl
    | some p => simp [best_t] at ht
  | some p =>
    cases b2 with
    | none => simp [best_t] at ht
    | some q =>
      obtain ⟨t1, p1⟩ := p
      obtain ⟨t2, p2⟩ := q
      simp only [best_t, WithTop.coe_eq_coe] at ht
      subst ht
      rw [h1 t1 p1 rfl, h2 t1 p2 rfl]

end C1Lemmas

section C1Geometry

theorem ray_intersect_triangle_some_iff (origin dir a b c : Vec3) (t : ℝ) :
    ray_intersect_triangle origin dir a b c = some t ↔
      ¬ |mt_det dir a b c| < rayTriangleEps ∧
      (0 ≤ mt_u origin dir a b c ∧ mt_u origin dir a b c ≤ 1) ∧
      ¬ (mt_v origin dir a b c < 0 ∨
          mt_u origin dir a b c + mt_v origin dir a b c > 1) ∧
      rayTriangleEps < mt_t origin dir a b c ∧ t = mt_t origin dir a b c := by
  simp only [ray_intersect_triangle, mt_det, mt_u, mt_v, mt_t, one_div]
  split_ifs with h1 h2 h3 h4 <;> simp_all
  exact eq_comm

theorem mt_poly_x (origin dir a b c : Vec3) :
    mt_det dir a b c * (origin.x - a.x)
      = (origin.sub a).dot (dir.cross (c.sub a)) * (b.x - a.x)
        + dir.dot ((origin.sub a).cross (b.sub a)) * (c.x - a.x)
        - (c.sub a).dot ((origin.sub a).cross (b.sub a)) * dir.x := by
  simp only [mt_det, Vec3.dot, Vec3.cross, Vec3.sub]
  ring

theorem mt_poly_y (origin dir a b c : Vec3) :
    mt_det dir a b c * (origin.y - a.y)
      = (origin.sub a).dot (dir.cross (c.sub a)) * (b.y - a.y)
        + dir.dot ((origin.sub a).cross (b.sub a)) * (c.y - a.y)
        - (c.sub a).dot ((origin.sub a).cross (b.sub a)) * dir.y := by
  simp only [mt_det, Vec3.dot, Vec3.cross, Vec3.sub]
  ring

theorem mt_poly_z (origin dir a b c : Vec3) :
    mt_det dir a b c * (origin.z - a.z)
      = (origin.sub a).dot (dir.cross (c.sub a)) * (b.z - a.z)
        + dir.dot ((origin.sub a).cross (b.sub a)) * (c.z - a.z)
        - (c.sub a).dot ((origin.sub a).cross (b.sub a)) * dir.z := by
  simp only [mt_det, Vec3.dot, Vec3.cross, Vec3.sub]
  ring

theorem mt_point_eq (origin dir a b c : Vec3) (h : mt_det dir a b c ≠ 0) :
    origin.add (dir.scale (mt_t origin dir a b c))
      = ((a.scale (1 - mt_u origin dir a b c - mt_v origin dir a b c)).add
          (b.scale (mt_u origin dir a b c))).add
          (c.scale (mt_v origin dir a b c)) := by
  have hu : mt_u origin dir a b c * mt_det dir a b c
      = (origin.sub a).dot (dir.cross (c.sub a)) := by
    rw [mt_u, one_div, mul_assoc, inv_mul_cancel₀ h, mul_one]
  have hv : mt_v origin dir a b c * mt_det dir a b c
      = dir.dot ((origin.sub a).cross (b.sub a)) := by
    rw [mt_v, one_div, mul_assoc, inv_mul_cancel₀ h, mul_one]
  have ht : mt_t origin dir a b c * mt_det dir a b c
      = (c.sub a).dot ((origin.sub a).cross (b.sub a)) := by
    rw [mt_t, one_div, mul_assoc, inv_mul_cancel₀ h, mul_one]
  have hx := mt_poly_x origin dir a b c
  have hy := mt_poly_y origin dir a b c
  have hz := mt_poly_z origin dir a b c
  rw [← hu, ← hv, ← ht] at hx hy hz
  simp only [Vec3.add, Vec3.scale, Vec3.mk.injEq]
  have hdx : origin.x + dir.x * mt_t origin dir a b c
      = a.x * (1 - mt_u origin dir a b c - mt_v origin dir a b c)
        + b.x * mt_u origin dir a b c + c.x * mt_v origin dir a b c := by
    have h2 : mt_det dir a b c *
        (origin.x + dir.x * mt_t origin dir a b c
          - (a.x * (1 - mt_u origin dir a b c - mt_v origin dir a b c)
            + b.x * mt_u origin dir a b c + c.x * mt_v origin dir a b c)) = 0 := by
      linear_combination hx
    rcases mul_eq_zero.mp h2 with h3 | h3
    · exact absurd h3 h
    · linarith
  have hdy : origin.y + dir.y * mt_t origin dir a b c
      = a.y * (1 - mt_u origin dir a b c - mt_v origin dir a b c)
        + b.y * mt_u origin dir a b c + c.y * mt_v origin dir a b c := by
    have h2 : mt_det dir a b c *
        (origin.y + dir.y * mt_t origin dir a b c
          - (a.y * (1 - mt_u origin dir a b c - mt_v origin dir a b c)
            + b.y * mt_u origin dir a b c + c.y * mt_v origin dir a b c)) = 0 := by
      linear_combination hy
    rcases mul_eq_zero.mp h2 with h3 | h3
    · exact absurd h3 h
    · linarith
  have hdz : origin.z + dir.z * mt_t origin dir a b c
      = a.z * (1 - mt_u origin dir a b c - mt_v origin dir a b c)
        + b.z * mt_u origin dir a b c + c.z * mt_v origin dir a b c := by
    have h2 : mt_det dir a b c *
        (origin.z + dir.z * mt_t origin dir a b c
          - (a.z * (1 - mt_u origin dir a b c - mt_v origin dir a b c)
            + b.z * mt_u origin dir a b c + c.z * mt_v origin dir a b c)) = 0 := by
      linear_combination hz
    rcases mul_eq_zero.mp h2 with h3 | h3
    · exact absurd h3 h
    · linarith
  exact ⟨hdx, hdy, hdz⟩

end C1Geometry

section C1Slab

theorem rayTriangleEps_pos : (0 : ℝ) < rayTriangleEps := by
  rw [rayTriangleEps]; norm_num

theorem convex3_lower (u v x0 x1 x2 : ℝ) (hu : 0 ≤ u) (hv : 0 ≤ v)
    (huv : u + v ≤ 1) :
    min (min x0 x1) x2 ≤ x0 * (1 - u - v) + x1 * u + x2 * v := by
  have h0 : min (min x0 x1) x2 ≤ x0 := le_trans (min_le_left _ _) (min_le_left _ _)
  have h1 : min (min x0 x1) x2 ≤ x1 := le_trans (min_le_left _ _) (min_le_right _ _)
  have h2 : min (min x0 x1) x2 ≤ x2 := min_le_right _ _
  nlinarith [mul_nonneg (sub_nonneg.mpr h0) (by linarith : (0:ℝ) ≤ 1 - u - v),
    mul_nonneg (sub_nonneg.mpr h1) hu, mul_nonneg (sub_nonneg.mpr h2) hv]

theorem convex3_upper (u v x0 x1 x2 : ℝ) (hu : 0 ≤ u) (hv : 0 ≤ v)
    (huv : u + v ≤ 1) :
    x0 * (1 - u - v) + x1 * u + x2 * v ≤ max (max x0 x1) x2 := by
  have h0 : x0 ≤ max (max x0 x1) x2 := le_trans (le_max_left _ _) (le_max_left _ _)
  have h1 : x1 ≤ max (max x0 x1) x2 := le_trans (le_max_right _ _) (le_max_left _ _)
  have h2 : x2 ≤ max (max x0 x1) x2 := le_max_right _ _
  nlinarith [mul_nonneg (sub_nonneg.mpr h0) (by linarith : (0:ℝ) ≤ 1 - u - v),
    mul_nonneg (sub_nonneg.mpr h1) hu, mul_nonneg (sub_nonneg.mpr h2) hv]

theorem hit_point_in_bound (origin dir p0 p1 p2 : Vec3) (t : ℝ)
    (h : ray_intersect_triangle origin dir p0 p1 p2 = some t) :
    in_bounds ((p0.cmin p1).cmin p2, (p0.cmax p1).cmax p2)
      (origin.add (dir.scale t)) := by
  rw [ray_intersect_triangle_some_iff] at h
  obtain ⟨hdet, ⟨hu0, hu1⟩, hv, ht, rfl⟩ := h
  push_neg at hv
  obtain ⟨hv0, huv⟩ := hv
  have hdet0 : mt_det dir p0 p1 p2 ≠ 0 := by
    intro h0
    apply hdet
    rw [h0]
    simpa using rayTriangleEps_pos
  rw [mt_point_eq origin dir p0 p1 p2 hdet0]
  have hw0 : (0 : ℝ) ≤ 1 - mt_u origin dir p0 p1 p2 - mt_v origin dir p0 p1 p2 := by
    linarith
  simp only [in_bounds, Vec3.add, Vec3.scale, Vec3.cmin, Vec3.cmax]
  refine ⟨?_, ?_, ?_, ?_, ?_, ?_⟩
  · exact convex3_lower _ _ _ _ _ hu0 hv0 huv
  · exact convex3_upper _ _ _ _ _ hu0 hv0 huv
  · exact convex3_lower _ _ _ _ _ hu0 hv0 huv
  · exact convex3_upper _ _ _ _ _ hu0 hv0 huv
  · exact convex3_lower _ _ _ _ _ hu0 hv0 huv
  · exact convex3_upper _ _ _ _ _ hu0 hv0 huv

end C1Slab

section C1Prune

variable (origin dir : Vec3) (positions : List Vec3)
variable (tri_faces : List (ℕ × ℕ × ℕ))

theorem tri_hit_some_pos (i : ℕ) (t : ℝ)
    (h : tri_hit origin dir positions tri_faces i = some t) :
    rayTriangleEps < t := by
  unfold tri_hit at h
  rw [ray_intersect_triangle_some_iff] at h
  obtain ⟨_, _, _, ht, rfl⟩ := h
  exact ht

theorem tri_hit_oob (i : ℕ) (hi : tri_faces.length ≤ i) :
    tri_hit origin dir positions tri_faces i = none := by
  unfold tri_hit
  rw [List.getD_eq_default _ _ hi]
  have hz : (positions.getD 0 Vec3.ZERO).sub (positions.getD 0 Vec3.ZERO)
      = (⟨0, 0, 0⟩ : Vec3) := by
    simp [Vec3.sub]
  rw [ray_intersect_triangle]
  rw [if_pos]
  rw [hz]
  simp only [Vec3.dot, Vec3.cross]
  norm_num [rayTriangleEps]

theorem tri_hit_in_tb (i : ℕ) (t : ℝ)
    (h : tri_hit origin dir positions tri_faces i = some t) :
    in_bounds ((tri_faces.map (tri_bound positions)).getD i
      (Vec3.ZERO, Vec3.ZERO)) (origin.add (dir.scale t)) := by
  by_cases hi : i < tri_faces.length
  · have hg : (tri_faces.map (tri_bound positions)).getD i (Vec3.ZERO, Vec3.ZERO)
        = tri_bound positions (tri_faces.getD i (0, 0, 0)) := by
      rw [List.getD_eq_getElem?_getD, List.getElem?_map,
        List.getD_eq_getElem?_getD]
      rw [List.getElem?_eq_getElem hi]
      rfl
    rw [hg]
    unfold tri_hit at h
    exact hit_point_in_bound origin dir _ _ _ t h
  · rw [tri_hit_oob origin dir positions tri_faces i (le_of_not_lt hi)] at h
    cases h

theorem check_axis_of_hit (o d mn mx tv : ℝ) (st : ℝ × WithTop ℝ)
    (hd : d = 0 ∨ 1.0e-9 < |d|) (hmn : mn ≤ o + d * tv) (hmx : o + d * tv ≤ mx)
    (hst1 : st.1 ≤ tv) (hst2 : (tv : WithTop ℝ) ≤ st.2) :
    ∃ st', check_axis o d mn mx st = some st'
      ∧ st'.1 ≤ tv ∧ (tv : WithTop ℝ) ≤ st'.2 := by
  unfold check_axis
  rcases hd with hd0 | hdgt
  · subst hd0
    rw [if_pos (by norm_num)]
    simp only [mul_zero, zero_mul, add_zero] at hmn hmx
    rw [if_pos ⟨hmn, hmx⟩]
    exact ⟨st, rfl, hst1, hst2⟩
  · have hdne : d ≠ 0 := by
      intro h0
      rw [h0] at hdgt
      simp at hdgt
      linarith
    rw [if_neg (by push_neg; exact hdgt)]
    have hb : min ((mn - o) * (1 / d)) ((mx - o) * (1 / d)) ≤ tv
        ∧ tv ≤ max ((mn - o) * (1 / d)) ((mx - o) * (1 / d)) := by
      rcases lt_or_gt_of_ne hdne with hneg | hpos
      · constructor
        · apply min_le_of_right_le
          rw [one_div, ← div_eq_mul_inv, div_le_iff_of_neg hneg]
          linarith
        · apply le_max_of_le_left
          rw [one_div, ← div_eq_mul_inv, le_div_iff_of_neg hneg]
          linarith
      · constructor
        · apply min_le_of_left_le
          rw [one_div, ← div_eq_mul_inv, div_le_iff₀ hpos]
          linarith
        · apply le_max_of_le_right
          rw [one_div, ← div_eq_mul_inv, le_div_iff₀ hpos]
          linarith
    set amin := min ((mn - o) * (1 / d)) ((mx - o) * (1 / d)) with hamin
    set amax := max ((mn - o) * (1 / d)) ((mx - o) * (1 / d)) with hamax
    have h1 : max st.1 amin ≤ tv := max_le hst1 hb.1
    have h2 : (tv : WithTop ℝ) ≤ min st.2 (amax : WithTop ℝ) :=
      le_min hst2 (WithTop.coe_le_coe.mpr hb.2)
    rw [if_pos (le_trans (WithTop.coe_le_coe.mpr h1) h2)]
    exact ⟨_, rfl, h1, h2⟩

theorem ray_aabb_interval_of_hit (bounds : Vec3 × Vec3) (max_t : WithTop ℝ)
    (tv : ℝ) (hdir : dir_ok dir)
    (hpt : in_bounds bounds (origin.add (dir.scale tv)))
    (ht0 : 0 < tv) (htm : (tv : WithTop ℝ) ≤ max_t) :
    ray_aabb_interval origin dir bounds max_t ≠ none := by
  obtain ⟨hdx, hdy, hdz⟩ := hdir
  obtain ⟨hx1, hx2, hy1, hy2, hz1, hz2⟩ := hpt
  simp only [Vec3.add, Vec3.scale] at hx1 hx2 hy1 hy2 hz1 hz2
  unfold ray_aabb_interval
  obtain ⟨st1, hst1, hst11, hst12⟩ :=
    check_axis_of_hit origin.x dir.x bounds.1.x bounds.2.x tv (0, max_t) hdx
      hx1 hx2 (le_of_lt ht0) htm
  obtain ⟨st2, hst2, hst21, hst22⟩ :=
    check_axis_of_hit origin.y dir.y bounds.1.y bounds.2.y tv st1 hdy
      hy1 hy2 hst11 hst12
  obtain ⟨st3, hst3, hst31, hst32⟩ :=
    check_axis_of_hit origin.z dir.z bounds.1.z bounds.2.z tv st2 hdz
      hz1 hz2 hst21 hst22
  rw [hst1, Option.some_bind, hst2, Option.some_bind, hst3, Option.some_bind]
  rw [if_neg]
  · exact Option.some_ne_none st3
  · push_neg
    calc (0 : WithTop ℝ) ≤ (tv : WithTop ℝ) := by
          exact_mod_cast le_of_lt ht0
      _ ≤ st3.2 := hst32

end C1Prune

section C1Traverse

variable (origin dir : Vec3) (positions : List Vec3)
variable (tri_faces : List (ℕ × ℕ × ℕ))

theorem in_bounds_mono {inner outer : Vec3 × Vec3} {p : Vec3}
    (hsub : bounds_sub inner outer) (hp : in_bounds inner p) :
    in_bounds outer p := by
  obtain ⟨h1, h2, h3, h4, h5, h6⟩ := hsub
  obtain ⟨g1, g2, g3, g4, g5, g6⟩ := hp
  exact ⟨by linarith, by linarith, by linarith, by linarith, by linarith,
    by linarith⟩

theorem tree_ok_mem {tb : List (Vec3 × Vec3)} {tree : BvhTree}
    (h : tree_ok tb tree) :
    ∀ i ∈ tree.tris_of, bounds_sub (tb.getD i (Vec3.ZERO, Vec3.ZERO))
      tree.bounds := by
  cases tree with
  | leaf b tris => exact h
  | branch b l r => exact h.1

theorem hits_of_pruned (tree : BvhTree) (best : Option (ℝ × Vec3))
    (hdir : dir_ok dir)
    (hok : tree_ok (tri_faces.map (tri_bound positions)) tree)
    (hnone : ray_aabb_interval origin dir tree.bounds (best_t best) = none) :
    best_t best ≤ hits_min origin dir positions tri_faces tree.tris_of := by
  apply hits_min_ge
  intro i hi
  unfold hit_w
  cases h : tri_hit origin dir positions tri_faces i with
  | none => exact le_top
  | some t =>
    by_contra hgt
    push_neg at hgt
    apply ray_aabb_interval_of_hit origin dir tree.bounds (best_t best) t hdir
      ?_ ?_ (le_of_lt hgt) hnone
    · exact in_bounds_mono (tree_ok_mem hok i hi)
        (tri_hit_in_tb origin dir positions tri_faces i t h)
    · exact lt_trans rayTriangleEps_pos
        (tri_hit_some_pos origin dir positions tri_faces i t h)

theorem stack_tris_nil : stack_tris [] = [] := rfl

theorem stack_tris_cons (t : BvhTree) (rest : List BvhTree) :
    stack_tris (t :: rest) = t.tris_of ++ stack_tris rest := rfl

theorem min_drop_mid {m bb : WithTop ℝ} (a c : WithTop ℝ) (h : m ≤ bb) :
    m ⊓ (a ⊓ (bb ⊓ c)) = m ⊓ (a ⊓ c) := by
  rw [min_left_comm a bb c, ← min_assoc, min_eq_left h]

theorem min_drop_left {m bb : WithTop ℝ} (c : WithTop ℝ) (h : m ≤ bb) :
    m ⊓ (bb ⊓ c) = m ⊓ c := by
  rw [← min_assoc, min_eq_left h]

theorem ray_pick_stack_spec (hdir : dir_ok dir) :
    ∀ (stack : List BvhTree) (best : Option (ℝ × Vec3)),
      (∀ tree ∈ stack, tree_ok (tri_faces.map (tri_bound positions)) tree) →
      valid_best origin dir best →
      valid_best origin dir
        (ray_pick_stack origin dir positions tri_faces stack best)
      ∧ best_t (ray_pick_stack origin dir positions tri_faces stack best)
        = min (best_t best)
            (hits_min origin dir positions tri_faces (stack_tris stack)) := by
  intro stack best
  induction stack, best using ray_pick_stack.induct origin dir positions tri_faces with
  | case1 best =>
    intro _ hv
    simp [ray_pick_stack, stack_tris_nil, hits_min_nil, hv]
  | case2 b tris rest best hnone ih =>
    intro hok hv
    rw [ray_pick_stack, hnone]
    obtain ⟨ihv, iht⟩ := ih (fun t ht => hok t (by simp [ht])) hv
    refine ⟨ihv, ?_⟩
    have hp : best_t best ≤ hits_min origin dir positions tri_faces
        (BvhTree.tris_of (BvhTree.leaf b tris)) :=
      hits_of_pruned origin dir positions tri_faces _ best hdir
        (hok _ (by simp)) hnone
    rw [iht, stack_tris_cons, hits_min_append, min_drop_left _ hp]
  | case3 b tris rest best val hsome ih =>
    intro hok hv
    rw [ray_pick_stack, hsome]
    have hfv : valid_best origin dir
        (tris.foldl (consider_tri origin dir positions tri_faces) best) :=
      foldl_consider_valid origin dir positions tri_faces tris best hv
    obtain ⟨ihv, iht⟩ := ih (fun t ht => hok t (by simp [ht])) hfv
    refine ⟨ihv, ?_⟩
    rw [iht, foldl_consider_best_t, stack_tris_cons, hits_min_append,
      BvhTree.tris_of, min_assoc]
  | case4 b l r rest best hnone ih =>
    intro hok hv
    rw [ray_pick_stack, hnone]
    obtain ⟨ihv, iht⟩ := ih (fun t ht => hok t (by simp [ht])) hv
    refine ⟨ihv, ?_⟩
    have hp : best_t best ≤ hits_min origin dir positions tri_faces
        (BvhTree.tris_of (BvhTree.branch b l r)) :=
      hits_of_pruned origin dir positions tri_faces _ best hdir
        (hok _ (by simp)) hnone
    rw [iht, stack_tris_cons, hits_min_append, min_drop_left _ hp]
  | case5 b l r rest best val hsome lh rh lt0 rt0 hr hl hle ih =>
    intro hok hv
    have hl' : Option.map (fun st => st.1)
        (ray_aabb_interval origin dir l.bounds (best_t best)) = some lt0 := hl
    have hr' : Option.map (fun st => st.1)
        (ray_aabb_interval origin dir r.bounds (best_t best)) = some rt0 := hr
    have hok0 := hok _ (List.mem_cons_self _ _)
    have hok' : ∀ tree ∈ l :: r :: rest,
        tree_ok (tri_faces.map (tri_bound positions)) tree := by
      intro t ht
      simp only [List.mem_cons] at ht
      rcases ht with rfl | rfl | ht
      · exact hok0.2.1
      · exact hok0.2.2
      · exact hok t (by simp [ht])
    obtain ⟨ihv, iht⟩ := ih hok' hv
    rw [ray_pick_stack, hsome]
    simp only [hl', hr']
    rw [if_pos hle]
    refine ⟨ihv, ?_⟩
    rw [iht]
    simp only [stack_tris_cons, hits_min_append, BvhTree.tris_of, min_assoc]
  | case6 b l r rest best val hsome lh rh lt0 rt0 hr hl hle ih =>
    intro hok hv
    have hl' : Option.map (fun st => st.1)
        (ray_aabb_interval origin dir l.bounds (best_t best)) = some lt0 := hl
    have hr' : Option.map (fun st => st.1)
        (ray_aabb_interval origin dir r.bounds (best_t best)) = some rt0 := hr
    have hok0 := hok _ (List.mem_cons_self _ _)
    have hok' : ∀ tree ∈ r :: l :: rest,
        tree_ok (tri_faces.map (tri_bound positions)) tree := by
      intro t ht
      simp only [List.mem_cons] at ht
      rcases ht with rfl | rfl | ht
      · exact hok0.2.2
      · exact hok0.2.1
      · exact hok t (by simp [ht])
    obtain ⟨ihv, iht⟩ := ih hok' hv
    rw [ray_pick_stack, hsome]
    simp only [hl', hr']
    rw [if_neg hle]
    refine ⟨ihv, ?_⟩
    rw [iht]
    simp only [stack_tris_cons, hits_min_append, BvhTree.tris_of, min_assoc]
    rw [min_left_comm (hits_min origin dir positions tri_faces r.tris_of)
      (hits_min origin dir positions tri_faces l.tris_of)]
  | case7 b l r rest best val hsome lh rh lval hr hl ih =>
    intro hok hv
    have hl' : Option.map (fun st => st.1)
        (ray_aabb_interval origin dir l.bounds (best_t best)) = some lval := hl
    have hr' : Option.map (fun st => st.1)
        (ray_aabb_interval origin dir r.bounds (best_t best)) = none := hr
    have hok0 := hok _ (List.mem_cons_self _ _)
    have hok' : ∀ tree ∈ l :: rest,
        tree_ok (tri_faces.map (tri_bound positions)) tree := by
      intro t ht
      simp only [List.mem_cons] at ht
      rcases ht with rfl | ht
      · exact hok0.2.1
      · exact hok t (by simp [ht])
    obtain ⟨ihv, iht⟩ := ih hok' hv
    rw [ray_pick_stack, hsome]
    simp only [hl', hr']
    refine ⟨ihv, ?_⟩
    rw [iht]
    have hrnone : ray_aabb_interval origin dir r.bounds (best_t best) = none := by
      cases hra : ray_aabb_interval origin dir r.bounds (best_t best) with
      | none => rfl
      | some v => rw [hra] at hr'; cases hr'
    have hp : best_t best ≤ hits_min origin dir positions tri_faces r.tris_of :=
      hits_of_pruned origin dir positions tri_faces r best hdir hok0.2.2 hrnone
    simp only [stack_tris_cons, hits_min_append, BvhTree.tris_of, min_assoc]
    rw [min_drop_mid _ _ hp]
  | case8 b l r rest best val hsome lh rh rval hr hl ih =>
    intro hok hv
    have hl' : Option.map (fun st => st.1)
        (ray_aabb_interval origin dir l.bounds (best_t best)) = none := hl
    have hr' : Option.map (fun st => st.1)
        (ray_aabb_interval origin dir r.bounds (best_t best)) = some rval := hr
    have hok0 := hok _ (List.mem_cons_self _ _)
    have hok' : ∀ tree ∈ r :: rest,
        tree_ok (tri_faces.map (tri_bound positions)) tree := by
      intro t ht
      simp only [List.mem_cons] at ht
      rcases ht with rfl | ht
      · exact hok0.2.2
      · exact hok t (by simp [ht])
    obtain ⟨ihv, iht⟩ := ih hok' hv
    rw [ray_pick_stack, hsome]
    simp only [hl', hr']
    refine ⟨ihv, ?_⟩
    rw [iht]
    have hlnone : ray_aabb_interval origin dir l.bounds (best_t best) = none := by
      cases hla : ray_aabb_interval origin dir l.bounds (best_t best) with
      | none => rfl
      | some v => rw [hla] at hl'; cases hl'
    have hp : best_t best ≤ hits_min origin dir positions tri_faces l.tris_of :=
      hits_of_pruned origin dir positions tri_faces l best hdir hok0.2.1 hlnone
    simp only [stack_tris_cons, hits_min_append, BvhTree.tris_of, min_assoc]
    rw [min_drop_left _ hp]
  | case9 b l r rest best val hsome lh rh hr hl ih =>
    intro hok hv
    have hl' : Option.map (fun st => st.1)
        (ray_aabb_interval origin dir l.bounds (best_t best)) = none := hl
    have hr' : Option.map (fun st => st.1)
        (ray_aabb_interval origin dir r.bounds (best_t best)) = none := hr
    have hok0 := hok _ (List.mem_cons_self _ _)
    obtain ⟨ihv, iht⟩ := ih (fun t ht => hok t (by simp [ht])) hv
    rw [ray_pick_stack, hsome]
    simp only [hl', hr']
    refine ⟨ihv, ?_⟩
    rw [iht]
    have hlnone : ray_aabb_interval origin dir l.bounds (best_t best) = none := by
      cases hla : ray_aabb_interval origin dir l.bounds (best_t best) with
      | none => rfl
      | some v => rw [hla] at hl'; cases hl'
    have hrnone : ray_aabb_interval origin dir r.bounds (best_t best) = none := by
      cases hra : ray_aabb_interval origin dir r.bounds (best_t best) with
      | none => rfl
      | some v => rw [hra] at hr'; cases hr'
    have hpl : best_t best ≤ hits_min origin dir positions tri_faces l.tris_of :=
      hits_of_pruned origin dir positions tri_faces l best hdir hok0.2.1 hlnone
    have hpr : best_t best ≤ hits_min origin dir positions tri_faces r.tris_of :=
      hits_of_pruned origin dir positions tri_faces r best hdir hok0.2.2 hrnone
    simp only [stack_tris_cons, hits_min_append, BvhTree.tris_of, min_assoc]
    rw [min_drop_left _ hpl, min_drop_left _ hpr]

end C1Traverse

section C1Build

theorem bounds_sub_trans {a b c : Vec3 × Vec3} (h1 : bounds_sub a b)
    (h2 : bounds_sub b c) : bounds_sub a c := by
  obtain ⟨x1, x2, y1, y2, z1, z2⟩ := h1
  obtain ⟨u1, u2, v1, v2, w1, w2⟩ := h2
  exact ⟨by linarith, by linarith, by linarith, by linarith, by linarith,
    by linarith⟩

theorem sub_merge_left (acc bj : Vec3 × Vec3) :
    bounds_sub acc (acc.1.cmin bj.1, acc.2.cmax bj.2) := by
  simp [bounds_sub, Vec3.cmin, Vec3.cmax]

theorem sub_merge_right (acc bj : Vec3 × Vec3) :
    bounds_sub bj (acc.1.cmin bj.1, acc.2.cmax bj.2) := by
  simp [bounds_sub, Vec3.cmin, Vec3.cmax]

theorem merge_fold_widens (tb : List (Vec3 × Vec3)) (rest : List ℕ) :
    ∀ acc : Vec3 × Vec3, bounds_sub acc (rest.foldl (fun acc j =>
      let b := tb.getD j (Vec3.ZERO, Vec3.ZERO)
      (acc.1.cmin b.1, acc.2.cmax b.2)) acc) := by
  induction rest with
  | nil =>
    intro acc
    simp [bounds_sub]
  | cons j rest ih =>
    intro acc
    refine bounds_sub_trans (sub_merge_left acc
      (tb.getD j (Vec3.ZERO, Vec3.ZERO))) ?_
    exact ih _

theorem merge_fold_mem (tb : List (Vec3 × Vec3)) (rest : List ℕ) :
    ∀ (acc : Vec3 × Vec3) (i : ℕ), i ∈ rest →
      bounds_sub (tb.getD i (Vec3.ZERO, Vec3.ZERO))
        (rest.foldl (fun acc j =>
          let b := tb.getD j (Vec3.ZERO, Vec3.ZERO)
          (acc.1.cmin b.1, acc.2.cmax b.2)) acc) := by
  induction rest with
  | nil =>
    intro acc i hi
    cases hi
  | cons j rest ih =>
    intro acc i hi
    simp only [List.mem_cons] at hi
    rcases hi with rfl | hi
    · simp only [List.foldl_cons]
      refine bounds_sub_trans (sub_merge_right acc
        (tb.getD i (Vec3.ZERO, Vec3.ZERO))) ?_
      exact merge_fold_widens tb rest _
    · simp only [List.foldl_cons]
      exact ih _ i hi

theorem bfi_mem (tb : List (Vec3 × Vec3)) (indices : List ℕ) (i : ℕ)
    (hi : i ∈ indices) :
    bounds_sub (tb.getD i (Vec3.ZERO, Vec3.ZERO))
      (bounds_for_indices indices tb) := by
  cases indices with
  | nil => cases hi
  | cons i0 rest =>
    simp only [List.mem_cons] at hi
    unfold bounds_for_indices
    rcases hi with rfl | hi
    · exact merge_fold_widens tb rest _
    · exact merge_fold_mem tb rest _ i hi

theorem tris_of_build_perm (tb : List (Vec3 × Vec3)) (cen : List Vec3) :
    ∀ indices : List ℕ,
      (build_bvh_node tb cen indices).tris_of.Perm indices := by
  intro indices
  induction indices using build_bvh_node.induct tb cen with
  | case1 x hlen =>
    rw [build_bvh_node]
    simp only [if_pos hlen, BvhTree.tris_of]
    exact List.Perm.refl x
  | case2 x hlen cb extent axis sorted mid ih1 ih2 =>
    rw [build_bvh_node]
    simp only [if_neg hlen, BvhTree.tris_of]
    refine (ih1.append ih2).trans ?_
    rw [List.take_append_drop]
    exact x.mergeSort_perm _

theorem build_tree_ok (tb : List (Vec3 × Vec3)) (cen : List Vec3) :
    ∀ indices : List ℕ, tree_ok tb (build_bvh_node tb cen indices) := by
  intro indices
  induction indices using build_bvh_node.induct tb cen with
  | case1 x hlen =>
    rw [build_bvh_node]
    simp only [if_pos hlen, tree_ok]
    intro i hi
    exact bfi_mem tb x i hi
  | case2 x hlen cb extent axis sorted mid ih1 ih2 =>
    rw [build_bvh_node]
    simp only [if_neg hlen, tree_ok]
    refine ⟨?_, ih1, ih2⟩
    intro i hi
    apply bfi_mem tb x i
    rw [List.mem_append] at hi
    have hx : i ∈ sorted := by
      rcases hi with hi | hi
      · have := (tris_of_build_perm tb cen (List.take mid sorted)).mem_iff.mp hi
        exact List.mem_of_mem_take this
      · have := (tris_of_build_perm tb cen (List.drop mid sorted)).mem_iff.mp hi
        exact List.mem_of_mem_drop this
    exact (x.mergeSort_perm _).mem_iff.mp hx

end C1Build

section C1Final

theorem valid_best_none (origin dir : Vec3) : valid_best origin dir none := by
  intro t p h
  cases h

theorem ray_pick_linear_spec (m : ViewerMesh) (origin dir : Vec3) :
    valid_best origin dir (m.ray_pick_linear origin dir)
    ∧ best_t (m.ray_pick_linear origin dir)
      = hits_min origin dir m.positions m.tri_faces
          (List.range m.tri_faces.length) := by
  unfold ViewerMesh.ray_pick_linear
  refine ⟨foldl_consider_valid origin dir m.positions m.tri_faces _ none
    (valid_best_none origin dir), ?_⟩
  rw [foldl_consider_best_t]
  simp [best_t]

/-- C1 (amended): for every mesh built by `from_mesh` (any triangle list,
with the BVH `build_bvh` constructs for it) and every ray whose direction
components are each zero or of magnitude above the slab test's `1e-9`
threshold, `ray_pick`'s BVH traversal returns exactly the nearest-hit
result of the linear scan `ray_pick_linear` (same `t`, same world point);
and on any mesh whose BVH node list is empty (e.g. a merged mesh),
`ray_pick` falls back to the linear scan.  The direction proviso is what
the counterexample `ray_pick_bvh_misses_hit` forces: a direction component
that is nonzero but `≤ 1e-9` in magnitude makes the slab test use only the
ray origin on that axis, which can prune a leaf that the linear scan
hits. -/
theorem ray_pick_bvh_linear_agree :
    ∀ (positions : List Vec3) (tri_faces : List (ℕ × ℕ × ℕ))
      (edges : List (ℕ × ℕ)) (bounds : Option (Vec3 × Vec3))
      (origin dir : Vec3),
      (dir_ok dir →
        (ViewerMesh.with_bvh positions tri_faces edges bounds).ray_pick origin dir
          = (ViewerMesh.with_bvh positions tri_faces edges bounds).ray_pick_linear
              origin dir)
      ∧ (∀ m : ViewerMesh, m.bvh = none →
          m.ray_pick origin dir = m.ray_pick_linear origin dir) := by
  intro P T E B origin dir
  constructor
  · intro hdir
    show (if T.isEmpty then none
      else match build_bvh P T with
        | none => (ViewerMesh.with_bvh P T E B).ray_pick_linear origin dir
        | some root => ray_pick_stack origin dir P T [root] none) = _
    by_cases hT : T.isEmpty
    · rw [if_pos hT]
      have hT' : T = [] := List.isEmpty_iff.mp hT
      subst hT'
      rfl
    · rw [if_neg hT]
      unfold build_bvh
      by_cases hP : P.isEmpty
      · rw [if_pos (Or.inr hP)]
      · rw [if_neg (by push_neg; exact ⟨hT, hP⟩)]
        obtain ⟨hval, hbt⟩ := ray_pick_stack_spec origin dir P T hdir
          [build_bvh_node (T.map (tri_bound P)) (T.map (tri_centroid P))
            (List.range T.length)] none
          (by
            intro t ht
            simp only [List.mem_singleton] at ht
            subst ht
            exact build_tree_ok _ _ _)
          (valid_best_none origin dir)
        obtain ⟨lval, lbt⟩ := ray_pick_linear_spec
          (ViewerMesh.with_bvh P T E B) origin dir
        apply valid_best_inj origin dir hval lval
        rw [hbt, lbt]
        rw [show stack_tris [build_bvh_node (T.map (tri_bound P))
            (T.map (tri_centroid P)) (List.range T.length)]
          = (build_bvh_node (T.map (tri_bound P)) (T.map (tri_centroid P))
              (List.range T.length)).tris_of ++ [] from rfl]
        rw [List.append_nil]
        rw [hits_min_perm origin dir P T
          (tris_of_build_perm (T.map (tri_bound P)) (T.map (tri_centroid P))
            (List.range T.length))]
        simp only [best_t, ViewerMesh.with_bvh]
        rw [min_eq_right le_top]
  · intro m hm
    show (if m.tri_faces.isEmpty then none
      else match m.bvh with
        | none => m.ray_pick_linear origin dir
        | some root => ray_pick_stack origin dir m.positions m.tri_faces
            [root] none) = _
    rw [hm]
    by_cases hT : m.tri_faces.isEmpty
    · rw [if_pos hT]
      unfold ViewerMesh.ray_pick_linear
      rw [List.isEmpty_iff.mp hT]
      rfl
    · rw [if_neg hT]

end C1Final


/-- C1 counterexample: on the mesh `bvhCexMesh` (BVH built by `build_bvh`)
and ray `(bvhCexOrigin, bvhCexDir)` — whose z component `2⁻³⁴` is nonzero
but below the `1e-9` slab threshold — the BVH traversal of `ray_pick`
returns no hit while the linear scan returns the hit at `t = 2^38`, so the
claimed exact equality of the two is false as stated. -/
theorem ray_pick_bvh_misses_hit :
    bvhCexMesh.ray_pick bvhCexOrigin bvhCexDir = none
    ∧ bvhCexMesh.ray_pick_linear bvhCexOrigin bvhCexDir
        = some (2 ^ 38, ⟨2 ^ 38, 0, 16⟩) := by
  constructor
  · have hb : bvhCexMesh.bvh = some (BvhTree.leaf
        (⟨2 ^ 38, -1, 15⟩, ⟨2 ^ 38, 1, 17⟩) [0]) := by
      show build_bvh bvhCexPositions bvhCexTris = _
      rw [build_bvh, if_neg (by simp [bvhCexPositions, bvhCexTris])]
      rw [show List.range bvhCexTris.length = [0] from rfl]
      rw [build_bvh_node, if_pos (by simp [BVH_LEAF_SIZE])]
      norm_num [bounds_for_indices, bvhCexPositions, bvhCexTris, tri_bound,
        Vec3.cmin, Vec3.cmax, Vec3.ZERO, min_def, max_def]
    show (if bvhCexMesh.tri_faces.isEmpty then none else _) = none
    rw [if_neg (by simp [bvhCexMesh, ViewerMesh.with_bvh, bvhCexTris])]
    rw [hb]
    simp only [ray_pick_stack]
    rw [show ray_aabb_interval bvhCexOrigin bvhCexDir
        (⟨2 ^ 38, -1, 15⟩, ⟨2 ^ 38, 1, 17⟩) (best_t none) = none by
      simp only [ray_aabb_interval, check_axis, bvhCexOrigin, bvhCexDir, best_t]
      norm_num [abs_le, min_eq_right le_top]]
  · show (List.range 1).foldl
        (consider_tri bvhCexOrigin bvhCexDir bvhCexPositions bvhCexTris) none = _
    rw [show List.range 1 = [0] from rfl]
    norm_num [bvhCexPositions, bvhCexTris, bvhCexOrigin, bvhCexDir, List.foldl,
      consider_tri, ray_intersect_triangle, rayTriangleEps, Vec3.sub, Vec3.cross,
      Vec3.dot, Vec3.add, Vec3.scale, Vec3.ZERO, best_t, abs_lt]


/-- **C10.** The snap cache key is `(cursor, rect, camera position, target,
up)` and does not include the meshes: on an exact key match `cached_snap`
returns the cached hit and the unchanged state for *any* mesh list (so two
runs with the same cache and key but different meshes agree), while a key
mismatch or an empty cache (e.g. right after `invalidate_snap_cache`)
recomputes `pick_snap` over the given meshes and stores the result under
the current key. -/
theorem cached_snap_ignores_meshes :
    ∀ (s : ViewerState) (pos : Point2) (rect : Rect) (basis : CameraBasis)
      (scale : ℝ) (meshes1 meshes2 : List ViewerMesh),
      (∀ cache : SnapCache, s.snap_cache = some cache →
        (same_point2 cache.pos pos ∧ same_rect cache.rect rect ∧
            same_vec3 cache.camera_pos s.camera_pos ∧
            same_vec3 cache.camera_target s.target ∧
            same_vec3 cache.camera_up s.camera_up) →
          s.cached_snap pos rect basis scale meshes1 = (s, cache.hit) ∧
          s.cached_snap pos rect basis scale meshes2 = (s, cache.hit))
      ∧ (∀ cache : SnapCache, s.snap_cache = some cache →
          ¬ (same_point2 cache.pos pos ∧ same_rect cache.rect rect ∧
              same_vec3 cache.camera_pos s.camera_pos ∧
              same_vec3 cache.camera_target s.target ∧
              same_vec3 cache.camera_up s.camera_up) →
          (s.cached_snap pos rect basis scale meshes1).2
            = s.pick_snap pos rect basis scale meshes1)
      ∧ ((s.invalidate_snap_cache).cached_snap pos rect basis scale meshes1).2
          = (s.invalidate_snap_cache).pick_snap pos rect basis scale meshes1
      ∧ ((s.invalidate_snap_cache).cached_snap pos rect basis scale
            meshes1).1.snap_cache
          = some ⟨pos, rect, s.camera_pos, s.target, s.camera_up,
              (s.invalidate_snap_cache).pick_snap pos rect basis scale meshes1⟩ := by
  intro s pos rect basis scale meshes1 meshes2
  refine ⟨?_, ?_, ?_, ?_⟩
  · intro cache hc hkey
    constructor <;>
      · simp only [ViewerState.cached_snap, hc]
        rw [if_pos hkey]
  · intro cache hc hkey
    simp only [ViewerState.cached_snap, hc]
    rw [if_neg hkey]
  · rfl
  · rfl


section C6Lemmas

theorem Vec3.dot_self_nonneg (v : Vec3) : 0 ≤ v.dot v := by
  simp only [Vec3.dot]
  nlinarith [mul_self_nonneg v.x, mul_self_nonneg v.y, mul_self_nonneg v.z]

theorem Vec3.length_nonneg (v : Vec3) : 0 ≤ v.length := Real.sqrt_nonneg _

theorem Vec3.dot_self_eq_sq_length (v : Vec3) : v.dot v = v.length ^ 2 := by
  rw [Vec3.length, Real.sq_sqrt (Vec3.dot_self_nonneg v)]

theorem Vec3.dot_self_of_length_one (v : Vec3) (h : v.length = 1) :
    v.dot v = 1 := by
  rw [Vec3.dot_self_eq_sq_length, h, one_pow]

theorem Vec3.normalized_length (v : Vec3) (h : Vec3.f64Epsilon < v.length) :
    v.normalized.length = 1 := by
  have hpos : (0 : ℝ) < v.length := by
    have he : (0 : ℝ) < Vec3.f64Epsilon := by rw [Vec3.f64Epsilon]; positivity
    linarith
  have hvv : v.x * v.x + v.y * v.y + v.z * v.z = v.length ^ 2 := by
    have := Vec3.dot_self_eq_sq_length v
    simpa [Vec3.dot] using this
  have hd : (v.divScalar v.length).dot (v.divScalar v.length) = 1 := by
    simp only [Vec3.divScalar, Vec3.dot]
    have e : v.x / v.length * (v.x / v.length) + v.y / v.length * (v.y / v.length)
        + v.z / v.length * (v.z / v.length)
        = (v.x * v.x + v.y * v.y + v.z * v.z) / v.length ^ 2 := by ring
    rw [e, hvv, div_self (pow_ne_zero 2 hpos.ne')]
  rw [Vec3.normalized, if_neg (not_le.mpr h), Vec3.length, hd, Real.sqrt_one]

theorem Vec3.normalized_dot_eq_zero (v w : Vec3) (h : v.dot w = 0) :
    v.normalized.dot w = 0 := by
  simp only [Vec3.dot] at h
  rw [Vec3.normalized]
  split
  · simp [Vec3.ZERO, Vec3.dot]
  · simp only [Vec3.divScalar, Vec3.dot]
    have e : v.x / v.length * w.x + v.y / v.length * w.y + v.z / v.length * w.z
        = (v.x * w.x + v.y * w.y + v.z * w.z) / v.length := by ring
    rw [e, h, zero_div]

theorem Vec3.cross_dot_left (a b : Vec3) : (a.cross b).dot a = 0 := by
  simp only [Vec3.cross, Vec3.dot]; ring

theorem Vec3.cross_dot_right (a b : Vec3) : (a.cross b).dot b = 0 := by
  simp only [Vec3.cross, Vec3.dot]; ring

theorem Vec3.cross_dot_self_lagrange (a b : Vec3) :
    (a.cross b).dot (a.cross b) = a.dot a * b.dot b - a.dot b ^ 2 := by
  simp only [Vec3.cross, Vec3.dot]; ring

theorem Vec3.f64Epsilon_lt_length (v : Vec3) (h : 1 - 1.0e-12 ≤ v.dot v) :
    Vec3.f64Epsilon < v.length := by
  by_contra hc
  push_neg at hc
  have h0 := Vec3.length_nonneg v
  have h2 : v.dot v ≤ Vec3.f64Epsilon ^ 2 := by
    rw [Vec3.dot_self_eq_sq_length]
    exact pow_le_pow_left₀ h0 hc 2
  have h3 : (Vec3.f64Epsilon : ℝ) ^ 2 < 1 - 1.0e-12 := by
    rw [Vec3.f64Epsilon]; norm_num
  linarith

theorem Vec3.f64Epsilon_lt_of_1e6 (v : Vec3) (h : 1.0e-6 < v.length) :
    Vec3.f64Epsilon < v.length := by
  refine lt_trans ?_ h
  rw [Vec3.f64Epsilon]; norm_num

theorem forward_length (s : ViewerState) : s.forward.length = 1 := by
  simp only [ViewerState.forward]
  split
  · rw [Vec3.length, show Vec3.dot ⟨0, 0, 1⟩ ⟨0, 0, 1⟩ = 1 by
      norm_num [Vec3.dot], Real.sqrt_one]
  · next h => exact Vec3.normalized_length _ (not_le.mp h)

theorem up_from_right (f r1 : Vec3) (hff : f.dot f = 1)
    (hr1f : r1.dot f = 0) (hr1 : Vec3.f64Epsilon < r1.length) :
    (r1.normalized.cross f).normalized.length = 1
    ∧ (r1.normalized.cross f).normalized.dot f = 0 := by
  have hrn : r1.normalized.length = 1 := Vec3.normalized_length r1 hr1
  have hrf : r1.normalized.dot f = 0 := Vec3.normalized_dot_eq_zero r1 f hr1f
  have hu0 : (r1.normalized.cross f).dot (r1.normalized.cross f) = 1 := by
    rw [Vec3.cross_dot_self_lagrange, Vec3.dot_self_of_length_one _ hrn, hff, hrf]
    norm_num
  have hu0len : Vec3.f64Epsilon < (r1.normalized.cross f).length := by
    rw [Vec3.length, hu0, Real.sqrt_one, Vec3.f64Epsilon]; norm_num
  exact ⟨Vec3.normalized_length _ hu0len,
    Vec3.normalized_dot_eq_zero _ _ (Vec3.cross_dot_right _ _)⟩

theorem default_up_spec (f : Vec3) (hf : f.length = 1) :
    (ViewerState.default_up f).length = 1
    ∧ (ViewerState.default_up f).dot f = 0 := by
  have hff : f.dot f = 1 := Vec3.dot_self_of_length_one f hf
  have key : ∀ w : Vec3, Vec3.f64Epsilon < (f.cross w).length →
      ((f.cross w).normalized.cross f).normalized.length = 1
      ∧ ((f.cross w).normalized.cross f).normalized.dot f = 0 :=
    fun w hw => up_from_right f (f.cross w) hff (Vec3.cross_dot_left f w) hw
  simp only [ViewerState.default_up]
  by_cases hc : (f.cross ⟨0, 0, 1⟩).length ≤ 1.0e-6
  · rw [if_pos hc]
    apply key
    apply Vec3.f64Epsilon_lt_length
    have hd : (f.cross ⟨0, 0, 1⟩).dot (f.cross ⟨0, 0, 1⟩) ≤ 1.0e-12 := by
      rw [Vec3.dot_self_eq_sq_length]
      nlinarith [Vec3.length_nonneg (f.cross ⟨0, 0, 1⟩)]
    simp only [Vec3.cross, Vec3.dot] at hd hff ⊢
    nlinarith [hd, hff]
  · rw [if_neg hc]
    exact key _ (Vec3.f64Epsilon_lt_of_1e6 _ (not_le.mp hc))

theorem reorth_up_spec (u f : Vec3) (hf : f.length = 1) :
    ((if (u.sub (f.scale (u.dot f))).length ≤ 1.0e-6
        then ViewerState.default_up f
        else u.sub (f.scale (u.dot f))).normalized).length = 1
    ∧ ((if (u.sub (f.scale (u.dot f))).length ≤ 1.0e-6
        then ViewerState.default_up f
        else u.sub (f.scale (u.dot f))).normalized).dot f = 0 := by
  have hff : f.dot f = 1 := Vec3.dot_self_of_length_one f hf
  by_cases hc : (u.sub (f.scale (u.dot f))).length ≤ 1.0e-6
  · rw [if_pos hc]
    obtain ⟨h1, h2⟩ := default_up_spec f hf
    refine ⟨Vec3.normalized_length _ ?_, Vec3.normalized_dot_eq_zero _ _ h2⟩
    rw [h1, Vec3.f64Epsilon]; norm_num
  · rw [if_neg hc]
    have horth : (u.sub (f.scale (u.dot f))).dot f = 0 := by
      simp only [Vec3.sub, Vec3.scale, Vec3.dot] at hff ⊢
      linear_combination (-(u.x * f.x + u.y * f.y + u.z * f.z)) * hff
    exact ⟨Vec3.normalized_length _ (Vec3.f64Epsilon_lt_of_1e6 _ (not_le.mp hc)),
      Vec3.normalized_dot_eq_zero _ _ horth⟩

theorem forward_update_up (s2 : ViewerState) (v : Vec3) :
    ({ s2 with camera_up := v } : ViewerState).forward = s2.forward := rfl

theorem orbit_pivot_up (s : ViewerState) (yaw pitch : ℝ) :
    (s.orbit_pivot yaw pitch).camera_up.length = 1
    ∧ (s.orbit_pivot yaw pitch).camera_up.dot
        (s.orbit_pivot yaw pitch).forward = 0 := by
  simp only [ViewerState.orbit_pivot]
  constructor
  · exact (reorth_up_spec _ _ (forward_length _)).1
  · rw [forward_update_up]
    exact (reorth_up_spec _ _ (forward_length _)).2

theorem foldl_orbit_exists (l : List (ℝ × ℝ)) :
    ∀ (s : ViewerState) (a b : ℝ),
      ∃ (s' : ViewerState) (a' b' : ℝ),
        l.foldl (fun st p => st.orbit_pivot p.1 p.2) (s.orbit_pivot a b)
          = s'.orbit_pivot a' b' := by
  induction l with
  | nil => exact fun s a b => ⟨s, a, b, rfl⟩
  | cons p l ih => exact fun s a b => ih (s.orbit_pivot a b) p.1 p.2

end C6Lemmas


/-- **C6.** After any nonempty finite sequence of `orbit_pivot(yaw, pitch)`
calls from any camera state, the camera up vector satisfies
`| |up| - 1 | ≤ 1e-6` and `|up · forward| ≤ 1e-6`: the final
re-orthogonalization of every orbit call projects `up` against the new
forward and renormalizes it (in the exact-real model both quantities are
exact). -/
theorem orbit_orthogonality :
    ∀ (s : ViewerState) (d : ℝ × ℝ) (rest : List (ℝ × ℝ)),
      |(orbit_sequence s (d :: rest)).camera_up.length - 1| ≤ 1.0e-6
      ∧ |(orbit_sequence s (d :: rest)).camera_up.dot
          (orbit_sequence s (d :: rest)).forward| ≤ 1.0e-6 := by
  intro s d rest
  obtain ⟨s', a', b', h⟩ := foldl_orbit_exists rest s d.1 d.2
  have hfold : orbit_sequence s (d :: rest) = s'.orbit_pivot a' b' := by
    rw [orbit_sequence, List.foldl_cons]
    exact h
  obtain ⟨h1, h2⟩ := orbit_pivot_up s' a' b'
  rw [hfold, h1, h2]
  norm_num


section C5Lemmas

theorem Vec3.normalized_of_length_one (f : Vec3) (hf : f.length = 1) :
    f.normalized = f := by
  have heps : (Vec3.f64Epsilon : ℝ) < 1 := by rw [Vec3.f64Epsilon]; norm_num
  rw [Vec3.normalized, if_neg (not_le.mpr (by rw [hf]; exact heps)), hf]
  cases f with
  | mk x y z => simp [Vec3.divScalar]

theorem Vec3.sub_sub_cancel (a b : Vec3) : a.sub (a.sub b) = b := by
  cases a; cases b; simp [Vec3.sub]

theorem scale_length_of_unit (f : Vec3) (d : ℝ) (hf : f.length = 1)
    (hd0 : 0 ≤ d) : (f.scale d).length = d := by
  have hff : f.dot f = 1 := Vec3.dot_self_of_length_one f hf
  have hdot : (f.scale d).dot (f.scale d) = d ^ 2 := by
    simp only [Vec3.scale, Vec3.dot] at hff ⊢
    linear_combination (d ^ 2) * hff
  rw [Vec3.length, hdot, Real.sqrt_sq hd0]

theorem scale_normalized_of_unit (f : Vec3) (d : ℝ) (hf : f.length = 1)
    (hd : 1 ≤ d) : (f.scale d).normalized = f := by
  have hd0 : (0 : ℝ) < d := lt_of_lt_of_le one_pos hd
  have hlen : (f.scale d).length = d := scale_length_of_unit f d hf hd0.le
  have heps : (Vec3.f64Epsilon : ℝ) < 1 := by rw [Vec3.f64Epsilon]; norm_num
  rw [Vec3.normalized, if_neg (not_le.mpr (by rw [hlen]; linarith)), hlen]
  cases f with
  | mk x y z =>
    simp only [Vec3.scale, Vec3.divScalar]
    congr 1 <;> exact mul_div_cancel_right₀ _ hd0.ne'

theorem set_view_forward (s : ViewerState) (f : Vec3) (hf : f.length = 1) :
    (s.set_view f).forward = f := by
  have hM : (1 : ℝ) ≤ max s.distance_internal 1 := le_max_right _ _
  have hlen : (f.scale (max s.distance_internal 1)).length
      = max s.distance_internal 1 :=
    scale_length_of_unit f _ hf (by linarith)
  have heps : (Vec3.f64Epsilon : ℝ) < 1 := by rw [Vec3.f64Epsilon]; norm_num
  simp only [ViewerState.set_view, ViewerState.forward,
    Vec3.normalized_of_length_one f hf]
  rw [Vec3.sub_sub_cancel]
  rw [if_neg (not_le.mpr (by rw [hlen]; linarith))]
  exact scale_normalized_of_unit f _ hf hM

theorem forward_update_transition (s2 : ViewerState) (tr : Option ViewTransition) :
    ({ s2 with view_transition := tr } : ViewerState).forward = s2.forward := rfl

theorem update_fst (s : ViewerState) (dt : ℝ) :
    (s.update dt).1 = s.update_view_transition dt := rfl

theorem update_sequence_cons (s : ViewerState) (dt : ℝ) (rest : List ℝ) :
    update_sequence s (dt :: rest) = update_sequence ((s.update dt).1) rest := rfl

theorem update_none_id (s : ViewerState) (dt : ℝ)
    (h : s.view_transition = none) : (s.update dt).1 = s := by
  rw [update_fst]
  simp only [ViewerState.update_view_transition, h]

theorem update_sequence_none (s : ViewerState) (dts : List ℝ)
    (h : s.view_transition = none) : update_sequence s dts = s := by
  induction dts with
  | nil => rfl
  | cons dt rest ih =>
    rw [update_sequence_cons, update_none_id s dt h]
    exact ih

theorem update_sequence_clears (F : Vec3) (hF : F.length = 1) (dts : List ℝ) :
    ∀ (s : ViewerState) (ff fu tu : Vec3) (e : ℝ),
      s.view_transition = some ⟨ff, fu, F, tu, e, 0.35⟩ →
      e < 0.35 →
      0.35 ≤ e + (dts.map (fun dt => max dt 0)).sum →
      (update_sequence s dts).view_transition = none
      ∧ (update_sequence s dts).forward = F := by
  induction dts with
  | nil =>
    intro s ff fu tu e htr hlt hsum
    exfalso
    simp only [List.map_nil, List.sum_nil, add_zero] at hsum
    linarith
  | cons dt rest ih =>
    intro s ff fu tu e htr hlt hsum
    simp only [List.map_cons, List.sum_cons] at hsum
    rw [update_sequence_cons]
    by_cases hc : (0.35 : ℝ) ≤ e + max dt 0
    · have ht1 : clampR ((e + max dt 0) / 0.35) 0 1 = 1 := by
        have hx : (1 : ℝ) ≤ (e + max dt 0) / 0.35 := by
          rw [le_div_iff₀ (by norm_num : (0 : ℝ) < 0.35)]
          linarith
        rw [clampR, min_eq_right (le_trans hx (le_max_left _ _))]
      have hstep : ((s.update dt).1).view_transition = none
          ∧ ((s.update dt).1).forward = F := by
        rw [update_fst]
        simp only [ViewerState.update_view_transition, htr]
        rw [if_pos (by rw [ht1] : clampR ((e + max dt 0) / 0.35) 0 1 ≥ 1)]
        exact ⟨rfl, by rw [forward_update_transition, set_view_forward _ _ hF]⟩
      rw [update_sequence_none _ rest hstep.1]
      exact hstep
    · push_neg at hc
      have hx : (e + max dt 0) / 0.35 < 1 := by
        rw [div_lt_one (by norm_num : (0 : ℝ) < 0.35)]
        linarith
      have ht1 : ¬ (clampR ((e + max dt 0) / 0.35) 0 1 ≥ 1) := by
        rw [clampR]
        intro hcon
        have h1 : max ((e + max dt 0) / 0.35) 0 < 1 := max_lt hx one_pos
        have h2 : min (max ((e + max dt 0) / 0.35) 0) 1 < 1 :=
          lt_of_le_of_lt (min_le_left _ _) h1
        linarith
      have hstep : ((s.update dt).1).view_transition
          = some ⟨ff, fu, F, tu, e + max dt 0, 0.35⟩ := by
        rw [update_fst]
        simp only [ViewerState.update_view_transition, htr]
        rw [if_neg ht1]
      exact ih ((s.update dt).1) ff fu tu (e + max dt 0) hstep hc (by linarith)

end C5Lemmas


/-- **C5.** Selecting the view-cube's Top face (outward normal `(0,0,1)`)
aims the camera along the negated normal: `view_direction_from_normal`
of `(0,0,1)` is `(0,0,-1)`; when the camera is not already within `1e-3`
of that direction, `begin_view_transition` stores a transition whose
`to_forward` is exactly `(0,0,-1)` with duration `0.35` and elapsed `0`;
and after `update` calls whose accumulated elapsed time (each `dt` clamped
below at `0`) reaches at least `0.35 s`, the transition is cleared and the
camera forward equals `(0,0,-1)` exactly (when the camera was already
aligned, `begin_view_transition` snaps immediately with the same final
state, so the last part needs no alignment hypothesis). -/
theorem top_face_transition_clears :
    ∀ (s : ViewerState) (dts : List ℝ),
      view_direction_from_normal ⟨0, 0, 1⟩ = (⟨0, 0, -1⟩ : Vec3)
      ∧ (1.0e-3 < (s.forward.sub ⟨0, 0, -1⟩).length →
          (s.begin_view_transition
              (view_direction_from_normal ⟨0, 0, 1⟩)).view_transition
            = some ⟨s.forward, s.camera_up.normalized, ⟨0, 0, -1⟩,
                ViewerState.default_up ⟨0, 0, -1⟩, 0, 0.35⟩)
      ∧ (0.35 ≤ (dts.map (fun dt => max dt 0)).sum →
          (update_sequence (s.begin_view_transition
              (view_direction_from_normal ⟨0, 0, 1⟩)) dts).view_transition = none
          ∧ (update_sequence (s.begin_view_transition
              (view_direction_from_normal ⟨0, 0, 1⟩)) dts).forward
              = (⟨0, 0, -1⟩ : Vec3)) := by
  intro s dts
  have hvd : view_direction_from_normal ⟨0, 0, 1⟩ = (⟨0, 0, -1⟩ : Vec3) := by
    simp [view_direction_from_normal]
  have hFlen : (⟨0, 0, -1⟩ : Vec3).length = 1 := by
    rw [Vec3.length, show Vec3.dot ⟨0, 0, -1⟩ ⟨0, 0, -1⟩ = 1 by
      norm_num [Vec3.dot], Real.sqrt_one]
  have hFnorm : (⟨0, 0, -1⟩ : Vec3).normalized = ⟨0, 0, -1⟩ :=
    Vec3.normalized_of_length_one _ hFlen
  have hbegin_far : 1.0e-3 < (s.forward.sub ⟨0, 0, -1⟩).length →
      (s.begin_view_transition
          (view_direction_from_normal ⟨0, 0, 1⟩)).view_transition
        = some ⟨s.forward, s.camera_up.normalized, ⟨0, 0, -1⟩,
            ViewerState.default_up ⟨0, 0, -1⟩, 0, 0.35⟩ := by
    intro hfar
    simp only [hvd, ViewerState.begin_view_transition, hFnorm]
    rw [if_neg (by rw [hFlen]; norm_num), if_neg (not_le.mpr hfar)]
  refine ⟨hvd, hbegin_far, ?_⟩
  intro hsum
  by_cases hnear : (s.forward.sub ⟨0, 0, -1⟩).length ≤ 1.0e-3
  · have hbegin : s.begin_view_transition (view_direction_from_normal ⟨0, 0, 1⟩)
        = { s.set_view ⟨0, 0, -1⟩ with view_transition := none } := by
      simp only [hvd, ViewerState.begin_view_transition, hFnorm]
      rw [if_neg (by rw [hFlen]; norm_num), if_pos hnear]
    rw [hbegin, update_sequence_none _ _ rfl]
    exact ⟨rfl, by rw [forward_update_transition, set_view_forward _ _ hFlen]⟩
  · exact update_sequence_clears ⟨0, 0, -1⟩ hFlen dts _ _ _ _ _
      (hbegin_far (not_le.mp hnear)) (by norm_num)
      (by rw [zero_add]; exact hsum)


section C2Lemmas

theorem Vec3.scale_zero (v : Vec3) : v.scale 0 = Vec3.ZERO := by
  cases v; simp [Vec3.scale, Vec3.ZERO]

theorem Vec3.add_ZERO (v : Vec3) : v.add Vec3.ZERO = v := by
  cases v; simp [Vec3.add, Vec3.ZERO]

theorem Vec3.sub_self_eq (v : Vec3) : v.sub v = Vec3.ZERO := by
  cases v; simp [Vec3.sub, Vec3.ZERO]

theorem Vec3.add_sub_cancel_left (a b : Vec3) : a.add (b.sub a) = b := by
  cases a; cases b
  simp only [Vec3.add, Vec3.sub, Vec3.mk.injEq]
  refine ⟨by ring, by ring, by ring⟩

theorem Vec3.sub_add_cancel_right (a b : Vec3) : (a.sub b).add b = a := by
  cases a; cases b
  simp only [Vec3.add, Vec3.sub, Vec3.mk.injEq]
  refine ⟨by ring, by ring, by ring⟩

theorem Vec3.add_sub_add_cancel (a b d : Vec3) :
    (a.add d).sub (b.add d) = a.sub b := by
  cases a; cases b; cases d
  simp only [Vec3.add, Vec3.sub, Vec3.mk.injEq]
  refine ⟨by ring, by ring, by ring⟩

theorem Vec3.divScalar_scale_cancel (v : Vec3) (r : ℝ) (h : r ≠ 0) :
    (v.divScalar r).scale r = v := by
  cases v
  simp only [Vec3.divScalar, Vec3.scale, Vec3.mk.injEq]
  exact ⟨div_mul_cancel₀ _ h, div_mul_cancel₀ _ h, div_mul_cancel₀ _ h⟩

theorem Vec3.scale_dot (f w : Vec3) (r : ℝ) :
    (f.scale r).dot w = r * f.dot w := by
  cases f; cases w
  simp only [Vec3.scale, Vec3.dot]
  ring

theorem Vec3.dot_normalized_self (v : Vec3) (h : Vec3.f64Epsilon < v.length) :
    v.dot v.normalized = v.length := by
  have hpos : (0 : ℝ) < v.length := by
    have he : (0 : ℝ) < Vec3.f64Epsilon := by rw [Vec3.f64Epsilon]; positivity
    linarith
  have hvv : v.x * v.x + v.y * v.y + v.z * v.z = v.length ^ 2 := by
    have := Vec3.dot_self_eq_sq_length v
    simpa [Vec3.dot] using this
  rw [Vec3.normalized, if_neg (not_le.mpr h)]
  simp only [Vec3.divScalar, Vec3.dot]
  rw [show v.x * (v.x / v.length) + v.y * (v.y / v.length)
      + v.z * (v.z / v.length)
      = (v.x * v.x + v.y * v.y + v.z * v.z) / v.length from by ring, hvv, sq,
    mul_div_assoc, div_self hpos.ne', mul_one]

theorem cancel_vt_distance (s : ViewerState) :
    (s.cancel_view_transition).distance_internal = s.distance_internal := rfl

theorem cancel_vt_target (s : ViewerState) :
    (s.cancel_view_transition).target = s.target := rfl

theorem camera_basis_forward (s : ViewerState) :
    (s.camera_basis).forward = s.forward := rfl

theorem one_le_clampR (x : ℝ) : 1 ≤ clampR x 1 1.0e7 := by
  rw [clampR]
  exact le_min (le_max_right _ _) (by norm_num)

theorem distance_retarget (s : ViewerState) (f : Vec3) (nd : ℝ)
    (hf : f.length = 1) (hnd : 0 ≤ nd) :
    ViewerState.distance_internal
      { s with camera_pos := s.target.sub (f.scale nd) } = nd := by
  show (s.target.sub (s.target.sub (f.scale nd))).length = nd
  rw [Vec3.sub_sub_cancel]
  exact scale_length_of_unit f nd hf hnd

theorem distance_translate (s0 : ViewerState) (t c d : Vec3) :
    ViewerState.distance_internal
      { s0 with target := t.add d, camera_pos := c.add d } = (t.sub c).length := by
  show ((t.add d).sub (c.add d)).length = _
  rw [Vec3.add_sub_add_cancel]

theorem forward_eq_normalized (s : ViewerState)
    (h : Vec3.f64Epsilon < s.distance_internal) :
    s.forward = (s.target.sub s.camera_pos).normalized := by
  have h' : Vec3.f64Epsilon < (s.target.sub s.camera_pos).length := h
  simp only [ViewerState.forward]
  rw [if_neg (not_le.mpr h')]

theorem spop_center (rect : Rect) (basis : CameraBasis) (scale : ℝ)
    (camera pp f : Vec3) (hc : rect.contains rect.center) :
    screen_point_on_plane rect.center rect basis scale camera pp f
      = if |basis.forward.dot f| ≤ 1.0e-9 then none
        else if (pp.sub camera).dot f / basis.forward.dot f ≤ 0 then none
        else some (camera.add (basis.forward.scale
            ((pp.sub camera).dot f / basis.forward.dot f))) := by
  simp only [screen_point_on_plane, hc, not_true_eq_false, if_false, sub_self,
    zero_div, Vec3.scale_zero, Vec3.add_ZERO]

theorem spop_before (s' : ViewerState) (rect : Rect) (scale : ℝ)
    (hc : rect.contains rect.center)
    (hdist : Vec3.f64Epsilon < s'.distance_internal) :
    screen_point_on_plane rect.center rect s'.camera_basis scale
      s'.camera_pos s'.target s'.forward = some s'.target := by
  have hdist' : Vec3.f64Epsilon < (s'.target.sub s'.camera_pos).length := hdist
  have hpos : (0 : ℝ) < (s'.target.sub s'.camera_pos).length := by
    have he : (0 : ℝ) < Vec3.f64Epsilon := by rw [Vec3.f64Epsilon]; positivity
    linarith
  have hf1 : s'.forward.length = 1 := forward_length s'
  have hff : s'.forward.dot s'.forward = 1 := Vec3.dot_self_of_length_one _ hf1
  rw [spop_center _ _ _ _ _ _ hc, camera_basis_forward, hff,
    forward_eq_normalized s' hdist, Vec3.dot_normalized_self _ hdist']
  rw [if_neg (show ¬ (|(1 : ℝ)| ≤ 1.0e-9) from by norm_num)]
  rw [div_one, if_neg (not_le.mpr hpos)]
  rw [Vec3.normalized, if_neg (not_le.mpr hdist'),
    Vec3.divScalar_scale_cancel _ _ hpos.ne', Vec3.add_sub_cancel_left]

theorem spop_after (s' : ViewerState) (rect : Rect) (scale : ℝ) (nd : ℝ)
    (hc : rect.contains rect.center) (hnd : 1 ≤ nd) :
    screen_point_on_plane rect.center rect s'.camera_basis scale
      (s'.target.sub (s'.forward.scale nd)) s'.target s'.forward
      = some s'.target := by
  have hf1 : s'.forward.length = 1 := forward_length s'
  have hff : s'.forward.dot s'.forward = 1 := Vec3.dot_self_of_length_one _ hf1
  rw [spop_center _ _ _ _ _ _ hc, camera_basis_forward, Vec3.sub_sub_cancel,
    Vec3.scale_dot, hff, mul_one]
  rw [if_neg (show ¬ (|(1 : ℝ)| ≤ 1.0e-9) from by norm_num)]
  rw [div_one, if_neg (not_le.mpr (by linarith : (0 : ℝ) < nd))]
  rw [Vec3.sub_add_cancel_right]

theorem handle_input_scroll (s : ViewerState) (input : ViewerInput)
    (meshes : List ViewerMesh)
    (hgda : s.gizmo_drag_active = false) (hpd : input.primary_down = false)
    (hmd : input.middle_down = false) (hsd : input.secondary_down = false)
    (hpc : input.primary_clicked = false) (hkv : input.key_v_pressed = false)
    (hh : input.hovered = true) (hs : input.scroll_delta ≠ 0) :
    (s.handle_input input meshes).1.distance_internal
      = clampR (clampR s.distance_internal 1 1.0e7
          * Real.exp (-input.scroll_delta * 0.01)) 1 1.0e7
    ∧ (input.pointer_pos = some input.rect.center →
        input.rect.contains input.rect.center →
        Vec3.f64Epsilon < s.distance_internal →
        (s.handle_input input meshes).1.target = s.target) := by
  have hred : s.handle_input input meshes
      = s.handle_input_rest input meshes s.camera_basis input.modifiers.ctrl := by
    rcases hp : input.pointer_pos with _ | pos <;>
      simp [ViewerState.handle_input, hgda, hpd, hp]
  rw [hred]
  simp only [ViewerState.handle_input_rest, hmd, hsd, hkv, hpc, hh,
    Bool.false_eq_true, false_and, and_false, false_or, if_false,
    eq_self_iff_true, true_and]
  rw [if_pos hs]
  set s' := s.cancel_view_transition with hs'def
  set nd := clampR (clampR s'.distance_internal 1 1.0e7
      * Real.exp (-input.scroll_delta * 0.01)) 1 1.0e7 with hnddef
  have hnd1 : 1 ≤ nd := by rw [hnddef]; exact one_le_clampR _
  have hf1 : s'.forward.length = 1 := forward_length s'
  constructor
  · rcases hp : input.pointer_pos with _ | pos
    · simp only [hp, Option.none_bind]
      rw [distance_retarget s' s'.forward nd hf1 (by linarith)]
      rw [hnddef, hs'def, cancel_vt_distance]
    · simp only [hp, Option.some_bind]
      rcases hb : screen_point_on_plane pos input.rect s'.camera_basis
          (s'.view_scale input.rect) s'.camera_pos s'.target s'.forward
          with _ | b
      · simp only [hb]
        rw [distance_retarget s' s'.forward nd hf1 (by linarith)]
        rw [hnddef, hs'def, cancel_vt_distance]
      · simp only [hb]
        rcases ha : screen_point_on_plane pos input.rect s'.camera_basis
            (s'.view_scale input.rect) (s'.target.sub (s'.forward.scale nd))
            s'.target s'.forward with _ | a
        · simp only [ha]
          rw [distance_retarget s' s'.forward nd hf1 (by linarith)]
          rw [hnddef, hs'def, cancel_vt_distance]
        · simp only [ha]
          rw [distance_translate, Vec3.sub_sub_cancel,
            scale_length_of_unit s'.forward nd hf1 (by linarith)]
          rw [hnddef, hs'def, cancel_vt_distance]
  · intro hp hcc hdist
    have hdist' : Vec3.f64Epsilon < s'.distance_internal := by
      rw [ hs'def]
      exact hdist
    simp only [hp, Option.some_bind,
      spop_before s' input.rect (s'.view_scale input.rect) hcc hdist',
      spop_after s' input.rect (s'.view_scale input.rect) nd hcc hnd1,
      Vec3.sub_self_eq, Vec3.add_ZERO]
    rw [ hs'def]
    exact cancel_vt_target s

end C2Lemmas


/-- **C2.** Scroll zoom, as the code actually computes it: with the
viewport hovered and a nonzero scroll delta (and no other active inputs),
`handle_input` sets the camera distance to
`clamp(clamp(d, 1, 1e7) * exp(-scroll*0.01), 1, 1e7)` (the distance is
clamped *before* as well as after the multiplication); a scroll delta of
`-5` therefore multiplies the (clamped) distance by `exp(0.05) > 1` — an
*increase*, not a decrease; and when the cursor is at the viewport center
the target is unchanged by the zoom (camera not exactly at the target). -/
theorem scroll_zoom_update (s : ViewerState) (input : ViewerInput)
    (meshes : List ViewerMesh)
    (hgda : s.gizmo_drag_active = false) (hpd : input.primary_down = false)
    (hmd : input.middle_down = false) (hsd : input.secondary_down = false)
    (hpc : input.primary_clicked = false) (hkv : input.key_v_pressed = false)
    (hh : input.hovered = true) (hs : input.scroll_delta ≠ 0) :
    ((s.handle_input input meshes).1.distance_internal
        = clampR (clampR s.distance_internal 1 1.0e7
            * Real.exp (-input.scroll_delta * 0.01)) 1 1.0e7)
    ∧ (input.scroll_delta = -5 → 1 ≤ s.distance_internal →
        s.distance_internal < 1.0e7 →
        s.distance_internal < (s.handle_input input meshes).1.distance_internal)
    ∧ (input.pointer_pos = some input.rect.center →
        input.rect.contains input.rect.center →
        Vec3.f64Epsilon < s.distance_internal →
        (s.handle_input input meshes).1.target = s.target) := by
  obtain ⟨hA, hB⟩ := handle_input_scroll s input meshes hgda hpd hmd hsd hpc
    hkv hh hs
  refine ⟨hA, ?_, hB⟩
  intro h5 h1 h7
  rw [hA, h5]
  rw [show ((-(-5 : ℝ)) * 0.01 : ℝ) = 0.05 from by norm_num]
  have hcl : clampR s.distance_internal 1 1.0e7 = s.distance_internal := by
    rw [clampR, max_eq_left h1, min_eq_left (le_of_lt h7)]
  rw [hcl]
  have he : (1.05 : ℝ) ≤ Real.exp 0.05 := by
    have := Real.add_one_le_exp (0.05 : ℝ)
    linarith
  have hgt : s.distance_internal < s.distance_internal * Real.exp 0.05 := by
    nlinarith
  rw [clampR]
  rcases le_total (s.distance_internal * Real.exp 0.05) 1.0e7 with hle | hge
  · rw [max_eq_left (by nlinarith), min_eq_left hle]
    exact hgt
  · rw [max_eq_left (by nlinarith), min_eq_right hge]
    exact h7


/-- Witness for the scroll-zoom theorem at the concrete scenario state. -/
theorem scroll_zoom_update_witness :
    ((c2CexState.handle_input c2CexInput []).1.distance_internal
        = clampR (clampR c2CexState.distance_internal 1 1.0e7
            * Real.exp (-c2CexInput.scroll_delta * 0.01)) 1 1.0e7)
    ∧ (c2CexInput.scroll_delta = -5 → 1 ≤ c2CexState.distance_internal →
        c2CexState.distance_internal < 1.0e7 →
        c2CexState.distance_internal
          < (c2CexState.handle_input c2CexInput []).1.distance_internal)
    ∧ (c2CexInput.pointer_pos = some c2CexInput.rect.center →
        c2CexInput.rect.contains c2CexInput.rect.center →
        Vec3.f64Epsilon < c2CexState.distance_internal →
        (c2CexState.handle_input c2CexInput []).1.target
          = c2CexState.target) :=
  scroll_zoom_update c2CexState c2CexInput [] rfl rfl rfl rfl rfl rfl rfl
    (by norm_num [c2CexInput])


/-- C2 counterexample to the spec's reading: at distance `500`, a scroll
delta of `-5` makes the new distance `500 * exp(0.05) > 500` — the distance
*increases* by the factor `exp(0.05)` instead of decreasing by it. -/
theorem scroll_neg5_increases_distance :
    c2CexState.distance_internal = 500
    ∧ (c2CexState.handle_input c2CexInput []).1.distance_internal
        = 500 * Real.exp 0.05
    ∧ 500 < (c2CexState.handle_input c2CexInput []).1.distance_internal := by
  have hd : c2CexState.distance_internal = 500 := by
    show (c2CexState.target.sub c2CexState.camera_pos).length = 500
    rw [show c2CexState.target.sub c2CexState.camera_pos = ⟨0, 500, 0⟩ from by
      norm_num [c2CexState, Vec3.sub]]
    rw [Vec3.length, show Vec3.dot ⟨0, 500, 0⟩ ⟨0, 500, 0⟩ = 500 ^ 2 from by
      norm_num [Vec3.dot], Real.sqrt_sq (by norm_num : (0 : ℝ) ≤ 500)]
  have he : (1.05 : ℝ) ≤ Real.exp 0.05 := by
    have := Real.add_one_le_exp (0.05 : ℝ)
    linarith
  have heU : Real.exp 0.05 < 3 := by
    have h1 : Real.exp 0.05 < Real.exp 1 := Real.exp_lt_exp.mpr (by norm_num)
    have h2 := Real.exp_one_lt_d9
    linarith
  have h := (handle_input_scroll c2CexState c2CexInput [] rfl rfl rfl rfl rfl
    rfl rfl (by norm_num [c2CexInput])).1
  rw [hd, show c2CexInput.scroll_delta = (-5 : ℝ) from rfl,
    show ((-(-5 : ℝ)) * 0.01 : ℝ) = 0.05 from by norm_num] at h
  rw [show clampR (500 : ℝ) 1 1.0e7 = 500 from by
    rw [clampR, max_eq_left (by norm_num), min_eq_left (by norm_num)]] at h
  rw [show clampR ((500 : ℝ) * Real.exp 0.05) 1 1.0e7 = 500 * Real.exp 0.05
      from by
    rw [clampR, max_eq_left (by nlinarith), min_eq_left (by nlinarith)]] at h
  refine ⟨hd, h, ?_⟩
  rw [h]
  nlinarith


section C9Lemmas

theorem orbit_pivot_gizmo (s : ViewerState) (a b : ℝ) :
    (s.orbit_pivot a b).gizmo_drag_active = s.gizmo_drag_active
    ∧ (s.orbit_pivot a b).gizmo_dragged = s.gizmo_dragged
    ∧ (s.orbit_pivot a b).gizmo_drag_pos = s.gizmo_drag_pos
    ∧ (s.orbit_pivot a b).view_transition = s.view_transition := by
  simp only [ViewerState.orbit_pivot]
  by_cases hy : a ≠ 0 <;> by_cases hpi : b ≠ 0
  · rw [if_pos hy, if_pos hpi]; exact ⟨rfl, rfl, rfl, rfl⟩
  · rw [if_pos hy, if_neg hpi]; exact ⟨rfl, rfl, rfl, rfl⟩
  · rw [if_neg hy, if_pos hpi]; exact ⟨rfl, rfl, rfl, rfl⟩
  · rw [if_neg hy, if_neg hpi]; exact ⟨rfl, rfl, rfl, rfl⟩

theorem handle_input_press (s : ViewerState) (input : ViewerInput)
    (meshes : List ViewerMesh) (pos : Point2)
    (hact : s.gizmo_drag_active = false) (hpd : input.primary_down = true)
    (hp : input.pointer_pos = some pos)
    (hin : (s.gizmo_rect input.rect).contains pos) :
    (s.handle_input input meshes).1
      = { s with
          gizmo_drag_active := true,
          gizmo_drag_pos := some pos,
          gizmo_dragged := false } := by
  simp only [ViewerState.handle_input, hact, hp, Bool.false_eq_true, if_false]
  rw [if_pos ⟨hpd, hin⟩]

theorem handle_input_held (s : ViewerState) (input : ViewerInput)
    (meshes : List ViewerMesh) (pos last : Point2)
    (hact : s.gizmo_drag_active = true) (hpd : input.primary_down = true)
    (hp : input.pointer_pos = some pos)
    (hlast : s.gizmo_drag_pos = some last) :
    ((s.handle_input input meshes).1.gizmo_drag_active = true)
    ∧ ((s.handle_input input meshes).1.gizmo_dragged
        = (s.gizmo_dragged
            || decide ((pos.sub last).length > GIZMO_DRAG_THRESHOLD)))
    ∧ ((s.handle_input input meshes).1.gizmo_drag_pos = some pos) := by
  simp only [ViewerState.handle_input, hact, hpd, hp, hlast, Bool.not_true,
    Bool.false_eq_true, if_false, if_true]
  by_cases h0 : (pos.sub last).length > 0
  · by_cases hT : (pos.sub last).length > GIZMO_DRAG_THRESHOLD
    · rw [if_pos h0, if_pos hT]
      refine ⟨?_, ?_, ?_⟩
      · rw [(orbit_pivot_gizmo _ _ _).1]
      · rw [(orbit_pivot_gizmo _ _ _).2.1]
        simp [hT]
      · trivial
    · rw [if_pos h0, if_neg hT]
      refine ⟨?_, ?_, ?_⟩
      · rw [(orbit_pivot_gizmo _ _ _).1]
        exact hact
      · rw [(orbit_pivot_gizmo _ _ _).2.1]
        simp [hT]
      · trivial
  · rw [if_neg h0]
    push_neg at h0
    have hT : ¬ ((pos.sub last).length > GIZMO_DRAG_THRESHOLD) := by
      rw [GIZMO_DRAG_THRESHOLD]
      intro hcon
      linarith
    refine ⟨?_, ?_, ?_⟩
    · exact hact
    · simp [hT]
    · trivial

theorem handle_input_release_dragged (s : ViewerState) (input : ViewerInput)
    (meshes : List ViewerMesh)
    (hact : s.gizmo_drag_active = true) (hpd : input.primary_down = false)
    (hdr : s.gizmo_dragged = true) :
    (s.handle_input input meshes).1
      = { s with
          gizmo_drag_active := false,
          gizmo_drag_pos := none,
          gizmo_dragged := false } := by
  simp only [ViewerState.handle_input, hact, hpd, hdr, Bool.not_false,
    Bool.not_true, if_true, Bool.false_eq_true, if_false]

theorem handle_input_release_click (s : ViewerState) (input : ViewerInput)
    (meshes : List ViewerMesh) (pos : Point2) (pick : ViewPick)
    (hact : s.gizmo_drag_active = true) (hpd : input.primary_down = false)
    (hdr : s.gizmo_dragged = false) (hp : input.pointer_pos = some pos)
    (hin : (s.gizmo_rect input.rect).contains pos)
    (hmode : s.gizmo_mode = GizmoMode.cube)
    (hpick : ViewCube.pick_target pos input.rect
        (ViewerState.gizmo_basis s.camera_basis) = some pick) :
    (s.handle_input input meshes).1
      = { s.begin_view_transition (view_direction_from_normal pick.normal) with
          gizmo_drag_active := false,
          gizmo_drag_pos := none,
          gizmo_dragged := false } := by
  simp only [ViewerState.handle_input, hact, hpd, hdr, hp, hmode, hpick,
    Bool.not_false, Bool.not_true, if_true, Bool.false_eq_true, if_false]
  rw [if_pos hin]

theorem handle_input_release_click_axis (s : ViewerState)
    (input : ViewerInput) (meshes : List ViewerMesh) (pos : Point2)
    (pick : AxisPick)
    (hact : s.gizmo_drag_active = true) (hpd : input.primary_down = false)
    (hdr : s.gizmo_dragged = false) (hp : input.pointer_pos = some pos)
    (hin : (s.gizmo_rect input.rect).contains pos)
    (hmode : s.gizmo_mode = GizmoMode.axis)
    (hpick : AxisGizmo.pick_target pos input.rect
        (ViewerState.gizmo_basis s.camera_basis) = some pick) :
    (s.handle_input input meshes).1
      = { s.begin_view_transition pick.forward with
          gizmo_drag_active := false,
          gizmo_drag_pos := none,
          gizmo_dragged := false } := by
  simp only [ViewerState.handle_input, hact, hpd, hdr, hp, hmode, hpick,
    Bool.not_false, Bool.not_true, if_true, Bool.false_eq_true, if_false]
  rw [if_pos hin]

theorem drag_flag_false_iff_chain (ps : List Point2) :
    ∀ (last : Point2) (flag : Bool),
      drag_flag last flag ps = false ↔
        flag = false ∧ List.Chain
          (fun a b => (b.sub a).length ≤ GIZMO_DRAG_THRESHOLD) last ps := by
  induction ps with
  | nil =>
    intro last flag
    rw [show drag_flag last flag [] = flag from rfl]
    exact ⟨fun h => ⟨h, List.Chain.nil⟩, fun h => h.1⟩
  | cons p ps' ih =>
    intro last flag
    rw [show drag_flag last flag (p :: ps')
        = drag_flag p
            (flag || decide ((p.sub last).length > GIZMO_DRAG_THRESHOLD)) ps'
        from rfl, ih, List.chain_cons]
    constructor
    · rintro ⟨hor, hch⟩
      rcases Bool.or_eq_false_iff.mp hor with ⟨hf, hd⟩
      exact ⟨hf, not_lt.mp (of_decide_eq_false hd), hch⟩
    · rintro ⟨hf, hle, hch⟩
      refine ⟨?_, hch⟩
      rw [hf, Bool.false_or]
      exact decide_eq_false (not_lt.mpr hle)

theorem drag_fold_spec (meshes : List ViewerMesh) :
    ∀ (inputs : List ViewerInput) (ps : List Point2) (s : ViewerState)
      (last : Point2),
      s.gizmo_drag_active = true → s.gizmo_drag_pos = some last →
      inputs.map (fun i => i.pointer_pos) = ps.map some →
      (∀ inp ∈ inputs, inp.primary_down = true) →
      ((inputs.foldl (fun st inp => (st.handle_input inp meshes).1)
          s).gizmo_drag_active = true)
      ∧ ((inputs.foldl (fun st inp => (st.handle_input inp meshes).1)
          s).gizmo_dragged = drag_flag last s.gizmo_dragged ps)
      ∧ ((inputs.foldl (fun st inp => (st.handle_input inp meshes).1)
          s).gizmo_drag_pos = some (ps.foldl (fun _ p => p) last)) := by
  intro inputs
  induction inputs with
  | nil =>
    intro ps s last hact hlast hmap _
    have hps : ps = [] := by
      cases ps with
      | nil => rfl
      | cons q qs => simp at hmap
    subst hps
    exact ⟨hact, rfl, hlast⟩
  | cons inp rest ih =>
    intro ps s last hact hlast hmap hdown
    cases ps with
    | nil => simp at hmap
    | cons p ps' =>
      simp only [List.map_cons, List.cons.injEq] at hmap
      obtain ⟨hp1, hmap'⟩ := hmap
      have hdown1 : inp.primary_down = true := hdown inp (by simp)
      obtain ⟨hA, hB, hC⟩ :=
        handle_input_held s inp meshes p last hact hdown1 hp1 hlast
      rw [List.foldl_cons]
      obtain ⟨g1, g2, g3⟩ := ih ps' ((s.handle_input inp meshes).1) p hA hC
        hmap' (fun i hi => hdown i (by simp [hi]))
      refine ⟨g1, ?_, ?_⟩
      · rw [g2, hB]
        rfl
      · rw [g3]
        rfl

end C9Lemmas


/-- **C9.** A gizmo drag is begun by a primary press inside the gizmo
rectangle with the "moved" flag cleared; every held frame ORs into that
flag whether the frame's pointer delta exceeds `GIZMO_DRAG_THRESHOLD`
(2 px), so after the drag the flag is `false` iff no consecutive pointer
move exceeded 2 px; on release, a clear flag with the pointer still over
the gizmo snap-animates to the picked view via `begin_view_transition` —
to `view_direction_from_normal` of the cube pick's normal in cube mode,
and to the axis pick's forward direction in axis mode — while a set flag
only clears the drag state: the camera (and hence the orbit accumulated
during the drag) and any view transition are untouched. -/
theorem gizmo_drag_click_iff :
    ∀ (s : ViewerState) (input : ViewerInput) (meshes : List ViewerMesh)
      (pos last : Point2) (ps : List Point2) (inputs : List ViewerInput)
      (pick : ViewPick) (pickA : AxisPick),
      (s.gizmo_drag_active = false → input.primary_down = true →
        input.pointer_pos = some pos →
        (s.gizmo_rect input.rect).contains pos →
        (s.handle_input input meshes).1
          = { s with
              gizmo_drag_active := true,
              gizmo_drag_pos := some pos,
              gizmo_dragged := false })
      ∧ (s.gizmo_drag_active = true → s.gizmo_drag_pos = some last →
          inputs.map (fun i => i.pointer_pos) = ps.map some →
          (∀ inp ∈ inputs, inp.primary_down = true) →
          ((inputs.foldl (fun st inp => (st.handle_input inp meshes).1)
              s).gizmo_dragged = drag_flag last s.gizmo_dragged ps))
      ∧ (drag_flag last false ps = false ↔
          List.Chain (fun a b => (b.sub a).length ≤ GIZMO_DRAG_THRESHOLD)
            last ps)
      ∧ (s.gizmo_drag_active = true → input.primary_down = false →
          s.gizmo_dragged = false → input.pointer_pos = some pos →
          (s.gizmo_rect input.rect).contains pos →
          s.gizmo_mode = GizmoMode.cube →
          ViewCube.pick_target pos input.rect
              (ViewerState.gizmo_basis s.camera_basis) = some pick →
          (s.handle_input input meshes).1
            = { s.begin_view_transition
                  (view_direction_from_normal pick.normal) with
                gizmo_drag_active := false,
                gizmo_drag_pos := none,
                gizmo_dragged := false })
      ∧ (s.gizmo_drag_active = true → input.primary_down = false →
          s.gizmo_dragged = false → input.pointer_pos = some pos →
          (s.gizmo_rect input.rect).contains pos →
          s.gizmo_mode = GizmoMode.axis →
          AxisGizmo.pick_target pos input.rect
              (ViewerState.gizmo_basis s.camera_basis) = some pickA →
          (s.handle_input input meshes).1
            = { s.begin_view_transition pickA.forward with
                gizmo_drag_active := false,
                gizmo_drag_pos := none,
                gizmo_dragged := false })
      ∧ (s.gizmo_drag_active = true → input.primary_down = false →
          s.gizmo_dragged = true →
          (s.handle_input input meshes).1
            = { s with
                gizmo_drag_active := false,
                gizmo_drag_pos := none,
                gizmo_dragged := false }) := by
  intro s input meshes pos last ps inputs pick pickA
  refine ⟨?_, ?_, ?_, ?_, ?_, ?_⟩
  · intro hact hpd hp hin
    exact handle_input_press s input meshes pos hact hpd hp hin
  · intro hact hlast hmap hdown
    exact (drag_fold_spec meshes inputs ps s last hact hlast hmap hdown).2.1
  · constructor
    · intro h
      exact ((drag_flag_false_iff_chain ps last false).mp h).2
    · intro h
      exact (drag_flag_false_iff_chain ps last false).mpr ⟨rfl, h⟩
  · intro hact hpd hdr hp hin hmode hpick
    exact handle_input_release_click s input meshes pos pick hact hpd hdr hp
      hin hmode hpick
  · intro hact hpd hdr hp hin hmode hpick
    exact handle_input_release_click_axis s input meshes pos pickA hact hpd
      hdr hp hin hmode hpick
  · intro hact hpd hdr
    exact handle_input_release_dragged s input meshes hact hpd hdr


section C3Lemmas

theorem consider_snap_out (pos : Point2) (best : Option SnapHit)
    (kind : SnapKind) (world : Vec3) (screen : Point2) (depth : ℝ)
    (h : snap_radius kind < pos.distance screen) :
    consider_snap pos best kind world screen depth = best := by
  simp only [consider_snap]
  rw [if_pos h]

theorem consider_snap_none_new (pos : Point2) (kind : SnapKind) (world : Vec3)
    (screen : Point2) (depth : ℝ)
    (h : pos.distance screen ≤ snap_radius kind) :
    consider_snap pos none kind world screen depth
      = some ⟨kind, world, screen, pos.distance screen, depth⟩ := by
  simp only [consider_snap]
  rw [if_neg (not_lt.mpr h)]

theorem consider_snap_closer (pos : Point2) (cur : SnapHit) (kind : SnapKind)
    (world : Vec3) (screen : Point2) (depth : ℝ)
    (h : pos.distance screen ≤ snap_radius kind)
    (hlt : pos.distance screen < cur.distance - 0.1) :
    consider_snap pos (some cur) kind world screen depth
      = some ⟨kind, world, screen, pos.distance screen, depth⟩ := by
  simp only [consider_snap]
  rw [if_neg (not_lt.mpr h), if_pos hlt]

theorem consider_snap_tie_win (pos : Point2) (cur : SnapHit) (kind : SnapKind)
    (world : Vec3) (screen : Point2) (depth : ℝ)
    (h : pos.distance screen ≤ snap_radius kind)
    (habs : |pos.distance screen - cur.distance| ≤ 0.1)
    (hpri : snap_priority kind < snap_priority cur.kind) :
    consider_snap pos (some cur) kind world screen depth
      = some ⟨kind, world, screen, pos.distance screen, depth⟩ := by
  obtain ⟨ha1, ha2⟩ := abs_le.mp habs
  simp only [consider_snap]
  rw [if_neg (not_lt.mpr h), if_neg (not_lt.mpr (by linarith)), if_pos habs,
    if_pos (Or.inl hpri)]

theorem consider_snap_tie_depth (pos : Point2) (cur : SnapHit)
    (kind : SnapKind) (world : Vec3) (screen : Point2) (depth : ℝ)
    (h : pos.distance screen ≤ snap_radius kind)
    (habs : |pos.distance screen - cur.distance| ≤ 0.1)
    (hpri : snap_priority kind = snap_priority cur.kind)
    (hdep : depth < cur.depth) :
    consider_snap pos (some cur) kind world screen depth
      = some ⟨kind, world, screen, pos.distance screen, depth⟩ := by
  obtain ⟨ha1, ha2⟩ := abs_le.mp habs
  simp only [consider_snap]
  rw [if_neg (not_lt.mpr h), if_neg (not_lt.mpr (by linarith)), if_pos habs,
    if_pos (Or.inr ⟨hpri, hdep⟩)]

theorem consider_snap_tie_lose (pos : Point2) (cur : SnapHit)
    (kind : SnapKind) (world : Vec3) (screen : Point2) (depth : ℝ)
    (h : pos.distance screen ≤ snap_radius kind)
    (habs : |pos.distance screen - cur.distance| ≤ 0.1)
    (hpri : snap_priority cur.kind < snap_priority kind) :
    consider_snap pos (some cur) kind world screen depth = some cur := by
  obtain ⟨ha1, ha2⟩ := abs_le.mp habs
  simp only [consider_snap]
  rw [if_neg (not_lt.mpr h), if_neg (not_lt.mpr (by linarith)), if_pos habs,
    if_neg (by rintro (hlt | ⟨heq, _⟩) <;> omega)]

theorem consider_snap_tie_lose_depth (pos : Point2) (cur : SnapHit)
    (kind : SnapKind) (world : Vec3) (screen : Point2) (depth : ℝ)
    (h : pos.distance screen ≤ snap_radius kind)
    (habs : |pos.distance screen - cur.distance| ≤ 0.1)
    (hpri : snap_priority kind = snap_priority cur.kind)
    (hdep : cur.depth ≤ depth) :
    consider_snap pos (some cur) kind world screen depth = some cur := by
  obtain ⟨ha1, ha2⟩ := abs_le.mp habs
  simp only [consider_snap]
  rw [if_neg (not_lt.mpr h), if_neg (not_lt.mpr (by linarith)), if_pos habs,
    if_neg ?hcond]
  case hcond =>
    rintro (hlt | ⟨_, hd⟩)
    · omega
    · linarith

theorem consider_snap_far (pos : Point2) (cur : SnapHit) (kind : SnapKind)
    (world : Vec3) (screen : Point2) (depth : ℝ)
    (h : pos.distance screen ≤ snap_radius kind)
    (hfar : cur.distance + 0.1 < pos.distance screen) :
    consider_snap pos (some cur) kind world screen depth = some cur := by
  simp only [consider_snap]
  rw [if_neg (not_lt.mpr h), if_neg (not_lt.mpr (by linarith)),
    if_neg ?hcond]
  case hcond =>
    intro habs
    obtain ⟨ha1, ha2⟩ := abs_le.mp habs
    linarith

theorem lt_sqrt_of_sq_lt (a : ℝ) (b : ℝ) (ha : 0 ≤ a) (h : a ^ 2 < b) :
    a < Real.sqrt b := by
  have hb : 0 ≤ a ^ 2 := by positivity
  have := Real.sqrt_lt_sqrt hb h
  rwa [Real.sqrt_sq ha] at this

theorem c3_len500 : (⟨0, 500, 0⟩ : Vec3).length = 500 := by
  rw [Vec3.length, show Vec3.dot ⟨0, 500, 0⟩ ⟨0, 500, 0⟩ = 500 ^ 2 from by
    norm_num [Vec3.dot], Real.sqrt_sq (by norm_num : (0 : ℝ) ≤ 500)]

theorem c3_sub : c3State.target.sub c3State.camera_pos = ⟨0, 500, 0⟩ := by
  norm_num [c3State, Vec3.sub]

theorem c3_dist : c3State.distance_internal = 500 := by
  show (c3State.target.sub c3State.camera_pos).length = 500
  rw [c3_sub, c3_len500]

theorem c3_forward : c3State.forward = ⟨0, 1, 0⟩ := by
  have hd : Vec3.f64Epsilon < c3State.distance_internal := by
    rw [c3_dist, Vec3.f64Epsilon]
    norm_num
  rw [forward_eq_normalized c3State hd, c3_sub, Vec3.normalized,
    if_neg (by rw [c3_len500, Vec3.f64Epsilon]; norm_num), c3_len500]
  norm_num [Vec3.divScalar]

theorem c3_basis_eq : c3State.camera_basis = c3Basis := by
  have h1 : (⟨1, 0, 0⟩ : Vec3).length = 1 := by
    rw [Vec3.length, show Vec3.dot ⟨1, 0, 0⟩ ⟨1, 0, 0⟩ = 1 from by
      norm_num [Vec3.dot], Real.sqrt_one]
  have h2 : (⟨0, 0, 1⟩ : Vec3).length = 1 := by
    rw [Vec3.length, show Vec3.dot ⟨0, 0, 1⟩ ⟨0, 0, 1⟩ = 1 from by
      norm_num [Vec3.dot], Real.sqrt_one]
  simp only [ViewerState.camera_basis, c3_forward]
  rw [show c3State.camera_up = ⟨0, 0, 1⟩ from rfl]
  rw [show (⟨0, 1, 0⟩ : Vec3).cross ⟨0, 0, 1⟩ = ⟨1, 0, 0⟩ from by
    norm_num [Vec3.cross]]
  rw [if_neg (by rw [h1]; norm_num)]
  rw [Vec3.normalized_of_length_one _ h1]
  rw [show (⟨1, 0, 0⟩ : Vec3).cross ⟨0, 1, 0⟩ = ⟨0, 0, 1⟩ from by
    norm_num [Vec3.cross]]
  rw [Vec3.normalized_of_length_one _ h2]
  rfl

theorem c3_scale_eq : c3State.view_scale c3Rect = 1 := by
  simp only [ViewerState.view_scale]
  rw [show min c3Rect.width c3Rect.height = 1000 from by
    norm_num [c3Rect, Rect.width, Rect.height]]
  rw [show to_radians c3State.fov_deg * 0.5 = Real.pi / 4 from by
    rw [show c3State.fov_deg = 90 from rfl, to_radians]; ring]
  rw [Real.tan_pi_div_four, c3_dist]
  rw [show max (500 : ℝ) 1 = 500 from max_eq_left (by norm_num)]
  rw [show (1000 : ℝ) / (2 * 1) / 500 = 1 from by norm_num]
  exact max_eq_left (by norm_num)

theorem c3_contains : c3Rect.contains c3Cursor := by
  norm_num [c3Rect, c3Cursor, Rect.contains]

theorem c3_dist0 : c3Cursor.distance ⟨503, 500⟩ = 0 := by
  simp only [Point2.distance, Point2.sub, Vec2.length, c3Cursor]
  norm_num [Real.sqrt_zero]

theorem c3_far_e1 : snap_radius SnapKind.vertex < c3Cursor.distance ⟨503, 460⟩ := by
  simp only [Point2.distance, Point2.sub, Vec2.length, c3Cursor, snap_radius]
  exact lt_sqrt_of_sq_lt 7 _ (by norm_num) (by norm_num)

theorem c3_far_e2 : snap_radius SnapKind.vertex < c3Cursor.distance ⟨503, 540⟩ := by
  simp only [Point2.distance, Point2.sub, Vec2.length, c3Cursor, snap_radius]
  exact lt_sqrt_of_sq_lt 7 _ (by norm_num) (by norm_num)

theorem c3_far_f1 : snap_radius SnapKind.vertex < c3Cursor.distance ⟨533, 500⟩ := by
  simp only [Point2.distance, Point2.sub, Vec2.length, c3Cursor, snap_radius]
  exact lt_sqrt_of_sq_lt 7 _ (by norm_num) (by norm_num)

theorem c3_far_f2 : snap_radius SnapKind.vertex < c3Cursor.distance ⟨488, 479⟩ := by
  simp only [Point2.distance, Point2.sub, Vec2.length, c3Cursor, snap_radius]
  exact lt_sqrt_of_sq_lt 7 _ (by norm_num) (by norm_num)

theorem c3_far_f3 : snap_radius SnapKind.vertex < c3Cursor.distance ⟨488, 521⟩ := by
  simp only [Point2.distance, Point2.sub, Vec2.length, c3Cursor, snap_radius]
  exact lt_sqrt_of_sq_lt 7 _ (by norm_num) (by norm_num)

theorem c3_proj_v : c3State.project ⟨3, 0, 0⟩ c3Rect c3Basis 1
    = some (⟨503, 500⟩, 500) := by
  simp only [ViewerState.project, project_camera, c3Basis, c3Rect, Rect.center,
    Vec3.sub, Vec3.dot, c3State]
  norm_num

theorem c3_proj_e1 : c3State.project ⟨3, 0, 40⟩ c3Rect c3Basis 1
    = some (⟨503, 460⟩, 500) := by
  simp only [ViewerState.project, project_camera, c3Basis, c3Rect, Rect.center,
    Vec3.sub, Vec3.dot, c3State]
  norm_num

theorem c3_proj_e2 : c3State.project ⟨3, 0, -40⟩ c3Rect c3Basis 1
    = some (⟨503, 540⟩, 500) := by
  simp only [ViewerState.project, project_camera, c3Basis, c3Rect, Rect.center,
    Vec3.sub, Vec3.dot, c3State]
  norm_num

theorem c3_proj_f1 : c3State.project ⟨33, 0, 0⟩ c3Rect c3Basis 1
    = some (⟨533, 500⟩, 500) := by
  simp only [ViewerState.project, project_camera, c3Basis, c3Rect, Rect.center,
    Vec3.sub, Vec3.dot, c3State]
  norm_num

theorem c3_proj_f2 : c3State.project ⟨-12, 0, 21⟩ c3Rect c3Basis 1
    = some (⟨488, 479⟩, 500) := by
  simp only [ViewerState.project, project_camera, c3Basis, c3Rect, Rect.center,
    Vec3.sub, Vec3.dot, c3State]
  norm_num

theorem c3_proj_f3 : c3State.project ⟨-12, 0, -21⟩ c3Rect c3Basis 1
    = some (⟨488, 521⟩, 500) := by
  simp only [ViewerState.project, project_camera, c3Basis, c3Rect, Rect.center,
    Vec3.sub, Vec3.dot, c3State]
  norm_num

theorem c3_mid : ((([⟨3, 0, 40⟩, ⟨3, 0, -40⟩] : List Vec3).getD 0
      Vec3.ZERO).add (([⟨3, 0, 40⟩, ⟨3, 0, -40⟩] : List Vec3).getD 1
      Vec3.ZERO)).scale 0.5 = ⟨3, 0, 0⟩ := by
  rw [show (([⟨3, 0, 40⟩, ⟨3, 0, -40⟩] : List Vec3).getD 0 Vec3.ZERO)
      = ⟨3, 0, 40⟩ from rfl,
    show (([⟨3, 0, 40⟩, ⟨3, 0, -40⟩] : List Vec3).getD 1 Vec3.ZERO)
      = ⟨3, 0, -40⟩ from rfl]
  norm_num [Vec3.add, Vec3.scale]

theorem c3_cen : (((([⟨33, 0, 0⟩, ⟨-12, 0, 21⟩, ⟨-12, 0, -21⟩] :
      List Vec3).getD 0 Vec3.ZERO).add
      (([⟨33, 0, 0⟩, ⟨-12, 0, 21⟩, ⟨-12, 0, -21⟩] : List Vec3).getD 1
      Vec3.ZERO)).add
      (([⟨33, 0, 0⟩, ⟨-12, 0, 21⟩, ⟨-12, 0, -21⟩] : List Vec3).getD 2
      Vec3.ZERO)).scale (1 / 3) = ⟨3, 0, 0⟩ := by
  rw [show (([⟨33, 0, 0⟩, ⟨-12, 0, 21⟩, ⟨-12, 0, -21⟩] : List Vec3).getD 0
      Vec3.ZERO) = ⟨33, 0, 0⟩ from rfl,
    show (([⟨33, 0, 0⟩, ⟨-12, 0, 21⟩, ⟨-12, 0, -21⟩] : List Vec3).getD 1
      Vec3.ZERO) = ⟨-12, 0, 21⟩ from rfl,
    show (([⟨33, 0, 0⟩, ⟨-12, 0, 21⟩, ⟨-12, 0, -21⟩] : List Vec3).getD 2
      Vec3.ZERO) = ⟨-12, 0, -21⟩ from rfl]
  norm_num [Vec3.add, Vec3.scale]

theorem c3_step_v_none : consider_snap c3Cursor none SnapKind.vertex ⟨3, 0, 0⟩
    ⟨503, 500⟩ 500 = some c3VertexHit := by
  rw [consider_snap_none_new _ _ _ _ _
    (by rw [c3_dist0]; norm_num [snap_radius]), c3_dist0]
  rfl

theorem c3_step_f_none : consider_snap c3Cursor none SnapKind.faceCenter
    ⟨3, 0, 0⟩ ⟨503, 500⟩ 500 = some c3FaceHit := by
  rw [consider_snap_none_new _ _ _ _ _
    (by rw [c3_dist0]; norm_num [snap_radius]), c3_dist0]
  rfl

theorem c3_step_e_lose : consider_snap c3Cursor (some c3VertexHit)
    SnapKind.edgeMidpoint ⟨3, 0, 0⟩ ⟨503, 500⟩ 500 = some c3VertexHit := by
  rw [consider_snap_tie_lose _ _ _ _ _ _
    (by rw [c3_dist0]; norm_num [snap_radius])
    (by rw [c3_dist0, show c3VertexHit.distance = 0 from rfl]; norm_num)
    (by norm_num [snap_priority, show c3VertexHit.kind = SnapKind.vertex
      from rfl])]

theorem c3_step_f_lose : consider_snap c3Cursor (some c3VertexHit)
    SnapKind.faceCenter ⟨3, 0, 0⟩ ⟨503, 500⟩ 500 = some c3VertexHit := by
  rw [consider_snap_tie_lose _ _ _ _ _ _
    (by rw [c3_dist0]; norm_num [snap_radius])
    (by rw [c3_dist0, show c3VertexHit.distance = 0 from rfl]; norm_num)
    (by norm_num [snap_priority, show c3VertexHit.kind = SnapKind.vertex
      from rfl])]

theorem c3_step_e_win : consider_snap c3Cursor (some c3FaceHit)
    SnapKind.edgeMidpoint ⟨3, 0, 0⟩ ⟨503, 500⟩ 500 = some c3EdgeHit := by
  rw [consider_snap_tie_win _ _ _ _ _ _
    (by rw [c3_dist0]; norm_num [snap_radius])
    (by rw [c3_dist0, show c3FaceHit.distance = 0 from rfl]; norm_num)
    (by norm_num [snap_priority, show c3FaceHit.kind = SnapKind.faceCenter
      from rfl]), c3_dist0]
  rfl

theorem c3_step_v_win : consider_snap c3Cursor (some c3EdgeHit)
    SnapKind.vertex ⟨3, 0, 0⟩ ⟨503, 500⟩ 500 = some c3VertexHit := by
  rw [consider_snap_tie_win _ _ _ _ _ _
    (by rw [c3_dist0]; norm_num [snap_radius])
    (by rw [c3_dist0, show c3EdgeHit.distance = 0 from rfl]; norm_num)
    (by norm_num [snap_priority, show c3EdgeHit.kind = SnapKind.edgeMidpoint
      from rfl]), c3_dist0]
  rfl

theorem c3_pick_ordered :
    c3State.pick_snap c3Cursor c3Rect c3Basis 1
      [c3VertexMesh, c3EdgeMesh, c3FaceMesh] = some c3VertexHit := by
  simp only [ViewerState.pick_snap]
  rw [if_neg (not_not_intro c3_contains)]
  simp only [List.foldl_cons, List.foldl_nil, c3VertexMesh, c3EdgeMesh,
    c3FaceMesh, ViewerMesh.with_bvh, Bool.false_eq_true, if_false,
    c3_mid, c3_cen, c3_proj_v, c3_proj_e1, c3_proj_e2, c3_proj_f1,
    c3_proj_f2, c3_proj_f3, c3_step_v_none,
    consider_snap_out _ (some c3VertexHit) _ _ _ 500 c3_far_e1,
    consider_snap_out _ (some c3VertexHit) _ _ _ 500 c3_far_e2,
    consider_snap_out _ (some c3VertexHit) _ _ _ 500 c3_far_f1,
    consider_snap_out _ (some c3VertexHit) _ _ _ 500 c3_far_f2,
    consider_snap_out _ (some c3VertexHit) _ _ _ 500 c3_far_f3,
    c3_step_e_lose, c3_step_f_lose]

theorem c3_pick_reversed :
    c3State.pick_snap c3Cursor c3Rect c3Basis 1
      [c3FaceMesh, c3EdgeMesh, c3VertexMesh] = some c3VertexHit := by
  simp only [ViewerState.pick_snap]
  rw [if_neg (not_not_intro c3_contains)]
  simp only [List.foldl_cons, List.foldl_nil, c3VertexMesh, c3EdgeMesh,
    c3FaceMesh, ViewerMesh.with_bvh, Bool.false_eq_true, if_false,
    c3_mid, c3_cen, c3_proj_v, c3_proj_e1, c3_proj_e2, c3_proj_f1,
    c3_proj_f2, c3_proj_f3,
    consider_snap_out _ none _ _ _ 500 c3_far_f1,
    consider_snap_out _ none _ _ _ 500 c3_far_f2,
    consider_snap_out _ none _ _ _ 500 c3_far_f3,
    c3_step_f_none,
    consider_snap_out _ (some c3FaceHit) _ _ _ 500 c3_far_e1,
    consider_snap_out _ (some c3FaceHit) _ _ _ 500 c3_far_e2,
    c3_step_e_win, c3_step_v_win]

end C3Lemmas


/-- **C3.** The snap tie-break rule of `pick_snap`, via its `consider`
step: candidates farther than their kind's pixel radius (7 px for Vertex
and EdgeMidpoint, 9 px for FaceCenter) are rejected; a candidate closer
than the current best by more than `0.1 px` wins outright; within
`0.1 px`, the higher-priority kind wins (Vertex over EdgeMidpoint over
FaceCenter); with equal kinds the smaller depth wins; otherwise the
current best stays.  End to end: in a scene with a vertex, an edge
midpoint and a face center all projecting to the same screen point under
the cursor, `pick_snap` returns the Vertex hit in either mesh order. -/
theorem snap_tie_break :
    (∀ (pos : Point2) (best : Option SnapHit) (kind : SnapKind) (world : Vec3)
        (screen : Point2) (depth : ℝ) (cur : SnapHit),
      (snap_radius kind < pos.distance screen →
        consider_snap pos best kind world screen depth = best)
      ∧ (pos.distance screen ≤ snap_radius kind →
          consider_snap pos none kind world screen depth
            = some ⟨kind, world, screen, pos.distance screen, depth⟩)
      ∧ (pos.distance screen ≤ snap_radius kind →
          pos.distance screen < cur.distance - 0.1 →
          consider_snap pos (some cur) kind world screen depth
            = some ⟨kind, world, screen, pos.distance screen, depth⟩)
      ∧ (pos.distance screen ≤ snap_radius kind →
          |pos.distance screen - cur.distance| ≤ 0.1 →
          snap_priority kind < snap_priority cur.kind →
          consider_snap pos (some cur) kind world screen depth
            = some ⟨kind, world, screen, pos.distance screen, depth⟩)
      ∧ (pos.distance screen ≤ snap_radius kind →
          |pos.distance screen - cur.distance| ≤ 0.1 →
          snap_priority kind = snap_priority cur.kind → depth < cur.depth →
          consider_snap pos (some cur) kind world screen depth
            = some ⟨kind, world, screen, pos.distance screen, depth⟩)
      ∧ (pos.distance screen ≤ snap_radius kind →
          |pos.distance screen - cur.distance| ≤ 0.1 →
          snap_priority cur.kind < snap_priority kind →
          consider_snap pos (some cur) kind world screen depth = some cur)
      ∧ (pos.distance screen ≤ snap_radius kind →
          |pos.distance screen - cur.distance| ≤ 0.1 →
          snap_priority kind = snap_priority cur.kind → cur.depth ≤ depth →
          consider_snap pos (some cur) kind world screen depth = some cur)
      ∧ (pos.distance screen ≤ snap_radius kind →
          cur.distance + 0.1 < pos.distance screen →
          consider_snap pos (some cur) kind world screen depth = some cur))
    ∧ (snap_radius .vertex = 7 ∧ snap_radius .edgeMidpoint = 7
        ∧ snap_radius .faceCenter = 9
        ∧ snap_priority .vertex < snap_priority .edgeMidpoint
        ∧ snap_priority .edgeMidpoint < snap_priority .faceCenter)
    ∧ c3State.pick_snap c3Cursor c3Rect c3State.camera_basis
        (c3State.view_scale c3Rect) [c3VertexMesh, c3EdgeMesh, c3FaceMesh]
        = some c3VertexHit
    ∧ c3State.pick_snap c3Cursor c3Rect c3State.camera_basis
        (c3State.view_scale c3Rect) [c3FaceMesh, c3EdgeMesh, c3VertexMesh]
        = some c3VertexHit := by
  refine ⟨?_, ?_, ?_, ?_⟩
  · intro pos best kind world screen depth cur
    exact ⟨consider_snap_out pos best kind world screen depth,
      consider_snap_none_new pos kind world screen depth,
      consider_snap_closer pos cur kind world screen depth,
      consider_snap_tie_win pos cur kind world screen depth,
      consider_snap_tie_depth pos cur kind world screen depth,
      consider_snap_tie_lose pos cur kind world screen depth,
      consider_snap_tie_lose_depth pos cur kind world screen depth,
      consider_snap_far pos cur kind world screen depth⟩
  · norm_num [snap_radius, snap_priority]
  · rw [c3_basis_eq, c3_scale_eq]
    exact c3_pick_ordered
  · rw [c3_basis_eq, c3_scale_eq]
    exact c3_pick_reversed


section C4Lemmas

theorem abs_sub_le_distance_x (p q : Point2) : |p.x - q.x| ≤ p.distance q := by
  rw [show p.distance q = Real.sqrt ((p.x - q.x) * (p.x - q.x)
      + (p.y - q.y) * (p.y - q.y)) from rfl]
  rw [show |p.x - q.x| = Real.sqrt ((p.x - q.x) * (p.x - q.x)) from
    (Real.sqrt_mul_self_eq_abs _).symm]
  exact Real.sqrt_le_sqrt (by nlinarith [mul_self_nonneg (p.y - q.y)])

theorem abs_sub_le_distance_y (p q : Point2) : |p.y - q.y| ≤ p.distance q := by
  rw [show p.distance q = Real.sqrt ((p.x - q.x) * (p.x - q.x)
      + (p.y - q.y) * (p.y - q.y)) from rfl]
  rw [show |p.y - q.y| = Real.sqrt ((p.y - q.y) * (p.y - q.y)) from
    (Real.sqrt_mul_self_eq_abs _).symm]
  exact Real.sqrt_le_sqrt (by nlinarith [mul_self_nonneg (p.x - q.x)])

theorem not_le_dist_of_x (p q : Point2) (c : ℝ) (h : c < |p.x - q.x|) :
    ¬ (p.distance q ≤ c) := fun hle =>
  absurd (le_trans (abs_sub_le_distance_x p q) hle) (not_le.mpr h)

theorem not_le_dist_of_y (p q : Point2) (c : ℝ) (h : c < |p.y - q.y|) :
    ¬ (p.distance q ≤ c) := fun hle =>
  absurd (le_trans (abs_sub_le_distance_y p q) hle) (not_le.mpr h)

theorem clampR_nonneg01 (q : ℝ) : 0 ≤ clampR q 0 1 := by
  rw [clampR]
  exact le_min (le_max_right _ _) (by norm_num)

theorem clampR_le01 (q : ℝ) : clampR q 0 1 ≤ 1 := min_le_right _ _

theorem ptsd_not_le (p a b : Point2) (c : ℝ)
    (h : ∀ t : ℝ, 0 ≤ t → t ≤ 1 →
      ¬ (p.distance (a.addVec ((b.sub a).scale t)) ≤ c)) :
    ¬ (point_to_segment_distance p a b ≤ c) := by
  simp only [point_to_segment_distance]
  exact h _ (clampR_nonneg01 _) (clampR_le01 _)

theorem ptsd_not_le_of_x (p a b : Point2) (c : ℝ) (hab : b.x = a.x)
    (hgt : c < |p.x - a.x|) : ¬ (point_to_segment_distance p a b ≤ c) := by
  apply ptsd_not_le
  intro t ht0 ht1 hle
  have hx := abs_sub_le_distance_x p (a.addVec ((b.sub a).scale t))
  have hxx : (a.addVec ((b.sub a).scale t)).x = a.x := by
    simp only [Point2.addVec, Point2.sub, Vec2.scale]
    rw [hab]; ring
  rw [hxx] at hx
  linarith

theorem ptsd_not_le_of_y (p a b : Point2) (c : ℝ) (hab : b.y = a.y)
    (hgt : c < |p.y - a.y|) : ¬ (point_to_segment_distance p a b ≤ c) := by
  apply ptsd_not_le
  intro t ht0 ht1 hle
  have hy := abs_sub_le_distance_y p (a.addVec ((b.sub a).scale t))
  have hyy : (a.addVec ((b.sub a).scale t)).y = a.y := by
    simp only [Point2.addVec, Point2.sub, Vec2.scale]
    rw [hab]; ring
  rw [hyy] at hy
  linarith

theorem ptsd_not_le_of_y_above (p a b : Point2) (c : ℝ)
    (ha : c < p.y - a.y) (hb : c < p.y - b.y) :
    ¬ (point_to_segment_distance p a b ≤ c) := by
  apply ptsd_not_le
  intro t ht0 ht1 hle
  have hy := abs_sub_le_distance_y p (a.addVec ((b.sub a).scale t))
  have hyy : (a.addVec ((b.sub a).scale t)).y = a.y + (b.y - a.y) * t := by
    simp only [Point2.addVec, Point2.sub, Vec2.scale]
  rw [hyy] at hy
  have hbound : c < p.y - (a.y + (b.y - a.y) * t) := by
    rcases le_total (b.y - a.y) 0 with hd | hd
    · have := mul_nonpos_of_nonpos_of_nonneg hd ht0
      linarith
    · have := mul_le_of_le_one_right hd ht1
      linarith
  have habs := le_abs_self (p.y - (a.y + (b.y - a.y) * t))
  linarith

theorem c4_rect_eq : ViewCube.rect c4Viewport = ⟨⟨868, 12⟩, ⟨988, 132⟩⟩ := by
  simp only [ViewCube.rect, c4Viewport, Rect.width, Rect.height,
    Rect.from_min_size, Rect.right, Rect.top, clampR]
  norm_num [min_def, max_def]

theorem c4_radius_eq : clampR (min (Rect.width ⟨⟨868, 12⟩, ⟨988, 132⟩⟩)
    (Rect.height ⟨⟨868, 12⟩, ⟨988, 132⟩⟩) * 0.1) 7 12 = 12 := by
  norm_num [Rect.width, Rect.height, clampR, min_def, max_def]

theorem c4_threshold_eq : clampR (min (Rect.width ⟨⟨868, 12⟩, ⟨988, 132⟩⟩)
    (Rect.height ⟨⟨868, 12⟩, ⟨988, 132⟩⟩) * 0.06) 6 9 = 7.2 := by
  norm_num [Rect.width, Rect.height, clampR, min_def, max_def]

theorem c4_proj_corner : project_scaled_cube ⟨⟨868, 12⟩, ⟨988, 132⟩⟩ c4Basis
    CORNER_SCALE =
    ⟨[⟨0.35055, -0.07011, -0.49077⟩, ⟨0.35055, -0.49077, 0.07011⟩,
      ⟨-0.35055, -0.49077, 0.07011⟩, ⟨-0.35055, -0.07011, -0.49077⟩,
      ⟨0.35055, 0.49077, -0.07011⟩, ⟨0.35055, 0.07011, 0.49077⟩,
      ⟨-0.35055, 0.07011, 0.49077⟩, ⟨-0.35055, 0.49077, -0.07011⟩],
     [⟨928 + c4A, 72 + 0.2 * c4A⟩, ⟨928 + c4A, 72 + 1.4 * c4A⟩,
      ⟨928 - c4A, 72 + 1.4 * c4A⟩, ⟨928 - c4A, 72 + 0.2 * c4A⟩,
      ⟨928 + c4A, 72 - 1.4 * c4A⟩, ⟨928 + c4A, 72 - 0.2 * c4A⟩,
      ⟨928 - c4A, 72 - 0.2 * c4A⟩, ⟨928 - c4A, 72 - 1.4 * c4A⟩]⟩ := by
  simp only [project_scaled_cube, project_vertices, cube_vertices_scaled,
    CORNER_SCALE, gizmo_pick_scale, Rect.center, Rect.width, Rect.height,
    c4Basis, Vec3.dot, List.map_cons, List.map_nil]
  norm_num [c4A, c4S, CORNER_SCALE, GIZMO_PICK_INSET, GIZMO_PICK_RADIUS,
    min_def, Vec3.mk.injEq, Point2.mk.injEq, List.cons.injEq,
    ProjectedCube.mk.injEq]

theorem c4_proj_edge : project_scaled_cube ⟨⟨868, 12⟩, ⟨988, 132⟩⟩ c4Basis
    EDGE_SCALE =
    ⟨[⟨0.43785, -0.08757, -0.61299⟩, ⟨0.43785, -0.61299, 0.08757⟩,
      ⟨-0.43785, -0.61299, 0.08757⟩, ⟨-0.43785, -0.08757, -0.61299⟩,
      ⟨0.43785, 0.61299, -0.08757⟩, ⟨0.43785, 0.08757, 0.61299⟩,
      ⟨-0.43785, 0.08757, 0.61299⟩, ⟨-0.43785, 0.61299, -0.08757⟩],
     [⟨928 + c4B, 72 + 0.2 * c4B⟩, ⟨928 + c4B, 72 + 1.4 * c4B⟩,
      ⟨928 - c4B, 72 + 1.4 * c4B⟩, ⟨928 - c4B, 72 + 0.2 * c4B⟩,
      ⟨928 + c4B, 72 - 1.4 * c4B⟩, ⟨928 + c4B, 72 - 0.2 * c4B⟩,
      ⟨928 - c4B, 72 - 0.2 * c4B⟩, ⟨928 - c4B, 72 - 1.4 * c4B⟩]⟩ := by
  simp only [project_scaled_cube, project_vertices, cube_vertices_scaled,
    EDGE_SCALE, gizmo_pick_scale, Rect.center, Rect.width, Rect.height,
    c4Basis, Vec3.dot, List.map_cons, List.map_nil]
  norm_num [c4B, c4S, EDGE_SCALE, GIZMO_PICK_INSET, GIZMO_PICK_RADIUS,
    min_def, Vec3.mk.injEq, Point2.mk.injEq, List.cons.injEq,
    ProjectedCube.mk.injEq]

theorem c4A_eq : c4A = 357561 / 13412 := by
  norm_num [c4A, c4S, CORNER_SCALE, GIZMO_PICK_INSET, GIZMO_PICK_RADIUS]

theorem c4B_eq : c4B = 446607 / 13412 := by
  norm_num [c4B, c4S, EDGE_SCALE, GIZMO_PICK_INSET, GIZMO_PICK_RADIUS]

theorem sqrt_le_of_le_sq (a b : ℝ) (ha : 0 ≤ a) (h : b ≤ a ^ 2) :
    Real.sqrt b ≤ a := by
  have h2 := Real.sqrt_le_sqrt h
  rwa [Real.sqrt_sq ha] at h2

theorem c4_pick_corner :
    pick_corner c4Cursor ⟨⟨868, 12⟩, ⟨988, 132⟩⟩ c4Basis = none := by
  have hc0 : ¬ (c4Cursor.distance ⟨928 + c4A, 72 + 0.2 * c4A⟩ ≤ (12 : ℝ)) :=
    not_le_dist_of_y _ _ _ (lt_of_lt_of_le
      (show (12 : ℝ) < c4Cursor.y - (⟨928 + c4A, 72 + 0.2 * c4A⟩ : Point2).y by
        simp only [c4Cursor]; rw [c4A_eq]; norm_num)
      (le_abs_self _))
  have hc2 : ¬ (c4Cursor.distance ⟨928 - c4A, 72 + 1.4 * c4A⟩ ≤ (12 : ℝ)) :=
    not_le_dist_of_x _ _ _ (lt_of_lt_of_le
      (show (12 : ℝ) < c4Cursor.x - (⟨928 - c4A, 72 + 1.4 * c4A⟩ : Point2).x by
        simp only [c4Cursor]; rw [c4A_eq]; norm_num)
      (le_abs_self _))
  have hc3 : ¬ (c4Cursor.distance ⟨928 - c4A, 72 + 0.2 * c4A⟩ ≤ (12 : ℝ)) :=
    not_le_dist_of_x _ _ _ (lt_of_lt_of_le
      (show (12 : ℝ) < c4Cursor.x - (⟨928 - c4A, 72 + 0.2 * c4A⟩ : Point2).x by
        simp only [c4Cursor]; rw [c4A_eq]; norm_num)
      (le_abs_self _))
  have hc4 : ¬ (c4Cursor.distance ⟨928 + c4A, 72 - 1.4 * c4A⟩ ≤ (12 : ℝ)) :=
    not_le_dist_of_y _ _ _ (lt_of_lt_of_le
      (show (12 : ℝ) < c4Cursor.y - (⟨928 + c4A, 72 - 1.4 * c4A⟩ : Point2).y by
        simp only [c4Cursor]; rw [c4A_eq]; norm_num)
      (le_abs_self _))
  have hc5 : ¬ (c4Cursor.distance ⟨928 + c4A, 72 - 0.2 * c4A⟩ ≤ (12 : ℝ)) :=
    not_le_dist_of_y _ _ _ (lt_of_lt_of_le
      (show (12 : ℝ) < c4Cursor.y - (⟨928 + c4A, 72 - 0.2 * c4A⟩ : Point2).y by
        simp only [c4Cursor]; rw [c4A_eq]; norm_num)
      (le_abs_self _))
  have hc6 : ¬ (c4Cursor.distance ⟨928 - c4A, 72 - 0.2 * c4A⟩ ≤ (12 : ℝ)) :=
    not_le_dist_of_x _ _ _ (lt_of_lt_of_le
      (show (12 : ℝ) < c4Cursor.x - (⟨928 - c4A, 72 - 0.2 * c4A⟩ : Point2).x by
        simp only [c4Cursor]; rw [c4A_eq]; norm_num)
      (le_abs_self _))
  have hc7 : ¬ (c4Cursor.distance ⟨928 - c4A, 72 - 1.4 * c4A⟩ ≤ (12 : ℝ)) :=
    not_le_dist_of_x _ _ _ (lt_of_lt_of_le
      (show (12 : ℝ) < c4Cursor.x - (⟨928 - c4A, 72 - 1.4 * c4A⟩ : Point2).x by
        simp only [c4Cursor]; rw [c4A_eq]; norm_num)
      (le_abs_self _))
  have hc1 : c4Cursor.distance ⟨928 + c4A, 72 + 1.4 * c4A⟩ ≤ (12 : ℝ) := by
    rw [show (⟨928 + c4A, 72 + 1.4 * c4A⟩ : Point2) = c4Cursor from rfl,
      show c4Cursor.distance c4Cursor = Real.sqrt
        ((c4Cursor.x - c4Cursor.x) * (c4Cursor.x - c4Cursor.x)
          + (c4Cursor.y - c4Cursor.y) * (c4Cursor.y - c4Cursor.y)) from rfl]
    norm_num [sub_self, Real.sqrt_zero]
  have hz1 : -(0.07011 : ℝ) ≤ (0 : ℝ) := by
    norm_num
  simp only [pick_corner, c4_proj_corner, c4_radius_eq]
  rw [show List.range 8 = [0, 1, 2, 3, 4, 5, 6, 7] from rfl]
  simp only [List.foldl_cons, List.foldl_nil,
    List.getD_cons_zero, List.getD_cons_succ]
  rw [if_neg hc0, if_neg hc2, if_neg hc3, if_neg hc4, if_neg hc5,
    if_neg hc6, if_neg hc7, if_pos hc1, if_pos hz1]
  rfl

theorem c4_ptsd_e0 : point_to_segment_distance c4Cursor
    ⟨928 + c4B, 72 + 0.2 * c4B⟩ ⟨928 + c4B, 72 + 1.4 * c4B⟩
    = Real.sqrt (1982297529 / 44970436) := by
  simp only [point_to_segment_distance, Point2.distance, Point2.sub,
    Vec2.dot, Vec2.scale, Point2.addVec, Vec2.length, clampR, c4Cursor]
  rw [c4A_eq, c4B_eq]
  norm_num [max_def, min_def]

theorem c4_ptsd_e9 : point_to_segment_distance c4Cursor
    ⟨928 + c4B, 72 + 1.4 * c4B⟩ ⟨928 + c4B, 72 - 0.2 * c4B⟩
    = Real.sqrt (1982297529 / 44970436) := by
  simp only [point_to_segment_distance, Point2.distance, Point2.sub,
    Vec2.dot, Vec2.scale, Point2.addVec, Vec2.length, clampR, c4Cursor]
  rw [c4A_eq, c4B_eq]
  norm_num [max_def, min_def]

set_option maxHeartbeats 1600000 in
theorem c4_pick_edge :
    pick_edge c4Cursor ⟨⟨868, 12⟩, ⟨988, 132⟩⟩ c4Basis = some 0 := by
  have he0 : point_to_segment_distance c4Cursor ⟨928 + c4B, 72 + 0.2 * c4B⟩
      ⟨928 + c4B, 72 + 1.4 * c4B⟩ ≤ (7.2 : ℝ) := by
    rw [c4_ptsd_e0]
    exact sqrt_le_of_le_sq 7.2 _ (by norm_num) (by norm_num)
  have he9 : point_to_segment_distance c4Cursor ⟨928 + c4B, 72 + 1.4 * c4B⟩
      ⟨928 + c4B, 72 - 0.2 * c4B⟩ ≤ (7.2 : ℝ) := by
    rw [c4_ptsd_e9]
    exact sqrt_le_of_le_sq 7.2 _ (by norm_num) (by norm_num)
  have he1 : ¬ (point_to_segment_distance c4Cursor ⟨928 + c4B, 72 + 1.4 * c4B⟩
      ⟨928 - c4B, 72 + 1.4 * c4B⟩ ≤ (7.2 : ℝ)) :=
    ptsd_not_le_of_y _ _ _ _ rfl (lt_of_lt_of_le
      (show (7.2 : ℝ)
          < -(c4Cursor.y - (⟨928 + c4B, 72 + 1.4 * c4B⟩ : Point2).y) by
        simp only [c4Cursor]; rw [c4A_eq, c4B_eq]; norm_num)
      (neg_le_abs _))
  have he2 : ¬ (point_to_segment_distance c4Cursor ⟨928 - c4B, 72 + 1.4 * c4B⟩
      ⟨928 - c4B, 72 + 0.2 * c4B⟩ ≤ (7.2 : ℝ)) :=
    ptsd_not_le_of_x _ _ _ _ rfl (lt_of_lt_of_le
      (show (7.2 : ℝ)
          < c4Cursor.x - (⟨928 - c4B, 72 + 1.4 * c4B⟩ : Point2).x by
        simp only [c4Cursor]; rw [c4A_eq, c4B_eq]; norm_num)
      (le_abs_self _))
  have he3 : ¬ (point_to_segment_distance c4Cursor ⟨928 - c4B, 72 + 0.2 * c4B⟩
      ⟨928 + c4B, 72 + 0.2 * c4B⟩ ≤ (7.2 : ℝ)) :=
    ptsd_not_le_of_y _ _ _ _ rfl (lt_of_lt_of_le
      (show (7.2 : ℝ)
          < c4Cursor.y - (⟨928 - c4B, 72 + 0.2 * c4B⟩ : Point2).y by
        simp only [c4Cursor]; rw [c4A_eq, c4B_eq]; norm_num)
      (le_abs_self _))
  have he4 : ¬ (point_to_segment_distance c4Cursor ⟨928 + c4B, 72 - 1.4 * c4B⟩
      ⟨928 + c4B, 72 - 0.2 * c4B⟩ ≤ (7.2 : ℝ)) :=
    ptsd_not_le_of_y_above _ _ _ _
      (show (7.2 : ℝ)
          < c4Cursor.y - (⟨928 + c4B, 72 - 1.4 * c4B⟩ : Point2).y by
        simp only [c4Cursor]; rw [c4A_eq, c4B_eq]; norm_num)
      (show (7.2 : ℝ)
          < c4Cursor.y - (⟨928 + c4B, 72 - 0.2 * c4B⟩ : Point2).y by
        simp only [c4Cursor]; rw [c4A_eq, c4B_eq]; norm_num)
  have he5 : ¬ (point_to_segment_distance c4Cursor ⟨928 + c4B, 72 - 0.2 * c4B⟩
      ⟨928 - c4B, 72 - 0.2 * c4B⟩ ≤ (7.2 : ℝ)) :=
    ptsd_not_le_of_y _ _ _ _ rfl (lt_of_lt_of_le
      (show (7.2 : ℝ)
          < c4Cursor.y - (⟨928 + c4B, 72 - 0.2 * c4B⟩ : Point2).y by
        simp only [c4Cursor]; rw [c4A_eq, c4B_eq]; norm_num)
      (le_abs_self _))
  have he6 : ¬ (point_to_segment_distance c4Cursor ⟨928 - c4B, 72 - 0.2 * c4B⟩
      ⟨928 - c4B, 72 - 1.4 * c4B⟩ ≤ (7.2 : ℝ)) :=
    ptsd_not_le_of_x _ _ _ _ rfl (lt_of_lt_of_le
      (show (7.2 : ℝ)
          < c4Cursor.x - (⟨928 - c4B, 72 - 0.2 * c4B⟩ : Point2).x by
        simp only [c4Cursor]; rw [c4A_eq, c4B_eq]; norm_num)
      (le_abs_self _))
  have he7 : ¬ (point_to_segment_distance c4Cursor ⟨928 - c4B, 72 - 1.4 * c4B⟩
      ⟨928 + c4B, 72 - 1.4 * c4B⟩ ≤ (7.2 : ℝ)) :=
    ptsd_not_le_of_y _ _ _ _ rfl (lt_of_lt_of_le
      (show (7.2 : ℝ)
          < c4Cursor.y - (⟨928 - c4B, 72 - 1.4 * c4B⟩ : Point2).y by
        simp only [c4Cursor]; rw [c4A_eq, c4B_eq]; norm_num)
      (le_abs_self _))
  have he8 : ¬ (point_to_segment_distance c4Cursor ⟨928 + c4B, 72 + 0.2 * c4B⟩
      ⟨928 + c4B, 72 - 1.4 * c4B⟩ ≤ (7.2 : ℝ)) :=
    ptsd_not_le_of_y_above _ _ _ _
      (show (7.2 : ℝ)
          < c4Cursor.y - (⟨928 + c4B, 72 + 0.2 * c4B⟩ : Point2).y by
        simp only [c4Cursor]; rw [c4A_eq, c4B_eq]; norm_num)
      (show (7.2 : ℝ)
          < c4Cursor.y - (⟨928 + c4B, 72 - 1.4 * c4B⟩ : Point2).y by
        simp only [c4Cursor]; rw [c4A_eq, c4B_eq]; norm_num)
  have he10 : ¬ (point_to_segment_distance c4Cursor
      ⟨928 - c4B, 72 + 1.4 * c4B⟩ ⟨928 - c4B, 72 - 0.2 * c4B⟩ ≤ (7.2 : ℝ)) :=
    ptsd_not_le_of_x _ _ _ _ rfl (lt_of_lt_of_le
      (show (7.2 : ℝ)
          < c4Cursor.x - (⟨928 - c4B, 72 + 1.4 * c4B⟩ : Point2).x by
        simp only [c4Cursor]; rw [c4A_eq, c4B_eq]; norm_num)
      (le_abs_self _))
  have he11 : ¬ (point_to_segment_distance c4Cursor
      ⟨928 - c4B, 72 + 0.2 * c4B⟩ ⟨928 - c4B, 72 - 1.4 * c4B⟩ ≤ (7.2 : ℝ)) :=
    ptsd_not_le_of_x _ _ _ _ rfl (lt_of_lt_of_le
      (show (7.2 : ℝ)
          < c4Cursor.x - (⟨928 - c4B, 72 + 0.2 * c4B⟩ : Point2).x by
        simp only [c4Cursor]; rw [c4A_eq, c4B_eq]; norm_num)
      (le_abs_self _))
  have hz0 : ¬ (-((-0.61299 : ℝ) + 0.08757) * 0.5 ≤ (0 : ℝ)) := by norm_num
  have hz9 : -((0.08757 : ℝ) + 0.61299) * 0.5 ≤ (0 : ℝ) := by norm_num
  simp only [pick_edge, c4_proj_edge, c4_threshold_eq]
  rw [show EDGE_DEFS.enum = [(0, (0, 1)), (1, (1, 2)), (2, (2, 3)),
    (3, (3, 0)), (4, (4, 5)), (5, (5, 6)), (6, (6, 7)), (7, (7, 4)),
    (8, (0, 4)), (9, (1, 5)), (10, (2, 6)), (11, (3, 7))] from rfl]
  simp only [List.foldl_cons, List.foldl_nil,
    List.getD_cons_zero, List.getD_cons_succ]
  rw [if_neg he1, if_neg he2, if_neg he3, if_neg he4, if_neg he5,
    if_neg he6, if_neg he7, if_neg he8, if_neg he10, if_neg he11,
    if_pos he0, if_neg hz0, if_pos he9, if_pos hz9]
  rfl

theorem pick_best_update_isSome (idx : ℕ) (dist depth : ℝ)
    (best : Option (ℕ × ℝ × ℝ)) :
    (pick_best_update idx dist depth best).isSome = true := by
  rcases best with _ | ⟨bi, bd, bdp⟩
  · rfl
  · simp only [pick_best_update]
    split
    · rfl
    · rfl

theorem foldl_pick_isSome (f g : ℕ → ℝ) (r : ℝ) (l : List ℕ)
    (b0 : Option (ℕ × ℝ × ℝ))
    (h : b0.isSome = true ∨ ∃ i ∈ l, f i ≤ r ∧ 0 < g i) :
    (l.foldl (fun best idx =>
      if f idx ≤ r then
        (if g idx ≤ 0 then best else pick_best_update idx (f idx) (g idx) best)
      else best) b0).isSome = true := by
  induction l generalizing b0 with
  | nil =>
    rcases h with hb | ⟨i, hi, _⟩
    · exact hb
    · exact absurd hi (List.not_mem_nil i)
  | cons a l ih =>
    simp only [List.foldl_cons]
    apply ih
    rcases h with hb | ⟨i, hi, hcond⟩
    · left
      split
      · split
        · exact hb
        · exact pick_best_update_isSome _ _ _ _
      · exact hb
    · rcases List.mem_cons.mp hi with rfl | hmem
      · left
        rw [if_pos hcond.1, if_neg (not_le.mpr hcond.2)]
        exact pick_best_update_isSome _ _ _ _
      · right
        exact ⟨i, hmem, hcond⟩

theorem pick_corner_ne_none (pos : Point2) (rect : Rect) (basis : ViewBasis)
    (h : ∃ i ∈ List.range 8,
      pos.distance ((project_scaled_cube rect basis CORNER_SCALE).points.getD
          i ⟨0, 0⟩)
        ≤ clampR (min rect.width rect.height * 0.1) 7 12
      ∧ 0 < -((project_scaled_cube rect basis CORNER_SCALE).view.getD
          i Vec3.ZERO).z) :
    pick_corner pos rect basis ≠ none := by
  have hs : ((List.range 8).foldl (fun best idx =>
      if pos.distance ((project_scaled_cube rect basis CORNER_SCALE).points.getD
          idx ⟨0, 0⟩) ≤ clampR (min rect.width rect.height * 0.1) 7 12 then
        (if -((project_scaled_cube rect basis CORNER_SCALE).view.getD
            idx Vec3.ZERO).z ≤ 0 then best
         else pick_best_update idx
           (pos.distance ((project_scaled_cube rect basis
             CORNER_SCALE).points.getD idx ⟨0, 0⟩))
           (-((project_scaled_cube rect basis CORNER_SCALE).view.getD
             idx Vec3.ZERO).z) best)
      else best) (none : Option (ℕ × ℝ × ℝ))).isSome = true :=
    foldl_pick_isSome _ _ _ _ _ (Or.inr h)
  intro hnone
  simp only [pick_corner] at hnone
  rw [Option.map_eq_none'] at hnone
  rw [hnone] at hs
  exact Bool.noConfusion hs

end C4Lemmas

/-- **C4**: inside the gizmo rectangle, `pick_target` applies corner-first
precedence between the three pickers: a corner returned by `pick_corner`
wins over everything, an edge returned by `pick_edge` wins when
`pick_corner` declines, and a face is considered only after both decline;
moreover whenever some front-facing (`depth > 0`) corner lies within the
pick radius, the result is a corner.  The claim's stronger reading — that a
cursor within a corner's pick radius *always* yields that corner, never an
edge — is refuted by `view_cube_back_corner_picks_edge`: `pick_corner`
skips back-facing corners, so an edge can win at a cursor that is exactly
on a back-facing corner's projection. -/
theorem view_cube_corner_first :
    ∀ (pos : Point2) (viewport : Rect) (basis : ViewBasis),
      ((ViewCube.rect viewport).contains pos →
        ∀ ci : ℕ, pick_corner pos (ViewCube.rect viewport) basis = some ci →
          ViewCube.pick_target pos viewport basis
            = some ⟨.corner ci, (cube_vertices.getD ci Vec3.ZERO).normalized⟩)
    ∧ ((ViewCube.rect viewport).contains pos →
        pick_corner pos (ViewCube.rect viewport) basis = none →
        ∀ ei : ℕ, pick_edge pos (ViewCube.rect viewport) basis = some ei →
          ViewCube.pick_target pos viewport basis
            = some ⟨.edge ei,
                (((cube_vertices.getD (EDGE_DEFS.getD ei (0, 0)).1
                    Vec3.ZERO).add
                  (cube_vertices.getD (EDGE_DEFS.getD ei (0, 0)).2
                    Vec3.ZERO)).scale 0.5).normalized⟩)
    ∧ ((ViewCube.rect viewport).contains pos →
        pick_corner pos (ViewCube.rect viewport) basis = none →
        pick_edge pos (ViewCube.rect viewport) basis = none →
        ∀ face : ViewFace,
          pick_face_from_faces pos (compute_faces
            (project_cube (ViewCube.rect viewport) basis) basis) = some face →
          ViewCube.pick_target pos viewport basis
            = some ⟨.face face, face_normal face⟩)
    ∧ ((ViewCube.rect viewport).contains pos →
        (∃ i ∈ List.range 8,
          pos.distance ((project_scaled_cube (ViewCube.rect viewport) basis
              CORNER_SCALE).points.getD i ⟨0, 0⟩)
            ≤ clampR (min (ViewCube.rect viewport).width
                (ViewCube.rect viewport).height * 0.1) 7 12
          ∧ 0 < -((project_scaled_cube (ViewCube.rect viewport) basis
              CORNER_SCALE).view.getD i Vec3.ZERO).z) →
        ∃ ci : ℕ, ViewCube.pick_target pos viewport basis
          = some ⟨.corner ci, (cube_vertices.getD ci Vec3.ZERO).normalized⟩) := by
  intro pos viewport basis
  refine ⟨?_, ?_, ?_, ?_⟩
  · intro hc ci hpick
    simp only [ViewCube.pick_target, hpick]
    rw [if_neg (not_not_intro hc)]
  · intro hc hcn ei hpick
    simp only [ViewCube.pick_target, hcn, hpick]
    rw [if_neg (not_not_intro hc)]
  · intro hc hcn hen face hpick
    simp only [ViewCube.pick_target, hcn, hen, hpick]
    rw [if_neg (not_not_intro hc)]
  · intro hc hex
    have hne := pick_corner_ne_none pos (ViewCube.rect viewport) basis hex
    rcases Option.ne_none_iff_exists'.mp hne with ⟨ci, hci⟩
    refine ⟨ci, ?_⟩
    simp only [ViewCube.pick_target, hci]
    rw [if_neg (not_not_intro hc)]

/-- **C4** counterexample: under `c4Basis` the cursor `c4Cursor` sits at
distance `0 ≤ radius = 12` from projected corner `1`, yet `pick_target`
returns edge `0` (corner `1` is back-facing, so `pick_corner` skips it and
returns none). -/
theorem view_cube_back_corner_picks_edge :
    c4Cursor.distance ((project_scaled_cube (ViewCube.rect c4Viewport) c4Basis
        CORNER_SCALE).points.getD 1 ⟨0, 0⟩) = 0
    ∧ clampR (min (ViewCube.rect c4Viewport).width
        (ViewCube.rect c4Viewport).height * 0.1) 7 12 = 12
    ∧ ViewCube.pick_target c4Cursor c4Viewport c4Basis
        = some ⟨.edge 0,
            (((cube_vertices.getD 0 Vec3.ZERO).add
              (cube_vertices.getD 1 Vec3.ZERO)).scale 0.5).normalized⟩ := by
  have hcont : Rect.contains ⟨⟨868, 12⟩, ⟨988, 132⟩⟩ c4Cursor := by
    simp only [Rect.contains, c4Cursor]
    rw [c4A_eq]
    norm_num
  refine ⟨?_, ?_, ?_⟩
  · simp only [c4_rect_eq, c4_proj_corner, List.getD_cons_succ,
      List.getD_cons_zero]
    rw [show (⟨928 + c4A, 72 + 1.4 * c4A⟩ : Point2) = c4Cursor from rfl,
      show c4Cursor.distance c4Cursor = Real.sqrt
        ((c4Cursor.x - c4Cursor.x) * (c4Cursor.x - c4Cursor.x)
          + (c4Cursor.y - c4Cursor.y) * (c4Cursor.y - c4Cursor.y)) from rfl]
    norm_num [sub_self, Real.sqrt_zero]
  · rw [c4_rect_eq]
    exact c4_radius_eq
  · simp only [ViewCube.pick_target, c4_rect_eq, c4_pick_corner, c4_pick_edge]
    rw [if_neg (not_not_intro hcont)]
    rfl

end
